import Mathlib

/-!
# Simon game controller (`src/esp32/main.cpp`)

A shallow embedding of the firmware's global state and of its functions,
followed by the properties proved about them.

Conventions of the embedding:

* the global variables of the sketch are the fields of `State`;
* a function of the sketch becomes a function from `State` to the new `State`
  together with the list of externally visible effects it performed, in
  program order (`Effect`);
* everything the code reads from outside (clock, pins, Wi-Fi status, random
  generator, inbound messages) is supplied by an explicit environment record,
  one field per read, so that every theorem quantifies over all readings;
* an array access whose index is outside the array is undefined in C++: the
  functions that index `sequence` or `ledPins` return `Option`, `none` standing
  for such an access;
* `int` variables are `Int`: the code only adds or subtracts 1 to values that
  the invariant `Inv` keeps between 0 and 32, so no wrap-around is modelled;
  `unsigned long` clock values are `Nat` reduced modulo `2^32`, with wrapping
  subtraction `usub`;
* the interrupt handlers are steps of their own (`isrButton`) between two
  executions of `loop`, and inside an execution they may fire before each
  channel is polled (`LoopEnv.irq`); `Reachable` collects the states obtained
  from `setup` by these steps.
-/

namespace Simon

/-! ## Constants and basic types -/

/-- Logic level of a digital line (`LOW` / `HIGH`). -/
inductive Level
  | LOW
  | HIGH
  deriving DecidableEq, Repr

/-- The `GameState` enumeration of the sketch. -/
inductive GameState
  | WAIT_START
  | SHOW_SEQUENCE
  | WAIT_INPUT
  | GAME_OVER
  | WAIT_PAIRING
  deriving DecidableEq, Repr

/-- Size of the `sequence` array. -/
def MAX_SEQUENCE : Nat := 32

/-- Debounce interval in milliseconds. -/
def debounceDelay : Nat := 200

/-- Pairing timeout in milliseconds. -/
def PAIRING_TIMEOUT : Nat := 10000

/-- Delay between boot and the first game, in milliseconds. -/
def START_DELAY : Nat := 5000

/-- PWM channel of the buzzer. -/
def buzzerChannel : Int := 0

/-- The array `ledPins[4] = {2, 4, 5, 6}`; `none` outside the array. -/
def ledPins (idx : Int) : Option Int :=
  if idx = 0 then some 2
  else if idx = 1 then some 4
  else if idx = 2 then some 5
  else if idx = 3 then some 6
  else none

/-- Number of values of an `unsigned long` on the target (32 bits). -/
def ULONG : Nat := 4294967296

/-- The value returned by `millis()` when the raw clock reads `clock`. -/
def millis (clock : Nat) : Nat := clock % ULONG

/-- Subtraction of two `unsigned long` values, wrapping modulo `2^32`. -/
def usub (a b : Nat) : Nat := (a % ULONG + ULONG - b % ULONG) % ULONG

/-- Modelled from the spec: the platform function `random(min, max)`, which is
not part of the sources. The spec describes symbol generation as a choice over
`{0,1,2,3}` for `random(0,4)`; `raw` is the output of the underlying generator,
reduced into `[min, max)`. -/
def random (lo hi : Int) (raw : Nat) : Int := lo + (raw : Int) % (hi - lo)

/-- A value stored in a JSON document. -/
inductive JsonValue
  | str (s : String)
  | int (n : Int)
  deriving DecidableEq, Repr

/-- A JSON document, as the list of its members in insertion order. Encoding to
and decoding from text is left to the library and not modelled. -/
abbrev JsonDoc := List (String × JsonValue)

/-- The expression `doc[key] | dflt` for a string default. -/
def jsonStringOr (doc : JsonDoc) (key : String) (dflt : String) : String :=
  match doc.lookup key with
  | some (JsonValue.str v) => v
  | _ => dflt

/-- Externally visible actions of the firmware. -/
inductive Effect
  | ledcWriteTone (channel freq : Int)
  | delay (ms : Nat)
  | digitalWrite (pin : Int) (level : Level)
  | serialPrint (text : String)
  | mqttConnect (clientId : String) (ok : Bool)
  | mqttSubscribe (topic : String)
  | mqttPublish (topic : String) (doc : JsonDoc)
  | wifiBegin (ssid password : String)
  | randomSeed
  deriving DecidableEq, Repr

/-! ## Global state -/

/-- The global variables of the sketch. -/
structure State where
  deviceId : String
  pairedUsername : String
  sequence : Fin 32 → Int
  currentRound : Int
  inputIndex : Int
  gameState : GameState
  buttonFlags : Fin 4 → Bool
  buttonLocked : Fin 4 → Bool
  lastPressTime : Fin 4 → Nat
  pairingSSID : String
  pairingPassword : String
  pairingInProgress : Bool
  pairingStartTime : Nat
  gameReady : Bool
  gameStartTime : Nat

/-- The values of the globals when the program is loaded. -/
def initial : State where
  deviceId := ""
  pairedUsername := ""
  sequence := fun _ => 0
  currentRound := 0
  inputIndex := 0
  gameState := GameState.WAIT_START
  buttonFlags := fun _ => false
  buttonLocked := fun _ => false
  lastPressTime := fun _ => 0
  pairingSSID := ""
  pairingPassword := ""
  pairingInProgress := false
  pairingStartTime := 0
  gameReady := false
  gameStartTime := 0

/-- Read `sequence[i]`; `none` when `i` is outside `0 .. MAX_SEQUENCE - 1`. -/
def readSequence (seq : Fin 32 → Int) (i : Int) : Option Int :=
  if h : 0 ≤ i ∧ i < 32 then some (seq ⟨i.toNat, by omega⟩) else none

/-- Execute `sequence[i] = v`; `none` when `i` is outside the array. -/
def writeSequence (seq : Fin 32 → Int) (i : Int) (v : Int) : Option (Fin 32 → Int) :=
  if h : 0 ≤ i ∧ i < 32 then some (Function.update seq ⟨i.toNat, by omega⟩ v) else none

/-! ## Buzzer -/

/-- Effects of `beep(freq, durationMs)`. -/
def beep (freq : Int) (durationMs : Nat) : List Effect :=
  [Effect.ledcWriteTone buzzerChannel freq, Effect.delay durationMs,
   Effect.ledcWriteTone buzzerChannel 0]

def beepWiFiConnected : List Effect := beep 1500 500

def beepMQTTConnected : List Effect := beep 1800 500

def beepGoodInput : List Effect := beep 2000 100

def beepStartGame : List Effect := beep 1200 500

def beepRoundWin : List Effect := beep 1800 100 ++ [Effect.delay 60] ++ beep 2000 100

/-- Three iterations of `beep(600,100); delay(80);`. -/
def beepGameOver : List Effect :=
  (beep 600 100 ++ [Effect.delay 80]) ++ (beep 600 100 ++ [Effect.delay 80]) ++
    (beep 600 100 ++ [Effect.delay 80])

/-! ## Interrupt handlers -/

/-- Common body of the four handlers: `buttonFlags[i] = true`. -/
def isrButton (i : Fin 4) (s : State) : State :=
  { s with buttonFlags := Function.update s.buttonFlags i true }

def isrButton0 (s : State) : State := isrButton 0 s

def isrButton1 (s : State) : State := isrButton 1 s

def isrButton2 (s : State) : State := isrButton 2 s

def isrButton3 (s : State) : State := isrButton 3 s

/-! ## MQTT -/

/-- One invocation of `callback` by the MQTT client: the topic, the outcome of
`deserializeJson` on the payload (`none` for an error) and the raw clock read by
`millis()`. -/
structure Delivery where
  topic : String
  doc : Option JsonDoc
  clock : Nat

/-- The function `callback`. -/
def callback (d : Delivery) (s : State) : State × List Effect :=
  match d.doc with
  | none => (s, [])
  | some doc =>
    if d.topic = "simon/pair" then
      ({ s with
          pairingSSID := jsonStringOr doc "ssid" ""
          pairingPassword := jsonStringOr doc "password" ""
          pairedUsername := jsonStringOr doc "username" ""
          pairingInProgress := true
          pairingStartTime := millis d.clock },
        [Effect.serialPrint ("Appairage demandé pour SSID: " ++ jsonStringOr doc "ssid" "")])
    else (s, [])

/-- The function `ensureMqtt`, run when the client is not connected: `failures`
lists the client state printed after each failed `mqtt.connect`, the attempt
after them succeeds. A broker that never answers (the loop not returning) is
outside the model. -/
def ensureMqtt (failures : List Int) (s : State) : List Effect :=
  match failures with
  | [] =>
    [Effect.mqttConnect ("ESP32-" ++ s.deviceId) true, Effect.mqttSubscribe "simon/pair"] ++
      beepMQTTConnected ++ [Effect.serialPrint "MQTT connecté"]
  | st :: rest =>
    [Effect.mqttConnect ("ESP32-" ++ s.deviceId) false,
     Effect.serialPrint "Erreur MQTT, retry in 2s: ",
     Effect.serialPrint (toString st), Effect.delay 2000] ++ ensureMqtt rest s

/-- What `publishScore` reads from outside: whether the MQTT client is down
(`some failures`, see `ensureMqtt`) and the value of `WiFi.SSID()`. -/
structure PublishEnv where
  mqttDown : Option (List Int)
  wifiSSID : String

/-- The JSON document built by `publishScore`. -/
def scoreDoc (ssid username : String) (score : Int) : JsonDoc :=
  [("ssid", JsonValue.str ssid), ("username", JsonValue.str username),
   ("score", JsonValue.int score)]

/-- The function `publishScore`. -/
def publishScore (score : Int) (e : PublishEnv) (s : State) : State × List Effect :=
  let reconnect : List Effect :=
    match e.mqttDown with
    | none => []
    | some failures => ensureMqtt failures s
  if s.pairedUsername = "" then (s, reconnect)
  else (s, reconnect ++ [Effect.mqttPublish "simon/scores" (scoreDoc e.wifiSSID s.pairedUsername score)])

/-! ## Game logic -/

/-- The function `lightLed(idx, onTime, offTime)`; the call `lightLed(idx)` of the
source is `lightLed idx 400 100`. -/
def lightLed (idx : Int) (onTime : Nat) (offTime : Nat) : Option (List Effect) :=
  match ledPins idx with
  | none => none
  | some pin =>
    some [Effect.digitalWrite pin Level.HIGH, Effect.delay onTime,
          Effect.digitalWrite pin Level.LOW, Effect.delay offTime]

/-- What `startNewGame` reads from outside: the raw generator output behind
`random(0,4)` and the raw clock at each of the four `millis()` calls. -/
structure NewGameEnv where
  rawRandom : Nat
  clock : Fin 4 → Nat

/-- The function `startNewGame`. Its loop runs over the four channels, so the
three per-channel arrays are rewritten at every index. -/
def startNewGame (e : NewGameEnv) (s : State) : State × List Effect :=
  ({ s with
      sequence := Function.update s.sequence 0 (random 0 4 e.rawRandom)
      currentRound := 1
      inputIndex := 0
      gameState := GameState.SHOW_SEQUENCE
      buttonFlags := fun _ => false
      buttonLocked := fun _ => false
      lastPressTime := fun i => millis (e.clock i) },
    [Effect.randomSeed] ++ beepStartGame)

/-- The loop of `showSequence` from index `i`, with `n` iterations left. -/
def showFrom (seq : Fin 32 → Int) (i : Nat) : Nat → Option (List Effect)
  | 0 => some []
  | n + 1 =>
    match readSequence seq i with
    | none => none
    | some sym =>
      match lightLed sym 400 100 with
      | none => none
      | some l =>
        match showFrom seq (i + 1) n with
        | none => none
        | some rest => some (l ++ rest)

/-- The function `showSequence`. -/
def showSequence (s : State) : Option (State × List Effect) :=
  match showFrom s.sequence 0 s.currentRound.toNat with
  | none => none
  | some lights =>
    some ({ s with inputIndex := 0, gameState := GameState.WAIT_INPUT },
          [Effect.delay 400] ++ lights)

/-- What `handleUserInput` reads from outside: the raw generator output for the
symbol appended on a completed round, the readings of `publishScore` and those
of `startNewGame`. -/
structure InputEnv where
  rawRandom : Nat
  publish : PublishEnv
  newGame : NewGameEnv

/-- Effects of the loop switching the four LEDs off. -/
def ledsOff : List Effect :=
  [Effect.digitalWrite 2 Level.LOW, Effect.digitalWrite 4 Level.LOW,
   Effect.digitalWrite 5 Level.LOW, Effect.digitalWrite 6 Level.LOW]

/-- The function `handleUserInput`. -/
def handleUserInput (idx : Int) (e : InputEnv) (s : State) : Option (State × List Effect) :=
  match readSequence s.sequence s.inputIndex with
  | none => none
  | some expected =>
    if idx ≠ expected then
      let s1 : State := { s with gameState := GameState.WAIT_PAIRING }
      let r := publishScore (s1.currentRound - 1) e.publish s1
      some (r.1, beepGameOver ++ r.2 ++ ledsOff ++
        [Effect.ledcWriteTone buzzerChannel 0,
         Effect.serialPrint "Game over, en attente d'un nouvel appairage..."])
    else
      match lightLed idx 200 50 with
      | none => none
      | some light =>
        let s1 : State := { s with inputIndex := s.inputIndex + 1 }
        if s1.inputIndex ≥ s1.currentRound then
          if s1.currentRound < (MAX_SEQUENCE : Int) then
            match writeSequence s1.sequence s1.currentRound (random 0 4 e.rawRandom) with
            | none => none
            | some seq =>
              some ({ s1 with
                      sequence := seq
                      currentRound := s1.currentRound + 1
                      gameState := GameState.SHOW_SEQUENCE },
                    beepGoodInput ++ light ++ beepRoundWin)
          else
            let r := publishScore s1.currentRound e.publish s1
            let g := startNewGame e.newGame r.1
            some (g.1, beepGoodInput ++ light ++ r.2 ++ g.2)
        else some (s1, beepGoodInput ++ light)

/-! ## Setup and the main loop -/

/-- What `setup` reads from outside and stores: the MAC address with the colons
removed and the raw clock at `gameStartTime = millis()`. -/
structure SetupEnv where
  mac : String
  clock : Nat

/-- The writes of `setup` to the globals. Pin configuration, interrupt
registration and the first Wi-Fi and MQTT connections change no global and are
not traced. -/
def setup (e : SetupEnv) (s : State) : State :=
  { s with deviceId := e.mac, gameStartTime := millis e.clock }

/-- What the body of the button loop reads for one channel: the two
`digitalRead` results and the raw clock at `now = millis()`, and the readings of
`handleUserInput` if it is called. -/
structure ButtonEnv where
  read1 : Level
  clock : Nat
  read2 : Level
  input : InputEnv

/-- What one execution of `loop` reads from outside. `inbox` lists the
deliveries made by `mqtt.loop()`; `wifiConnected1` and `wifiConnected2` are the
outcomes of the two tests of `WiFi.status()` against `WL_CONNECTED`;
`irq k i` tells whether the interrupt of channel `i` fires after the previous
statement and before channel `k` is polled. -/
structure LoopEnv where
  inbox : List Delivery
  wifiConnected1 : Bool
  wifiConnected2 : Bool
  pairClock : Nat
  pairNewGame : NewGameEnv
  startClock : Nat
  startNewGame : NewGameEnv
  irq : Fin 4 → Fin 4 → Bool
  button : Fin 4 → ButtonEnv

/-- The call `mqtt.loop()`: `callback` runs once per delivery, in order. -/
def mqttLoop (inbox : List Delivery) (s : State) : State × List Effect :=
  match inbox with
  | [] => (s, [])
  | d :: rest =>
    let r := callback d s
    let q := mqttLoop rest r.1
    (q.1, r.2 ++ q.2)

/-- The acknowledgement document built in `loop`. -/
def ackDoc (ssid username status : String) : JsonDoc :=
  [("ssid", JsonValue.str ssid), ("username", JsonValue.str username),
   ("status", JsonValue.str status)]

/-- The pairing part of `loop` (`if(pairingInProgress) ...`). -/
def pairingStep (e : LoopEnv) (s : State) : State × List Effect :=
  if s.pairingInProgress then
    let join : List Effect :=
      if !e.wifiConnected1 then [Effect.wifiBegin s.pairingSSID s.pairingPassword] else []
    if e.wifiConnected2 then
      let s1 : State := { s with pairingInProgress := false }
      let g := startNewGame e.pairNewGame s1
      ({ g.1 with gameReady := true },
        join ++ [Effect.serialPrint ("Appairage réussi avec: " ++ s1.pairedUsername)] ++
          beepWiFiConnected ++
          [Effect.mqttPublish "simon/pair/ack" (ackDoc s1.pairingSSID s1.pairedUsername "paired")] ++
          g.2)
    else if usub (millis e.pairClock) s.pairingStartTime > PAIRING_TIMEOUT then
      ({ s with pairingInProgress := false },
        join ++ [Effect.serialPrint "Appairage échoué",
          Effect.mqttPublish "simon/pair/ack" (ackDoc s.pairingSSID s.pairedUsername "failed")])
    else (s, join)
  else (s, [])

/-- The delayed start of `loop` (`if(!gameReady && ...)`). -/
def startDelayStep (e : LoopEnv) (s : State) : State × List Effect :=
  if !s.gameReady && decide (usub (millis e.startClock) s.gameStartTime ≥ START_DELAY) then
    let g := startNewGame e.startNewGame s
    ({ g.1 with gameReady := true }, g.2)
  else (s, [])

/-- First statement of the body of the button loop:
`if(buttonLocked[i] && digitalRead(buttonPins[i])==HIGH) buttonLocked[i]=false;`
where `level` is the result of `digitalRead`. -/
def unlockIfReleased (i : Fin 4) (level : Level) (s : State) : State :=
  if s.buttonLocked i = true ∧ level = Level.HIGH then
    { s with buttonLocked := Function.update s.buttonLocked i false }
  else s

/-- The body of the button loop of `loop` for channel `i`. -/
def pollButton (i : Fin 4) (e : ButtonEnv) (s : State) : Option (State × List Effect) :=
  let s1 : State := unlockIfReleased i e.read1 s
  if s1.buttonFlags i = true then
    let s2 : State := { s1 with buttonFlags := Function.update s1.buttonFlags i false }
    let now := millis e.clock
    if s2.buttonLocked i = true then some (s2, [])
    else if e.read2 = Level.LOW ∧ usub now (s2.lastPressTime i) > debounceDelay then
      let s3 : State :=
        { s2 with
            lastPressTime := Function.update s2.lastPressTime i now
            buttonLocked := Function.update s2.buttonLocked i true }
      if s3.gameState = GameState.WAIT_INPUT then handleUserInput (i.val : Int) e.input s3
      else some (s3, [])
    else some (s2, [])
  else some (s1, [])

/-- The interrupts that fire at one point of the loop: every channel `i` with
`irq i` runs its handler. -/
def raiseInterrupts (irq : Fin 4 → Bool) (s : State) : State :=
  { s with buttonFlags := fun i => if irq i then true else s.buttonFlags i }

/-- The button loop of `loop` over the channels in `chans`, in order; before
each channel is polled the pending interrupts of the environment are taken. -/
def pollButtons (e : LoopEnv) (chans : List (Fin 4)) (s : State) : Option (State × List Effect) :=
  match chans with
  | [] => some (s, [])
  | i :: rest =>
    match pollButton i (e.button i) (raiseInterrupts (e.irq i) s) with
    | none => none
    | some r =>
      match pollButtons e rest r.1 with
      | none => none
      | some q => some (q.1, r.2 ++ q.2)

/-- The final `switch(gameState)` of `loop`. -/
def gameStateStep (s : State) : Option (State × List Effect) :=
  match s.gameState with
  | GameState.SHOW_SEQUENCE => showSequence s
  | GameState.WAIT_INPUT => some (s, [])
  | GameState.GAME_OVER => some (s, [])
  | GameState.WAIT_START => some (s, [])
  | GameState.WAIT_PAIRING => some (s, [])

/-- The function `loop`. -/
def loop (e : LoopEnv) (s : State) : Option (State × List Effect) :=
  let m := mqttLoop e.inbox s
  let p := pairingStep e m.1
  if p.1.gameState = GameState.WAIT_PAIRING then some (p.1, m.2 ++ p.2)
  else
    let d := startDelayStep e p.1
    match pollButtons e [0, 1, 2, 3] d.1 with
    | none => none
    | some b =>
      match gameStateStep b.1 with
      | none => none
      | some g => some (g.1, m.2 ++ p.2 ++ d.2 ++ b.2 ++ g.2)

/-- States the device can be in: after `setup`, after an interrupt handler, or
after an execution of `loop` that performed no out-of-bounds access. -/
inductive Reachable : State → Prop
  | boot (e : SetupEnv) : Reachable (setup e initial)
  | interrupt (i : Fin 4) (s : State) : Reachable s → Reachable (isrButton i s)
  | tick (e : LoopEnv) (s s1 : State) (out : List Effect) :
      Reachable s → loop e s = some (s1, out) → Reachable s1

/-! ## Observations on effect traces -/

/-- The documents published on `topic`, in order. -/
def publishedOn (topic : String) : List Effect → List JsonDoc
  | [] => []
  | Effect.mqttPublish t doc :: rest =>
    if t = topic then doc :: publishedOn topic rest else publishedOn topic rest
  | _ :: rest => publishedOn topic rest

/-- The score reports of a trace. -/
def scoreReports (out : List Effect) : List JsonDoc := publishedOn "simon/scores" out

/-- The pairing acknowledgements of a trace. -/
def pairingAcks (out : List Effect) : List JsonDoc := publishedOn "simon/pair/ack" out

/-- Successive calls of `handleUserInput`, one per press, each with its own
readings; the traces are concatenated. -/
def handlePresses : List (Int × InputEnv) → State → Option (State × List Effect)
  | [], s => some (s, [])
  | p :: rest, s =>
    match handleUserInput p.1 p.2 s with
    | none => none
    | some r =>
      match handlePresses rest r.1 with
      | none => none
      | some q => some (q.1, r.2 ++ q.2)

/-! ## Frames and invariants -/

/-- The state `s1` differs from `s` at most in the three per-channel arrays. -/
def ChannelsOnly (s s1 : State) : Prop :=
  s1 = { s with
          buttonFlags := s1.buttonFlags
          buttonLocked := s1.buttonLocked
          lastPressTime := s1.lastPressTime }

/-- The state `s1` differs from `s` at most in the pairing variables and
`pairedUsername`. -/
def PairingOnly (s s1 : State) : Prop :=
  s1 = { s with
          pairingSSID := s1.pairingSSID
          pairingPassword := s1.pairingPassword
          pairedUsername := s1.pairedUsername
          pairingInProgress := s1.pairingInProgress
          pairingStartTime := s1.pairingStartTime }

/-- The invariant of the game variables: cursor and round are ordered and
bounded, the cursor is strictly inside the round while input is awaited, the
round is 0 exactly before the first game, `gameReady` records that a game was
started, `GAME_OVER` is not entered and the active symbols are button
indices. -/
def Inv (s : State) : Prop :=
  0 ≤ s.inputIndex ∧ s.inputIndex ≤ s.currentRound ∧ s.currentRound ≤ 32 ∧
  (s.gameState = GameState.WAIT_INPUT → s.inputIndex < s.currentRound) ∧
  (s.gameState = GameState.WAIT_START ↔ s.currentRound = 0) ∧
  (s.gameState = GameState.WAIT_START ↔ s.gameReady = false) ∧
  s.gameState ≠ GameState.GAME_OVER ∧
  (∀ i : Fin 32, (i.val : Int) < s.currentRound → 0 ≤ s.sequence i ∧ s.sequence i < 4)

/-- How the round can move while buttons are polled: either it keeps its value
(and input is awaited afterwards only if it was before), or input was awaited,
no longer is, and the round went to 1 (reset) or one up from below 32. -/
def RoundStep (s s1 : State) : Prop :=
  (s1.currentRound = s.currentRound ∧
    (s1.gameState = GameState.WAIT_INPUT → s.gameState = GameState.WAIT_INPUT)) ∨
  (s.gameState = GameState.WAIT_INPUT ∧ s1.gameState ≠ GameState.WAIT_INPUT ∧
    (s1.currentRound = 1 ∨ (s1.currentRound = s.currentRound + 1 ∧ s.currentRound < 32)))

/-- The pairing variables and `pairedUsername` have the same values in `s1` as
in `s`. -/
def PairingKept (s s1 : State) : Prop :=
  s1.pairingInProgress = s.pairingInProgress ∧ s1.pairingStartTime = s.pairingStartTime ∧
  s1.pairingSSID = s.pairingSSID ∧ s1.pairingPassword = s.pairingPassword ∧
  s1.pairedUsername = s.pairedUsername

/-! ## The outcome of a poll -/

/-- The poll of channel `i` accepts a press, that is, it reaches the statements
`lastPressTime[i]=now; buttonLocked[i]=true;`: after the first statement of the
loop body the pending flag is set, the channel is not locked, the second
`digitalRead` is `LOW` and more than `debounceDelay` has elapsed. -/
def accepts (i : Fin 4) (e : ButtonEnv) (s : State) : Bool :=
  decide ((unlockIfReleased i e.read1 s).buttonFlags i = true ∧
    ¬ (unlockIfReleased i e.read1 s).buttonLocked i = true ∧
    e.read2 = Level.LOW ∧
    usub (millis e.clock) ((unlockIfReleased i e.read1 s).lastPressTime i) > debounceDelay)

/-- The state in which an accepting poll of channel `i` tests `gameState`. -/
def acceptedState (i : Fin 4) (e : ButtonEnv) (s : State) : State :=
  { unlockIfReleased i e.read1 s with
      buttonFlags := Function.update (unlockIfReleased i e.read1 s).buttonFlags i false
      lastPressTime :=
        Function.update (unlockIfReleased i e.read1 s).lastPressTime i (millis e.clock)
      buttonLocked := Function.update (unlockIfReleased i e.read1 s).buttonLocked i true }

/-- The state left by a poll of channel `i` that accepts no press. -/
def rejectedState (i : Fin 4) (e : ButtonEnv) (s : State) : State :=
  if (unlockIfReleased i e.read1 s).buttonFlags i = true then
    { unlockIfReleased i e.read1 s with
        buttonFlags := Function.update (unlockIfReleased i e.read1 s).buttonFlags i false }
  else unlockIfReleased i e.read1 s

/-! ## Executions and the presses they accept -/

/-- One step of an execution after `setup`: an interrupt between two executions
of `loop`, or an execution of `loop`. -/
inductive Step
  | interrupt (i : Fin 4)
  | tick (e : LoopEnv)

/-- The presses accepted by the button loop of `loop` over the channels `chans`,
in order: the channel and the value of `now` stored in `lastPressTime`. The
list stops where a poll performs an out-of-bounds access. -/
def pollAccepts (e : LoopEnv) : List (Fin 4) → State → List (Fin 4 × Nat)
  | [], _ => []
  | i :: rest, s =>
    (if accepts i (e.button i) (raiseInterrupts (e.irq i) s) = true
      then [(i, millis (e.button i).clock)] else []) ++
      match pollButton i (e.button i) (raiseInterrupts (e.irq i) s) with
      | none => []
      | some r => pollAccepts e rest r.1

/-- The presses accepted by one execution of `loop`. -/
def loopAccepts (e : LoopEnv) (s : State) : List (Fin 4 × Nat) :=
  if (pairingStep e (mqttLoop e.inbox s).1).1.gameState = GameState.WAIT_PAIRING then []
  else pollAccepts e [0, 1, 2, 3] (startDelayStep e (pairingStep e (mqttLoop e.inbox s).1).1).1

/-- The presses accepted along an execution, in order. -/
def runAccepts : List Step → State → List (Fin 4 × Nat)
  | [], _ => []
  | Step.interrupt i :: rest, s => runAccepts rest (isrButton i s)
  | Step.tick e :: rest, s =>
    loopAccepts e s ++
      match loop e s with
      | none => []
      | some r => runAccepts rest r.1

/-- The raw clocks read by the four `millis()` calls of `startNewGame`. -/
def newGameClocks (e : NewGameEnv) : List Nat := [e.clock 0, e.clock 1, e.clock 2, e.clock 3]

/-- The raw clocks a poll can store in `lastPressTime`, in program order: the
one read at `now = millis()`, then those of `startNewGame` called from
`handleUserInput`. -/
def buttonClocks (e : ButtonEnv) : List Nat := e.clock :: newGameClocks e.input.newGame

/-- The raw clocks of the polls of the channels `chans`, in program order. -/
def pollClocks (e : LoopEnv) : List (Fin 4) → List Nat
  | [] => []
  | i :: rest => buttonClocks (e.button i) ++ pollClocks e rest

/-- The raw clocks one execution of `loop` can store in `lastPressTime`, in
program order: `startNewGame` on pairing success, `startNewGame` on the delayed
start, then the polls. -/
def loopClocks (e : LoopEnv) : List Nat :=
  newGameClocks e.pairNewGame ++ (newGameClocks e.startNewGame ++ pollClocks e [0, 1, 2, 3])

/-- The raw clocks an execution can store in `lastPressTime`, in program
order. -/
def runClocks : List Step → List Nat
  | [] => []
  | Step.interrupt _ :: rest => runClocks rest
  | Step.tick e :: rest => loopClocks e ++ runClocks rest

/-- A non-wrapping clock: the readings never decrease and stay below `2^32`. -/
def NonWrapping (clocks : List Nat) : Prop :=
  clocks.Pairwise (fun a b => a ≤ b) ∧ ∀ c ∈ clocks, c < ULONG

/-- Accepted presses of one channel are more than `debounceDelay` apart. -/
def Spaced (l : List (Fin 4 × Nat)) : Prop :=
  l.Pairwise (fun a b => a.1 = b.1 → a.2 + debounceDelay < b.2)

/-- Bookkeeping for the spacing of accepted presses: `g i` is below
`lastPressTime[i]`, which is below every clock still to be read. -/
def Ghost (g : Fin 4 → Nat) (s : State) (future : List Nat) : Prop :=
  (∀ i, g i ≤ s.lastPressTime i) ∧ (∀ i, ∀ c ∈ future, s.lastPressTime i ≤ c)

/-- A stretch of accepted presses `l` that moves the bookkeeping from `g` to
`g1`: every press is more than `debounceDelay` after `g` of its channel, the
presses are spaced, `g1` is above `g` and above every press of `l`. -/
def Seg (g g1 : Fin 4 → Nat) (l : List (Fin 4 × Nat)) : Prop :=
  (∀ a ∈ l, g a.1 + debounceDelay < a.2) ∧ Spaced l ∧ (∀ i, g i ≤ g1 i) ∧
  (∀ a ∈ l, a.2 ≤ g1 a.1)

/-! ## The replay as a list of actuations -/

/-- The pins switched on by a trace, in order. -/
def litPins : List Effect → List Int
  | [] => []
  | Effect.digitalWrite pin Level.HIGH :: rest => pin :: litPins rest
  | _ :: rest => litPins rest

/-- The symbols `sequence[i], ..., sequence[i+n-1]`. -/
def symbolsFrom (seq : Fin 32 → Int) (i n : Nat) : List Int :=
  (List.range' i n).map (fun (k : Nat) => (readSequence seq (k : Int)).getD 0)

/-- The trace of one light actuation `lightLed(sym)` (empty outside `ledPins`). -/
def lightTrace (sym : Int) : List Effect := (lightLed sym 400 100).getD []

/-- The LED pin of a symbol (0 outside `ledPins`). -/
def ledPinOf (sym : Int) : Int := (ledPins sym).getD 0

/-! ## Sample data -/

/-- Readings of `publishScore` with the MQTT client connected. -/
def connectedPublish : PublishEnv := { mqttDown := none, wifiSSID := "Teddy" }

/-- Sample readings of `startNewGame`. -/
def sampleNewGame : NewGameEnv := { rawRandom := 7, clock := fun _ => 6000 }

/-- Sample readings of `handleUserInput`. -/
def sampleInput : InputEnv :=
  { rawRandom := 5, publish := connectedPublish, newGame := sampleNewGame }

/-- The array `sequence` holding `2, 0` followed by zeros. -/
def sequence20 : Fin 32 → Int := fun i => if i = 0 then 2 else 0

/-- The array `sequence` holding 1 at every index. -/
def sequenceOnes : Fin 32 → Int := fun _ => 1

/-- A state waiting for input on `seq`, with the given round, cursor and
paired user. -/
def awaiting (seq : Fin 32 → Int) (round cursor : Int) (user : String) : State :=
  { initial with
      sequence := seq
      currentRound := round
      inputIndex := cursor
      gameState := GameState.WAIT_INPUT
      gameReady := true
      pairedUsername := user }

/-- Sample readings of `setup`. -/
def sampleSetup : SetupEnv := { mac := "A0B1C2D3E4F5", clock := 1000 }

/-- Readings of one execution of `loop` at raw clock `clock` with no inbound
message, the network not joined, no interrupt and all lines released. -/
def quietTick (clock : Nat) : LoopEnv :=
  { inbox := []
    wifiConnected1 := false
    wifiConnected2 := false
    pairClock := clock
    pairNewGame := sampleNewGame
    startClock := clock
    startNewGame := sampleNewGame
    irq := fun _ _ => false
    button := fun _ =>
      { read1 := Level.HIGH, clock := clock, read2 := Level.HIGH, input := sampleInput } }

/-- A state waiting for input with every channel locked and pending. -/
def lockedPending : State :=
  { awaiting sequence20 2 0 "ana" with
      buttonFlags := fun _ => true
      buttonLocked := fun _ => true }

/-- Readings of a poll at raw clock 7000 with the line held down. -/
def pressedLine : ButtonEnv :=
  { read1 := Level.LOW, clock := 7000, read2 := Level.LOW, input := sampleInput }

/-- Readings of a poll at raw clock 7000 whose first `digitalRead` sees the line
released and whose second sees it pressed. -/
def bouncingLine : ButtonEnv :=
  { read1 := Level.HIGH, clock := 7000, read2 := Level.LOW, input := sampleInput }

/-- A halted game (`WAIT_PAIRING`) with a pairing attempt in progress since raw
clock 1000. -/
def pairingAttempt : State :=
  { awaiting sequence20 2 1 "ana" with
      gameState := GameState.WAIT_PAIRING
      pairingSSID := "Home"
      pairingPassword := "secret"
      pairingInProgress := true
      pairingStartTime := 1000 }

/-- Readings of one execution of `loop` at raw clock `clock` with the network
joined, no inbound message and no interrupt. -/
def joinedTick (clock : Nat) : LoopEnv :=
  { quietTick clock with wifiConnected1 := true, wifiConnected2 := true }

/-- A halted game (`WAIT_PAIRING`) with no pairing attempt in progress and every
channel pending and locked. -/
def haltedPending : State :=
  { pairingAttempt with
      pairingInProgress := false
      buttonFlags := fun _ => true
      buttonLocked := fun _ => true }

/-- The result of the first execution of `loop` after the start delay, an
interrupt of channel 2 having fired after `setup`. -/
def firstGame : State × List Effect :=
  (loop (quietTick 6000) (isrButton 2 (setup sampleSetup initial))).getD (initial, [])


/-- A pairing request for SSID "Cafe" and user "bob", delivered at raw clock
2000. -/
def pairRequest : Delivery :=
  { topic := "simon/pair"
    doc := some [("ssid", JsonValue.str "Cafe"), ("password", JsonValue.str "pw"),
      ("username", JsonValue.str "bob")]
    clock := 2000 }


/-- A halted game with a pairing attempt in progress and every channel pending
and locked. -/
def pairingLocked : State :=
  { pairingAttempt with
      buttonFlags := fun _ => true
      buttonLocked := fun _ => true }

/-- Readings of one execution of `loop` at raw clock `clock` with the network
joined and every line held down at both readings of each poll. -/
def heldJoinedTick (clock : Nat) : LoopEnv :=
  { joinedTick clock with
      button := fun _ =>
        { read1 := Level.LOW, clock := clock, read2 := Level.LOW, input := sampleInput } }


/-- A state waiting for input with every channel locked and none pending. -/
def lockedIdle : State :=
  { lockedPending with buttonFlags := fun _ => false }


/-- Readings of `startNewGame` with all four clocks at `clock`. -/
def newGameAt (clock : Nat) : NewGameEnv := { rawRandom := 6, clock := fun _ => clock }

/-- Readings of one execution of `loop` in which every clock reads `clock`, the
network is not joined, the interrupt of channel 2 fires before channel 2 is
polled and every line is held down. -/
def pressTick (clock : Nat) : LoopEnv :=
  { inbox := []
    wifiConnected1 := false
    wifiConnected2 := false
    pairClock := clock
    pairNewGame := newGameAt clock
    startClock := clock
    startNewGame := newGameAt clock
    irq := fun k i => decide (k = 2 ∧ i = 2)
    button := fun _ =>
      { read1 := Level.LOW, clock := clock, read2 := Level.LOW,
        input := { rawRandom := 5, publish := connectedPublish, newGame := newGameAt clock } } }

/-- Readings of one execution of `loop` in which every clock reads `clock`, the
network is not joined, the interrupt of channel 2 fires before channel 2 is
polled and every line is released at the first reading of a poll and held down
at the second. -/
def bounceTick (clock : Nat) : LoopEnv :=
  { pressTick clock with
      button := fun _ =>
        { read1 := Level.HIGH, clock := clock, read2 := Level.LOW,
          input := { rawRandom := 5, publish := connectedPublish, newGame := newGameAt clock } } }

/-- An execution after `setup`: the first game starts at 6000, then channel 2
is pressed at 7000, bounces at 7100 and is pressed again at 7300. -/
def sampleRun : List Step :=
  [Step.tick (pressTick 6000), Step.tick (pressTick 7000), Step.tick (bounceTick 7100),
   Step.tick (bounceTick 7300)]


/-- A state about to replay the sequence `2, 0` of round 2. -/
def replaying : State :=
  { awaiting sequence20 2 1 "ana" with gameState := GameState.SHOW_SEQUENCE }


/-- A state waiting for the last press of round 32 (cursor 31, all symbols 1)
with every channel pending. -/
def lastRoundPending : State :=
  { awaiting sequenceOnes 32 31 "ana" with buttonFlags := fun _ => true }

/-- Readings of a poll at raw clock 7000 with the line held down, where a
`startNewGame` called from `handleUserInput` reads clock 7650. -/
def lastPressLine : ButtonEnv :=
  { read1 := Level.LOW, clock := 7000, read2 := Level.LOW,
    input := { rawRandom := 5, publish := connectedPublish, newGame := newGameAt 7650 } }

/-! ## Basic facts -/

theorem readSequence_nat (seq : Fin 32 → Int) (n : Nat) (h : n < 32) :
    readSequence seq (n : Int) = some (seq ⟨n, h⟩) := by
  unfold readSequence
  have h2 : (0 : Int) ≤ (n : Int) ∧ (n : Int) < 32 := by omega
  rw [dif_pos h2]
  simp

theorem readSequence_some_bounds (seq : Fin 32 → Int) (i v : Int)
    (h : readSequence seq i = some v) : 0 ≤ i ∧ i < 32 := by
  unfold readSequence at h
  by_cases hb : 0 ≤ i ∧ i < 32
  · exact hb
  · rw [dif_neg hb] at h
    cases h

theorem writeSequence_nat (seq : Fin 32 → Int) (n : Nat) (h : n < 32) (v : Int) :
    writeSequence seq (n : Int) v = some (Function.update seq ⟨n, h⟩ v) := by
  unfold writeSequence
  have h2 : (0 : Int) ≤ (n : Int) ∧ (n : Int) < 32 := by omega
  rw [dif_pos h2]
  simp

theorem random_range (raw : Nat) : 0 ≤ random 0 4 raw ∧ random 0 4 raw < 4 := by
  unfold random
  omega

theorem publishedOn_append (topic : String) (a b : List Effect) :
    publishedOn topic (a ++ b) = publishedOn topic a ++ publishedOn topic b := by
  induction a with
  | nil => rfl
  | cons x rest ih =>
    cases x <;> simp [publishedOn, ih]
    split <;> simp

theorem publishedOn_beep (topic : String) (f : Int) (d : Nat) :
    publishedOn topic (beep f d) = [] := by
  simp [beep, publishedOn]

theorem publishedOn_lightLed (topic : String) (idx : Int) (a b : Nat) (l : List Effect)
    (h : lightLed idx a b = some l) : publishedOn topic l = [] := by
  unfold lightLed at h
  cases hp : ledPins idx with
  | none => rw [hp] at h; cases h
  | some pin =>
    rw [hp] at h
    cases h
    simp [publishedOn]

theorem lightLed_button (idx : Int) (a b : Nat) (h0 : 0 ≤ idx) (h4 : idx < 4) :
    ∃ l, lightLed idx a b = some l := by
  have hcases : idx = 0 ∨ idx = 1 ∨ idx = 2 ∨ idx = 3 := by omega
  rcases hcases with h | h | h | h <;> subst h <;> exact ⟨_, rfl⟩

/-- A matching press that does not complete the round only advances
`inputIndex`. -/
theorem handleUserInput_match_inner (s : State) (idx : Int) (e : InputEnv)
    (hread : readSequence s.sequence s.inputIndex = some idx)
    (h0 : 0 ≤ idx) (h4 : idx < 4) (hlt : s.inputIndex + 1 < s.currentRound) :
    ∃ out, handleUserInput idx e s = some ({ s with inputIndex := s.inputIndex + 1 }, out) ∧
      scoreReports out = [] := by
  obtain ⟨l, hl⟩ := lightLed_button idx 200 50 h0 h4
  have hnot : ¬ (s.inputIndex + 1 ≥ s.currentRound) := by omega
  refine ⟨beepGoodInput ++ l, ?_, ?_⟩
  · simp only [handleUserInput, hread, hl, ne_eq, not_true_eq_false, if_false, hnot]
  · simp [scoreReports, publishedOn_append, beepGoodInput, publishedOn_beep,
      publishedOn_lightLed _ _ _ _ _ hl]

/-- Matching presses from cursor `c` that stop short of the round length leave
everything but the cursor as it was. -/
theorem handlePresses_matching (presses : List (Int × InputEnv)) :
    ∀ (s : State) (c : Nat), s.inputIndex = (c : Int) →
      ((c + presses.length : Nat) : Int) < s.currentRound →
      (∀ j (hj : j < presses.length),
        readSequence s.sequence ((c + j : Nat) : Int) = some (presses.get ⟨j, hj⟩).1) →
      (∀ p ∈ presses, 0 ≤ p.1 ∧ p.1 < 4) →
      ∃ out, handlePresses presses s
          = some ({ s with inputIndex := ((c + presses.length : Nat) : Int) }, out) ∧
        scoreReports out = [] := by
  induction presses with
  | nil =>
    intro s c hc _ _ _
    refine ⟨[], ?_, rfl⟩
    simp [handlePresses, ← hc]
  | cons p rest ih =>
    intro s c hc hlt hread hsym
    have hp := hsym p (List.mem_cons_self _ _)
    have hr0 := hread 0 (by simp)
    simp only [List.length_cons] at hlt
    have hr0b : readSequence s.sequence s.inputIndex = some p.1 := by
      rw [hc]; simpa using hr0
    obtain ⟨o1, ho1, hs1⟩ := handleUserInput_match_inner s p.1 p.2 hr0b hp.1 hp.2
      (by rw [hc]; push_cast at hlt; omega)
    obtain ⟨o2, ho2, hs2⟩ := ih { s with inputIndex := s.inputIndex + 1 } (c + 1)
      (by simp [hc]) (by simp only; push_cast at hlt ⊢; omega)
      (by
        intro j hj
        have := hread (j + 1) (by simp; omega)
        simp only [List.get_cons_succ] at this
        have e1 : c + 1 + j = c + (j + 1) := by omega
        simpa [e1] using this)
      (fun q hq => hsym q (List.mem_cons_of_mem _ hq))
    refine ⟨o1 ++ o2, ?_, ?_⟩
    · simp only [handlePresses, ho1, ho2]
      have e2 : c + 1 + rest.length = c + (rest.length + 1) := by omega
      simp [e2]
    · simp only [scoreReports] at hs1 hs2 ⊢
      rw [publishedOn_append, hs1, hs2]
      rfl

/-- The function `publishScore` writes no global. -/
theorem publishScore_state (score : Int) (e : PublishEnv) (s : State) :
    (publishScore score e s).1 = s := by
  unfold publishScore
  by_cases hu : s.pairedUsername = "" <;> simp [hu]

/-- The result of a press that differs from `sequence[inputIndex]`. -/
theorem handleUserInput_mismatch (s : State) (idx expected : Int) (e : InputEnv)
    (hread : readSequence s.sequence s.inputIndex = some expected) (hne : idx ≠ expected) :
    handleUserInput idx e s =
      some ({ s with gameState := GameState.WAIT_PAIRING },
        beepGameOver ++
          (publishScore (s.currentRound - 1) e.publish
            { s with gameState := GameState.WAIT_PAIRING }).2 ++ ledsOff ++
          [Effect.ledcWriteTone buzzerChannel 0,
           Effect.serialPrint "Game over, en attente d'un nouvel appairage..."]) := by
  simp only [handleUserInput, hread, ne_eq, hne, not_false_eq_true, if_true, publishScore_state]

/-- The four ways a call of `handleUserInput` can return: wrong press, matching
press inside the round, matching press completing a round below
`MAX_SEQUENCE`, matching press completing round `MAX_SEQUENCE`. -/
theorem handleUserInput_cases (s s1 : State) (idx : Int) (e : InputEnv) (out : List Effect)
    (h : handleUserInput idx e s = some (s1, out)) :
    (∃ expected, readSequence s.sequence s.inputIndex = some expected ∧ idx ≠ expected ∧
        s1 = { s with gameState := GameState.WAIT_PAIRING }) ∨
    (readSequence s.sequence s.inputIndex = some idx ∧ s.inputIndex + 1 < s.currentRound ∧
        s1 = { s with inputIndex := s.inputIndex + 1 }) ∨
    (readSequence s.sequence s.inputIndex = some idx ∧ s.inputIndex + 1 ≥ s.currentRound ∧
        s.currentRound < 32 ∧
        ∃ seq, writeSequence s.sequence s.currentRound (random 0 4 e.rawRandom) = some seq ∧
          s1 = { s with
                  inputIndex := s.inputIndex + 1
                  sequence := seq
                  currentRound := s.currentRound + 1
                  gameState := GameState.SHOW_SEQUENCE }) ∨
    (readSequence s.sequence s.inputIndex = some idx ∧ s.inputIndex + 1 ≥ s.currentRound ∧
        32 ≤ s.currentRound ∧
        s1 = (startNewGame e.newGame { s with inputIndex := s.inputIndex + 1 }).1) := by
  unfold handleUserInput at h
  cases hread : readSequence s.sequence s.inputIndex with
  | none => rw [hread] at h; cases h
  | some expected =>
    rw [hread] at h
    by_cases hne : idx = expected
    · subst hne
      simp only [ne_eq, not_true_eq_false, if_false] at h
      cases hl : lightLed idx 200 50 with
      | none => rw [hl] at h; cases h
      | some light =>
        rw [hl] at h
        simp only at h
        by_cases hge : s.inputIndex + 1 ≥ s.currentRound
        · rw [if_pos hge] at h
          by_cases hmax : s.currentRound < (MAX_SEQUENCE : Int)
          · rw [if_pos hmax] at h
            cases hw : writeSequence s.sequence s.currentRound (random 0 4 e.rawRandom) with
            | none => rw [hw] at h; cases h
            | some seq =>
              rw [hw] at h
              simp only [Option.some.injEq, Prod.mk.injEq] at h
              right; right; left
              refine ⟨rfl, hge, by simpa [MAX_SEQUENCE] using hmax, seq, rfl, h.1.symm⟩
          · rw [if_neg hmax] at h
            simp only [Option.some.injEq, Prod.mk.injEq, publishScore_state] at h
            right; right; right
            refine ⟨rfl, hge, by simpa [MAX_SEQUENCE] using hmax, h.1.symm⟩
        · rw [if_neg hge] at h
          simp only [Option.some.injEq, Prod.mk.injEq] at h
          right; left
          exact ⟨rfl, by omega, h.1.symm⟩
    · simp only [ne_eq, hne, not_false_eq_true, if_true, Option.some.injEq, Prod.mk.injEq,
        publishScore_state] at h
      left
      exact ⟨expected, rfl, hne, h.1.symm⟩

/-- The result of a matching press that completes a round below
`MAX_SEQUENCE`. -/
theorem handleUserInput_growth (s : State) (idx : Int) (e : InputEnv) (r : Nat)
    (hround : s.currentRound = (r : Int)) (hr : r < 32)
    (hread : readSequence s.sequence s.inputIndex = some idx)
    (h0 : 0 ≤ idx) (h4 : idx < 4) (hge : s.inputIndex + 1 ≥ s.currentRound) :
    ∃ light, lightLed idx 200 50 = some light ∧
      handleUserInput idx e s =
        some ({ s with
                inputIndex := s.inputIndex + 1
                sequence := Function.update s.sequence ⟨r, hr⟩ (random 0 4 e.rawRandom)
                currentRound := (r : Int) + 1
                gameState := GameState.SHOW_SEQUENCE },
              beepGoodInput ++ light ++ beepRoundWin) := by
  obtain ⟨l, hl⟩ := lightLed_button idx 200 50 h0 h4
  refine ⟨l, hl, ?_⟩
  have hmax : (r : Int) < (MAX_SEQUENCE : Int) := by
    simp only [MAX_SEQUENCE]; exact_mod_cast hr
  have hw := writeSequence_nat s.sequence r hr (random 0 4 e.rawRandom)
  rw [hround] at hge
  simp only [handleUserInput, hread, hl, ne_eq, not_true_eq_false, if_false, hround, hge,
    if_true, hmax, hw]

/-! ## Frames of the parts of `loop` -/

theorem ChannelsOnly_refl (s : State) : ChannelsOnly s s := rfl

theorem ChannelsOnly_trans (a b c : State) (h1 : ChannelsOnly a b) (h2 : ChannelsOnly b c) :
    ChannelsOnly a c := by
  unfold ChannelsOnly at *
  rw [h2, h1]

theorem PairingOnly_refl (s : State) : PairingOnly s s := rfl

theorem PairingOnly_trans (a b c : State) (h1 : PairingOnly a b) (h2 : PairingOnly b c) :
    PairingOnly a c := by
  unfold PairingOnly at *
  rw [h2, h1]

theorem Inv_of_ChannelsOnly (s s1 : State) (h : ChannelsOnly s s1) (hi : Inv s) : Inv s1 := by
  unfold ChannelsOnly at h
  rw [h]
  exact hi

theorem Inv_of_PairingOnly (s s1 : State) (h : PairingOnly s s1) (hi : Inv s) : Inv s1 := by
  unfold PairingOnly at h
  rw [h]
  exact hi

theorem isrButton_frame (i : Fin 4) (s : State) : ChannelsOnly s (isrButton i s) := rfl

theorem raiseInterrupts_frame (irq : Fin 4 → Bool) (s : State) :
    ChannelsOnly s (raiseInterrupts irq s) := rfl

theorem callback_frame (d : Delivery) (s : State) : PairingOnly s (callback d s).1 := by
  unfold callback
  cases d.doc with
  | none => rfl
  | some doc =>
    by_cases ht : d.topic = "simon/pair"
    · simp only [ht, if_true]; rfl
    · simp only [ht, if_false]; rfl

theorem mqttLoop_frame (inbox : List Delivery) :
    ∀ s : State, PairingOnly s (mqttLoop inbox s).1 := by
  induction inbox with
  | nil => intro s; rfl
  | cons d rest ih =>
    intro s
    exact PairingOnly_trans _ _ _ (callback_frame d s) (ih (callback d s).1)

theorem unlockIfReleased_frame (i : Fin 4) (level : Level) (s : State) :
    ChannelsOnly s (unlockIfReleased i level s) := by
  unfold unlockIfReleased
  split <;> rfl

/-- A poll either touches only the channel arrays and emits nothing, or it
happens while input is awaited and ends with a call of `handleUserInput` on a
state that differs from the initial one only in the channel arrays. -/
theorem pollButton_cases (i : Fin 4) (e : ButtonEnv) (s s1 : State) (out : List Effect)
    (h : pollButton i e s = some (s1, out)) :
    (ChannelsOnly s s1 ∧ out = []) ∨
    (s.gameState = GameState.WAIT_INPUT ∧
      ∃ s3, ChannelsOnly s s3 ∧ handleUserInput (i.val : Int) e.input s3 = some (s1, out)) := by
  have hf := unlockIfReleased_frame i e.read1 s
  unfold pollButton at h
  simp only at h
  generalize unlockIfReleased i e.read1 s = u at h hf
  by_cases hflag : u.buttonFlags i = true
  · rw [if_pos hflag] at h
    by_cases hlock : u.buttonLocked i = true
    · rw [if_pos hlock] at h
      simp only [Option.some.injEq, Prod.mk.injEq] at h
      left
      refine ⟨?_, h.2.symm⟩
      rw [← h.1]
      exact ChannelsOnly_trans _ _ _ hf rfl
    · rw [if_neg hlock] at h
      by_cases hacc : e.read2 = Level.LOW ∧
          usub (millis e.clock) (u.lastPressTime i) > debounceDelay
      · rw [if_pos hacc] at h
        by_cases hw : u.gameState = GameState.WAIT_INPUT
        · rw [if_pos hw] at h
          right
          refine ⟨?_, _, ?_, h⟩
          · have := congrArg State.gameState hf
            simp only at this
            rw [← this]; exact hw
          · exact ChannelsOnly_trans _ _ _ hf rfl
        · rw [if_neg hw] at h
          simp only [Option.some.injEq, Prod.mk.injEq] at h
          left
          refine ⟨?_, h.2.symm⟩
          rw [← h.1]
          exact ChannelsOnly_trans _ _ _ hf rfl
      · rw [if_neg hacc] at h
        simp only [Option.some.injEq, Prod.mk.injEq] at h
        left
        refine ⟨?_, h.2.symm⟩
        rw [← h.1]
        exact ChannelsOnly_trans _ _ _ hf rfl
  · rw [if_neg hflag] at h
    simp only [Option.some.injEq, Prod.mk.injEq] at h
    left
    refine ⟨?_, h.2.symm⟩
    rw [← h.1]
    exact hf

/-! ## Preservation of the invariant -/

theorem writeSequence_some (seq seq1 : Fin 32 → Int) (i v : Int)
    (h : writeSequence seq i v = some seq1) :
    ∀ j : Fin 32, seq1 j = if (j.val : Int) = i then v else seq j := by
  unfold writeSequence at h
  by_cases hb : 0 ≤ i ∧ i < 32
  · rw [dif_pos hb] at h
    simp only [Option.some.injEq] at h
    intro j
    rw [← h]
    by_cases hj : (j.val : Int) = i
    · have : j = ⟨i.toNat, by omega⟩ := by
        apply Fin.ext
        simp only
        omega
      rw [if_pos hj, this, Function.update_same]
    · have : j ≠ ⟨i.toNat, by omega⟩ := by
        intro hc
        apply hj
        have := congrArg Fin.val hc
        simp only at this
        omega
      rw [if_neg hj, Function.update_noteq this]
  · rw [dif_neg hb] at h
    cases h

theorem Inv_initial : Inv initial := by
  unfold Inv initial
  simp

theorem Inv_setup (e : SetupEnv) : Inv (setup e initial) := Inv_initial

/-- A new game marked ready satisfies the invariant whatever the state it
starts from. -/
theorem Inv_startNewGame_ready (e : NewGameEnv) (s : State) :
    Inv { (startNewGame e s).1 with gameReady := true } := by
  unfold Inv startNewGame
  simp only
  refine ⟨le_refl _, by decide, by decide, (by intro h; cases h), by simp, by simp, by simp, ?_⟩
  intro i hi
  have hi0 : i = 0 := by
    apply Fin.ext
    have : (i.val : Int) < 1 := hi
    simp only [Fin.val_zero]
    omega
  rw [hi0, Function.update_same]
  exact random_range _

theorem Inv_startNewGame (e : NewGameEnv) (s : State) (hr : s.gameReady = true) :
    Inv (startNewGame e s).1 := by
  have h := Inv_startNewGame_ready e s
  have heq : ({ (startNewGame e s).1 with gameReady := true } : State) = (startNewGame e s).1 := by
    simp only [startNewGame, ← hr]
  rw [heq] at h
  exact h

theorem Inv_handleUserInput (s s1 : State) (idx : Int) (e : InputEnv) (out : List Effect)
    (hi : Inv s) (hw : s.gameState = GameState.WAIT_INPUT)
    (h : handleUserInput idx e s = some (s1, out)) : Inv s1 := by
  have hready : s.gameReady = true := by
    obtain ⟨_, _, _, _, _, h6, _, _⟩ := hi
    cases hg : s.gameReady with
    | true => rfl
    | false => have := h6.2 hg; rw [hw] at this; cases this
  rcases handleUserInput_cases s s1 idx e out h with
    ⟨expected, _, _, hs⟩ | ⟨_, hlt, hs⟩ | ⟨_, hge, hmax, seq, hseq, hs⟩ | ⟨_, _, _, hs⟩
  · obtain ⟨h1, h2, h3, h4, h5, h6, h7, h8⟩ := hi
    rw [hs]
    refine ⟨h1, h2, h3, (by intro hc; cases hc), ?_, ?_, by simp, h8⟩
    · simp only [false_iff, reduceCtorEq]
      intro hc
      have := h5.2 hc
      rw [hw] at this; cases this
    · simp only [false_iff, reduceCtorEq, hready, not_false_eq_true, Bool.true_eq_false]
  · obtain ⟨h1, h2, h3, h4, h5, h6, h7, h8⟩ := hi
    rw [hs]
    refine ⟨by simp only; omega, by simp only; omega, h3, by intro _; simp only; omega,
      h5, h6, h7, h8⟩
  · obtain ⟨h1, h2, h3, h4, h5, h6, h7, h8⟩ := hi
    have hlt := h4 hw
    rw [hs]
    refine ⟨by simp only; omega, by simp only; omega, by simp only; omega,
      (by intro hc; cases hc), ?_, ?_, by simp, ?_⟩
    · simp only [false_iff, reduceCtorEq]
      omega
    · simp only [false_iff, reduceCtorEq, hready, not_false_eq_true, Bool.true_eq_false]
    · intro i hlt2
      simp only at hlt2 ⊢
      rw [writeSequence_some _ _ _ _ hseq i]
      by_cases hic : (i.val : Int) = s.currentRound
      · rw [if_pos hic]; exact random_range _
      · rw [if_neg hic]; exact h8 i (by omega)
  · rw [hs]
    exact Inv_startNewGame _ _ hready

theorem Inv_pollButton (i : Fin 4) (e : ButtonEnv) (s s1 : State) (out : List Effect)
    (hi : Inv s) (h : pollButton i e s = some (s1, out)) : Inv s1 := by
  rcases pollButton_cases i e s s1 out h with ⟨hf, _⟩ | ⟨hw, s3, hf, hh⟩
  · exact Inv_of_ChannelsOnly _ _ hf hi
  · have hw3 : s3.gameState = GameState.WAIT_INPUT := by
      have := congrArg State.gameState hf
      simp only at this
      rw [this]; exact hw
    exact Inv_handleUserInput s3 s1 _ _ out (Inv_of_ChannelsOnly _ _ hf hi) hw3 hh

theorem Inv_pollButtons (e : LoopEnv) (chans : List (Fin 4)) :
    ∀ (s s1 : State) (out : List Effect), Inv s → pollButtons e chans s = some (s1, out) →
      Inv s1 := by
  induction chans with
  | nil =>
    intro s s1 out hi h
    simp only [pollButtons, Option.some.injEq, Prod.mk.injEq] at h
    rw [← h.1]; exact hi
  | cons i rest ih =>
    intro s s1 out hi h
    unfold pollButtons at h
    cases hp : pollButton i (e.button i) (raiseInterrupts (e.irq i) s) with
    | none => rw [hp] at h; cases h
    | some r =>
      rw [hp] at h
      simp only at h
      cases hq : pollButtons e rest r.1 with
      | none => rw [hq] at h; cases h
      | some q =>
        rw [hq] at h
        simp only [Option.some.injEq, Prod.mk.injEq] at h
        rw [← h.1]
        have hi1 : Inv r.1 :=
          Inv_pollButton i (e.button i) _ r.1 r.2
            (Inv_of_ChannelsOnly _ _ (raiseInterrupts_frame (e.irq i) s) hi) hp
        exact ih r.1 q.1 q.2 hi1 hq

theorem showSequence_state (s s1 : State) (out : List Effect)
    (h : showSequence s = some (s1, out)) :
    s1 = { s with inputIndex := 0, gameState := GameState.WAIT_INPUT } := by
  unfold showSequence at h
  cases hs : showFrom s.sequence 0 s.currentRound.toNat with
  | none => rw [hs] at h; cases h
  | some lights =>
    rw [hs] at h
    simp only [Option.some.injEq, Prod.mk.injEq] at h
    exact h.1.symm

theorem gameStateStep_cases (s s1 : State) (out : List Effect)
    (h : gameStateStep s = some (s1, out)) :
    (s.gameState ≠ GameState.SHOW_SEQUENCE ∧ s1 = s ∧ out = []) ∨
    (s.gameState = GameState.SHOW_SEQUENCE ∧ showSequence s = some (s1, out)) := by
  unfold gameStateStep at h
  cases hg : s.gameState <;> rw [hg] at h <;> simp only [Option.some.injEq, Prod.mk.injEq] at h
  · left; exact ⟨by simp, h.1.symm, h.2.symm⟩
  · right; exact ⟨rfl, h⟩
  · left; exact ⟨by simp, h.1.symm, h.2.symm⟩
  · left; exact ⟨by simp, h.1.symm, h.2.symm⟩
  · left; exact ⟨by simp, h.1.symm, h.2.symm⟩

theorem Inv_gameStateStep (s s1 : State) (out : List Effect) (hi : Inv s)
    (h : gameStateStep s = some (s1, out)) : Inv s1 := by
  rcases gameStateStep_cases s s1 out h with ⟨_, hs, _⟩ | ⟨hg, hs⟩
  · rw [hs]; exact hi
  · have := showSequence_state s s1 out hs
    obtain ⟨h1, h2, h3, h4, h5, h6, h7, h8⟩ := hi
    rw [this]
    have hne : s.currentRound ≠ 0 := by
      intro hc
      have := h5.2 hc
      rw [hg] at this; cases this
    refine ⟨le_refl _, by simp only; omega, h3, (by intro _; simp only; omega), ?_, ?_,
      by simp, h8⟩
    · simp only [false_iff, reduceCtorEq]; exact hne
    · simp only [false_iff, reduceCtorEq]
      intro hc
      have := h6.2 hc
      rw [hg] at this; cases this

/-- The three outcomes of the pairing part of `loop` on the state. -/
theorem pairingStep_state (e : LoopEnv) (s : State) :
    (pairingStep e s).1 = s ∨
    (pairingStep e s).1 = { s with pairingInProgress := false } ∨
    (s.pairingInProgress = true ∧ e.wifiConnected2 = true ∧
      (pairingStep e s).1 =
        { (startNewGame e.pairNewGame { s with pairingInProgress := false }).1 with
            gameReady := true }) := by
  unfold pairingStep
  by_cases hp : s.pairingInProgress = true
  · rw [if_pos hp]
    cases hc : e.wifiConnected2 with
    | true =>
      right; right
      rw [if_pos rfl]
      exact ⟨hp, rfl, rfl⟩
    | false =>
      rw [if_neg (by decide)]
      by_cases ht : usub (millis e.pairClock) s.pairingStartTime > PAIRING_TIMEOUT
      · right; left
        rw [if_pos ht]
      · left
        rw [if_neg ht]
  · left
    rw [if_neg hp]

theorem Inv_pairingStep (e : LoopEnv) (s : State) (hi : Inv s) : Inv (pairingStep e s).1 := by
  rcases pairingStep_state e s with h | h | ⟨_, _, h⟩
  · rw [h]; exact hi
  · rw [h]; exact hi
  · rw [h]; exact Inv_startNewGame_ready _ _

theorem startDelayStep_state (e : LoopEnv) (s : State) :
    (startDelayStep e s = (s, [])) ∨
    (s.gameReady = false ∧
      (startDelayStep e s).1 = { (startNewGame e.startNewGame s).1 with gameReady := true }) := by
  unfold startDelayStep
  by_cases hc : (!s.gameReady && decide (usub (millis e.startClock) s.gameStartTime ≥ START_DELAY))
      = true
  · right
    rw [if_pos hc]
    refine ⟨?_, rfl⟩
    simp only [Bool.and_eq_true, Bool.not_eq_true'] at hc
    exact hc.1
  · left
    rw [if_neg hc]

theorem Inv_startDelayStep (e : LoopEnv) (s : State) (hi : Inv s) :
    Inv (startDelayStep e s).1 := by
  rcases startDelayStep_state e s with h | ⟨_, h⟩
  · rw [h]; exact hi
  · rw [h]; exact Inv_startNewGame_ready _ _

/-- The parts of a completed execution of `loop`, in order. -/
theorem loop_cases (e : LoopEnv) (s s1 : State) (out : List Effect)
    (h : loop e s = some (s1, out)) :
    ((pairingStep e (mqttLoop e.inbox s).1).1.gameState = GameState.WAIT_PAIRING ∧
      s1 = (pairingStep e (mqttLoop e.inbox s).1).1 ∧
      out = (mqttLoop e.inbox s).2 ++ (pairingStep e (mqttLoop e.inbox s).1).2) ∨
    ((pairingStep e (mqttLoop e.inbox s).1).1.gameState ≠ GameState.WAIT_PAIRING ∧
      ∃ b g, pollButtons e [0, 1, 2, 3]
          (startDelayStep e (pairingStep e (mqttLoop e.inbox s).1).1).1 = some b ∧
        gameStateStep b.1 = some g ∧ s1 = g.1 ∧
        out = (mqttLoop e.inbox s).2 ++ (pairingStep e (mqttLoop e.inbox s).1).2 ++
          (startDelayStep e (pairingStep e (mqttLoop e.inbox s).1).1).2 ++ b.2 ++ g.2) := by
  unfold loop at h
  simp only at h
  by_cases hw : (pairingStep e (mqttLoop e.inbox s).1).1.gameState = GameState.WAIT_PAIRING
  · rw [if_pos hw] at h
    simp only [Option.some.injEq, Prod.mk.injEq] at h
    left
    exact ⟨hw, h.1.symm, h.2.symm⟩
  · rw [if_neg hw] at h
    right
    refine ⟨hw, ?_⟩
    cases hb : pollButtons e [0, 1, 2, 3]
        (startDelayStep e (pairingStep e (mqttLoop e.inbox s).1).1).1 with
    | none => rw [hb] at h; cases h
    | some b =>
      rw [hb] at h
      simp only at h
      cases hg : gameStateStep b.1 with
      | none => rw [hg] at h; cases h
      | some g =>
        rw [hg] at h
        simp only [Option.some.injEq, Prod.mk.injEq] at h
        exact ⟨b, g, rfl, hg, h.1.symm, h.2.symm⟩

theorem Inv_loop (e : LoopEnv) (s s1 : State) (out : List Effect) (hi : Inv s)
    (h : loop e s = some (s1, out)) : Inv s1 := by
  have hp : Inv (pairingStep e (mqttLoop e.inbox s).1).1 :=
    Inv_pairingStep e _ (Inv_of_PairingOnly _ _ (mqttLoop_frame e.inbox s) hi)
  rcases loop_cases e s s1 out h with ⟨_, hs, _⟩ | ⟨_, b, g, hb, hg, hs, _⟩
  · rw [hs]; exact hp
  · rw [hs]
    exact Inv_gameStateStep b.1 g.1 g.2
      (Inv_pollButtons e _ _ b.1 b.2 (Inv_startDelayStep e _ hp) hb) hg

theorem Inv_of_Reachable (s : State) (h : Reachable s) : Inv s := by
  induction h with
  | boot e => exact Inv_setup e
  | interrupt i s _ ih => exact Inv_of_ChannelsOnly _ _ (isrButton_frame i s) ih
  | tick e s s1 out _ hl ih => exact Inv_loop e s s1 out ih hl

/-! ## Movement of the round -/

theorem RoundStep_refl (s : State) : RoundStep s s := Or.inl ⟨rfl, fun h => h⟩

theorem RoundStep_trans (a b c : State) (h1 : RoundStep a b) (h2 : RoundStep b c) :
    RoundStep a c := by
  unfold RoundStep at *
  rcases h1 with ⟨hr1, hg1⟩ | ⟨hw1, hn1, hc1⟩
  · rcases h2 with ⟨hr2, hg2⟩ | ⟨hw2, hn2, hc2⟩
    · left; exact ⟨by rw [hr2, hr1], fun h => hg1 (hg2 h)⟩
    · right
      refine ⟨hg1 hw2, hn2, ?_⟩
      rw [← hr1]; exact hc2
  · rcases h2 with ⟨hr2, hg2⟩ | ⟨hw2, _, _⟩
    · right
      refine ⟨hw1, fun h => hn1 (hg2 h), ?_⟩
      rw [hr2]; exact hc1
    · exact absurd hw2 hn1

theorem RoundStep_of_ChannelsOnly (s s1 : State) (h : ChannelsOnly s s1) : RoundStep s s1 := by
  have hr := congrArg State.currentRound h
  have hg := congrArg State.gameState h
  simp only at hr hg
  exact Or.inl ⟨hr, fun hw => by rw [← hg]; exact hw⟩

theorem RoundStep_handleUserInput (s s1 : State) (idx : Int) (e : InputEnv) (out : List Effect)
    (hw : s.gameState = GameState.WAIT_INPUT)
    (h : handleUserInput idx e s = some (s1, out)) : RoundStep s s1 := by
  rcases handleUserInput_cases s s1 idx e out h with
    ⟨expected, _, _, hs⟩ | ⟨_, hlt, hs⟩ | ⟨_, hge, hmax, seq, hseq, hs⟩ | ⟨_, _, _, hs⟩
  · rw [hs]; exact Or.inl ⟨rfl, fun hc => by cases hc⟩
  · rw [hs]; exact Or.inl ⟨rfl, fun hc => hc⟩
  · rw [hs]; exact Or.inr ⟨hw, by simp, Or.inr ⟨rfl, hmax⟩⟩
  · rw [hs]; exact Or.inr ⟨hw, by simp [startNewGame], Or.inl rfl⟩

theorem RoundStep_pollButton (i : Fin 4) (e : ButtonEnv) (s s1 : State) (out : List Effect)
    (h : pollButton i e s = some (s1, out)) : RoundStep s s1 := by
  rcases pollButton_cases i e s s1 out h with ⟨hf, _⟩ | ⟨hw, s3, hf, hh⟩
  · exact RoundStep_of_ChannelsOnly _ _ hf
  · have hw3 : s3.gameState = GameState.WAIT_INPUT := by
      have := congrArg State.gameState hf
      simp only at this
      rw [this]; exact hw
    exact RoundStep_trans _ _ _ (RoundStep_of_ChannelsOnly _ _ hf)
      (RoundStep_handleUserInput s3 s1 _ _ out hw3 hh)

theorem RoundStep_pollButtons (e : LoopEnv) (chans : List (Fin 4)) :
    ∀ (s s1 : State) (out : List Effect), pollButtons e chans s = some (s1, out) →
      RoundStep s s1 := by
  induction chans with
  | nil =>
    intro s s1 out h
    simp only [pollButtons, Option.some.injEq, Prod.mk.injEq] at h
    rw [← h.1]; exact RoundStep_refl s
  | cons i rest ih =>
    intro s s1 out h
    unfold pollButtons at h
    cases hp : pollButton i (e.button i) (raiseInterrupts (e.irq i) s) with
    | none => rw [hp] at h; cases h
    | some r =>
      rw [hp] at h
      simp only at h
      cases hq : pollButtons e rest r.1 with
      | none => rw [hq] at h; cases h
      | some q =>
        rw [hq] at h
        simp only [Option.some.injEq, Prod.mk.injEq] at h
        rw [← h.1]
        exact RoundStep_trans _ _ _
          (RoundStep_trans _ _ _
            (RoundStep_of_ChannelsOnly _ _ (raiseInterrupts_frame (e.irq i) s))
            (RoundStep_pollButton i (e.button i) _ r.1 r.2 hp))
          (ih r.1 q.1 q.2 hq)

/-- Before the buttons are polled, `loop` has either left round and game state
as they were or started a new game. -/
theorem loop_prelude (e : LoopEnv) (s : State) :
    ((startDelayStep e (pairingStep e (mqttLoop e.inbox s).1).1).1.currentRound = s.currentRound ∧
      (startDelayStep e (pairingStep e (mqttLoop e.inbox s).1).1).1.gameState = s.gameState) ∨
    ((startDelayStep e (pairingStep e (mqttLoop e.inbox s).1).1).1.currentRound = 1 ∧
      (startDelayStep e (pairingStep e (mqttLoop e.inbox s).1).1).1.gameState
        = GameState.SHOW_SEQUENCE) := by
  have hm := mqttLoop_frame e.inbox s
  have hmr := congrArg State.currentRound hm
  have hmg := congrArg State.gameState hm
  simp only at hmr hmg
  generalize (mqttLoop e.inbox s).1 = m at hmr hmg
  have hp : ((pairingStep e m).1.currentRound = s.currentRound ∧
      (pairingStep e m).1.gameState = s.gameState) ∨
      ((pairingStep e m).1.currentRound = 1 ∧
        (pairingStep e m).1.gameState = GameState.SHOW_SEQUENCE) := by
    rcases pairingStep_state e m with h | h | ⟨_, _, h⟩
    · rw [h]; exact Or.inl ⟨hmr, hmg⟩
    · rw [h]; exact Or.inl ⟨hmr, hmg⟩
    · rw [h]; exact Or.inr ⟨rfl, rfl⟩
  generalize (pairingStep e m).1 = p at hp
  rcases startDelayStep_state e p with h | ⟨_, h⟩
  · rw [h]; exact hp
  · rw [h]; exact Or.inr ⟨rfl, rfl⟩

/-- One execution of `loop` leaves the round, sets it to 1, or raises it by one
from below 32 while input was awaited. -/
theorem loop_round (e : LoopEnv) (s s1 : State) (out : List Effect)
    (h : loop e s = some (s1, out)) :
    s1.currentRound = s.currentRound ∨ s1.currentRound = 1 ∨
    (s.gameState = GameState.WAIT_INPUT ∧ s1.currentRound = s.currentRound + 1 ∧
      s.currentRound < 32) := by
  rcases loop_cases e s s1 out h with ⟨_, hs, _⟩ | ⟨_, b, g, hb, hg, hs, _⟩
  · have hm := mqttLoop_frame e.inbox s
    have hmr := congrArg State.currentRound hm
    simp only at hmr
    rcases pairingStep_state e (mqttLoop e.inbox s).1 with h | h | ⟨_, _, h⟩
    · left; rw [hs, h, hmr]
    · left; rw [hs, h]; exact hmr
    · right; left; rw [hs, h]; rfl
  · have hgr : s1.currentRound = b.1.currentRound := by
      rcases gameStateStep_cases b.1 g.1 g.2 hg with ⟨_, hx, _⟩ | ⟨_, hx⟩
      · rw [hs, hx]
      · rw [hs, showSequence_state _ _ _ hx]
    have hstep := RoundStep_pollButtons e _ _ b.1 b.2 hb
    rcases loop_prelude e s with ⟨hr, hgs⟩ | ⟨hr, hgs⟩
    · rcases hstep with ⟨hr2, _⟩ | ⟨hw2, _, hc2⟩
      · left; rw [hgr, hr2, hr]
      · rw [hgs] at hw2
        rcases hc2 with hc | ⟨hc, hlt⟩
        · right; left; rw [hgr, hc]
        · right; right
          refine ⟨hw2, ?_, ?_⟩
          · rw [hgr, hc, hr]
          · rw [← hr]; exact hlt
    · rcases hstep with ⟨hr2, _⟩ | ⟨hw2, _, _⟩
      · right; left; rw [hgr, hr2, hr]
      · rw [hgs] at hw2; cases hw2

/-! ## Published messages -/

theorem publishedOn_ensureMqtt (topic : String) (s : State) (failures : List Int) :
    publishedOn topic (ensureMqtt failures s) = [] := by
  induction failures with
  | nil => simp [ensureMqtt, publishedOn, publishedOn_append, beepMQTTConnected, publishedOn_beep]
  | cons st rest ih => simp [ensureMqtt, publishedOn, ih]

/-- What `publishScore` publishes on each topic. -/
theorem publishedOn_publishScore (topic : String) (score : Int) (e : PublishEnv) (s : State) :
    publishedOn topic (publishScore score e s).2 =
      if s.pairedUsername = "" then []
      else if "simon/scores" = topic then [scoreDoc e.wifiSSID s.pairedUsername score]
      else [] := by
  have hre : publishedOn topic
      (match e.mqttDown with
        | none => []
        | some failures => ensureMqtt failures s) = [] := by
    cases e.mqttDown with
    | none => rfl
    | some failures => exact publishedOn_ensureMqtt topic s failures
  unfold publishScore
  by_cases hu : s.pairedUsername = ""
  · simp only [hu, if_true]
    exact hre
  · simp only [hu, if_false, publishedOn_append, hre, List.nil_append, publishedOn]

theorem scoreReports_publishScore (score : Int) (e : PublishEnv) (s : State) :
    scoreReports (publishScore score e s).2 =
      if s.pairedUsername = "" then []
      else [scoreDoc e.wifiSSID s.pairedUsername score] := by
  unfold scoreReports
  rw [publishedOn_publishScore]
  simp

theorem publishedOn_startNewGame (topic : String) (e : NewGameEnv) (s : State) :
    publishedOn topic (startNewGame e s).2 = [] := by
  simp [startNewGame, publishedOn, beepStartGame, beep]

theorem publishedOn_callback (topic : String) (d : Delivery) (s : State) :
    publishedOn topic (callback d s).2 = [] := by
  unfold callback
  cases d.doc with
  | none => rfl
  | some doc =>
    by_cases ht : d.topic = "simon/pair"
    · simp only [ht, if_true]; rfl
    · simp only [ht, if_false]; rfl

theorem publishedOn_mqttLoop (topic : String) (inbox : List Delivery) :
    ∀ s : State, publishedOn topic (mqttLoop inbox s).2 = [] := by
  induction inbox with
  | nil => intro s; rfl
  | cons d rest ih =>
    intro s
    simp only [mqttLoop, publishedOn_append, publishedOn_callback, ih, List.append_nil]

theorem callback_keeps_inProgress (d : Delivery) (s : State) (h : s.pairingInProgress = true) :
    (callback d s).1.pairingInProgress = true := by
  unfold callback
  cases d.doc with
  | none => exact h
  | some doc =>
    by_cases ht : d.topic = "simon/pair"
    · simp only [ht, if_true]
    · simp only [ht, if_false]; exact h

theorem mqttLoop_keeps_inProgress (inbox : List Delivery) :
    ∀ s : State, s.pairingInProgress = true → (mqttLoop inbox s).1.pairingInProgress = true := by
  induction inbox with
  | nil => intro s h; exact h
  | cons d rest ih =>
    intro s h
    exact ih _ (callback_keeps_inProgress d s h)

/-- The trace of `handleUserInput` is never empty and publishes on no topic but
`simon/scores`. -/
theorem handleUserInput_trace (s s1 : State) (idx : Int) (e : InputEnv) (out : List Effect)
    (h : handleUserInput idx e s = some (s1, out)) :
    out ≠ [] ∧ ∀ topic : String, "simon/scores" ≠ topic → publishedOn topic out = [] := by
  unfold handleUserInput at h
  cases hread : readSequence s.sequence s.inputIndex with
  | none => rw [hread] at h; cases h
  | some expected =>
    rw [hread] at h
    by_cases hne : idx = expected
    · subst hne
      simp only [ne_eq, not_true_eq_false, if_false] at h
      cases hl : lightLed idx 200 50 with
      | none => rw [hl] at h; cases h
      | some light =>
        rw [hl] at h
        simp only at h
        by_cases hge : s.inputIndex + 1 ≥ s.currentRound
        · rw [if_pos hge] at h
          by_cases hmax : s.currentRound < (MAX_SEQUENCE : Int)
          · rw [if_pos hmax] at h
            cases hw : writeSequence s.sequence s.currentRound (random 0 4 e.rawRandom) with
            | none => rw [hw] at h; cases h
            | some seq =>
              rw [hw] at h
              simp only [Option.some.injEq, Prod.mk.injEq] at h
              rw [← h.2]
              refine ⟨by simp [beepGoodInput, beep], fun topic _ => ?_⟩
              simp [publishedOn_append, beepGoodInput, beepRoundWin, publishedOn_beep,
                publishedOn_lightLed _ _ _ _ _ hl, publishedOn]
          · rw [if_neg hmax] at h
            simp only [Option.some.injEq, Prod.mk.injEq] at h
            rw [← h.2]
            refine ⟨by simp [beepGoodInput, beep], fun topic ht => ?_⟩
            simp [publishedOn_append, beepGoodInput, publishedOn_beep,
              publishedOn_lightLed _ _ _ _ _ hl, publishedOn_publishScore,
              publishedOn_startNewGame, ht]
        · rw [if_neg hge] at h
          simp only [Option.some.injEq, Prod.mk.injEq] at h
          rw [← h.2]
          refine ⟨by simp [beepGoodInput, beep], fun topic _ => ?_⟩
          simp [publishedOn_append, beepGoodInput, publishedOn_beep,
            publishedOn_lightLed _ _ _ _ _ hl]
    · simp only [ne_eq, hne, not_false_eq_true, if_true, Option.some.injEq, Prod.mk.injEq] at h
      rw [← h.2]
      refine ⟨by simp [beepGameOver, beep], fun topic ht => ?_⟩
      simp [publishedOn_append, beepGameOver, publishedOn_beep, publishedOn_publishScore,
        publishedOn, ledsOff, ht]

/-- While no input is awaited a poll completes, touches only the channel arrays
and emits nothing. -/
theorem pollButton_idle (i : Fin 4) (e : ButtonEnv) (s : State)
    (hw : s.gameState ≠ GameState.WAIT_INPUT) :
    ∃ s1, pollButton i e s = some (s1, []) ∧ ChannelsOnly s s1 := by
  have hf := unlockIfReleased_frame i e.read1 s
  have hg : (unlockIfReleased i e.read1 s).gameState ≠ GameState.WAIT_INPUT := by
    have := congrArg State.gameState hf
    simp only at this
    rw [this]; exact hw
  unfold pollButton
  simp only
  generalize unlockIfReleased i e.read1 s = u at hf hg
  by_cases hflag : u.buttonFlags i = true
  · rw [if_pos hflag]
    by_cases hlock : u.buttonLocked i = true
    · rw [if_pos hlock]
      exact ⟨_, rfl, ChannelsOnly_trans _ _ _ hf rfl⟩
    · rw [if_neg hlock]
      by_cases hacc : e.read2 = Level.LOW ∧
          usub (millis e.clock) (u.lastPressTime i) > debounceDelay
      · rw [if_pos hacc, if_neg hg]
        exact ⟨_, rfl, ChannelsOnly_trans _ _ _ hf rfl⟩
      · rw [if_neg hacc]
        exact ⟨_, rfl, ChannelsOnly_trans _ _ _ hf rfl⟩
  · rw [if_neg hflag]
    exact ⟨_, rfl, hf⟩

theorem pollButtons_idle (e : LoopEnv) (chans : List (Fin 4)) :
    ∀ s : State, s.gameState ≠ GameState.WAIT_INPUT →
      ∃ s1, pollButtons e chans s = some (s1, []) ∧ ChannelsOnly s s1 := by
  induction chans with
  | nil => intro s _; exact ⟨s, rfl, ChannelsOnly_refl s⟩
  | cons i rest ih =>
    intro s hw
    have hfr := raiseInterrupts_frame (e.irq i) s
    have hg : (raiseInterrupts (e.irq i) s).gameState ≠ GameState.WAIT_INPUT := hw
    obtain ⟨s1, h1, hf1⟩ := pollButton_idle i (e.button i) _ hg
    have hg1 : s1.gameState ≠ GameState.WAIT_INPUT := by
      have := congrArg State.gameState hf1
      simp only at this
      rw [this]; exact hg
    obtain ⟨s2, h2, hf2⟩ := ih s1 hg1
    refine ⟨s2, ?_, ChannelsOnly_trans _ _ _ (ChannelsOnly_trans _ _ _ hfr hf1) hf2⟩
    simp only [pollButtons, h1, h2, List.append_nil]

/-- The pairing part of `loop` when the attempt in progress sees the network
joined. -/
theorem pairingStep_success (e : LoopEnv) (s : State) (hin : s.pairingInProgress = true)
    (hj : e.wifiConnected2 = true) :
    pairingStep e s =
      ({ (startNewGame e.pairNewGame { s with pairingInProgress := false }).1 with
          gameReady := true },
        (if !e.wifiConnected1 then [Effect.wifiBegin s.pairingSSID s.pairingPassword] else []) ++
          [Effect.serialPrint ("Appairage réussi avec: " ++ s.pairedUsername)] ++
          beepWiFiConnected ++
          [Effect.mqttPublish "simon/pair/ack" (ackDoc s.pairingSSID s.pairedUsername "paired")] ++
          (startNewGame e.pairNewGame { s with pairingInProgress := false }).2) := by
  unfold pairingStep
  rw [if_pos hin]
  simp only [hj, if_true]

/-- The pairing part of `loop` when the network is not joined and the timeout
has elapsed. -/
theorem pairingStep_failed (e : LoopEnv) (s : State) (hin : s.pairingInProgress = true)
    (hj : e.wifiConnected2 = false)
    (ht : usub (millis e.pairClock) s.pairingStartTime > PAIRING_TIMEOUT) :
    pairingStep e s =
      ({ s with pairingInProgress := false },
        (if !e.wifiConnected1 then [Effect.wifiBegin s.pairingSSID s.pairingPassword] else []) ++
          [Effect.serialPrint "Appairage échoué",
           Effect.mqttPublish "simon/pair/ack"
             (ackDoc s.pairingSSID s.pairedUsername "failed")]) := by
  unfold pairingStep
  rw [if_pos hin]
  simp only [hj, Bool.false_eq_true, if_false, ht, if_true]

/-- The pairing part of `loop` when the network is not joined and the timeout
has not elapsed. -/
theorem pairingStep_waiting (e : LoopEnv) (s : State) (hin : s.pairingInProgress = true)
    (hj : e.wifiConnected2 = false)
    (ht : ¬ usub (millis e.pairClock) s.pairingStartTime > PAIRING_TIMEOUT) :
    pairingStep e s =
      (s, if !e.wifiConnected1 then [Effect.wifiBegin s.pairingSSID s.pairingPassword]
          else []) := by
  unfold pairingStep
  rw [if_pos hin]
  simp only [hj, Bool.false_eq_true, if_false, ht]

theorem pairingStep_idle (e : LoopEnv) (s : State) (hin : s.pairingInProgress = false) :
    pairingStep e s = (s, []) := by
  unfold pairingStep
  simp only [hin, Bool.false_eq_true, if_false]

theorem publishedOn_join (topic : String) (c : Bool) (a b : String) :
    publishedOn topic (if !c then [Effect.wifiBegin a b] else []) = [] := by
  cases c <;> rfl

theorem showFrom_zero (seq : Fin 32 → Int) (i : Nat) : showFrom seq i 0 = some [] := rfl

theorem showFrom_succ (seq : Fin 32 → Int) (i n : Nat) :
    showFrom seq i (n + 1) =
      match readSequence seq i with
      | none => none
      | some sym =>
        match lightLed sym 400 100 with
        | none => none
        | some l =>
          match showFrom seq (i + 1) n with
          | none => none
          | some rest => some (l ++ rest) := rfl

/-- Replay of a one-symbol sequence. -/
theorem showSequence_round_one (s : State) (hr : s.currentRound = 1)
    (h0 : 0 ≤ s.sequence 0) (h4 : s.sequence 0 < 4) :
    ∃ l, lightLed (s.sequence 0) 400 100 = some l ∧
      showSequence s = some ({ s with inputIndex := 0, gameState := GameState.WAIT_INPUT },
        [Effect.delay 400] ++ (l ++ [])) := by
  obtain ⟨l, hl⟩ := lightLed_button (s.sequence 0) 400 100 h0 h4
  refine ⟨l, hl, ?_⟩
  have hrd : readSequence s.sequence ((0 : Nat) : Int) = some (s.sequence 0) :=
    readSequence_nat s.sequence 0 (by decide)
  unfold showSequence
  rw [hr]
  have h1 : (1 : Int).toNat = 1 := by decide
  have : showFrom s.sequence 0 (0 + 1) = some (l ++ []) := by
    rw [showFrom_succ, hrd]
    simp only [hl, showFrom_zero]
  rw [h1, this]

/-! ## The pairing variables outside the pairing part -/

theorem PairingKept_refl (s : State) : PairingKept s s := ⟨rfl, rfl, rfl, rfl, rfl⟩

theorem PairingKept_trans (a b c : State) (h1 : PairingKept a b) (h2 : PairingKept b c) :
    PairingKept a c := by
  obtain ⟨a1, a2, a3, a4, a5⟩ := h1
  obtain ⟨b1, b2, b3, b4, b5⟩ := h2
  exact ⟨by rw [b1, a1], by rw [b2, a2], by rw [b3, a3], by rw [b4, a4], by rw [b5, a5]⟩

theorem PairingKept_of_ChannelsOnly (s s1 : State) (h : ChannelsOnly s s1) :
    PairingKept s s1 := by
  unfold ChannelsOnly at h
  rw [h]
  exact ⟨rfl, rfl, rfl, rfl, rfl⟩

theorem PairingKept_startNewGame (e : NewGameEnv) (s : State) :
    PairingKept s (startNewGame e s).1 := ⟨rfl, rfl, rfl, rfl, rfl⟩

theorem PairingKept_handleUserInput (s s1 : State) (idx : Int) (e : InputEnv)
    (out : List Effect) (h : handleUserInput idx e s = some (s1, out)) : PairingKept s s1 := by
  rcases handleUserInput_cases s s1 idx e out h with
    ⟨expected, _, _, hs⟩ | ⟨_, _, hs⟩ | ⟨_, _, _, seq, _, hs⟩ | ⟨_, _, _, hs⟩ <;>
  · rw [hs]
    exact ⟨rfl, rfl, rfl, rfl, rfl⟩

/-- A poll keeps the pairing variables and publishes on no topic but
`simon/scores`. -/
theorem pollButton_pairing (i : Fin 4) (e : ButtonEnv) (s s1 : State) (out : List Effect)
    (h : pollButton i e s = some (s1, out)) :
    PairingKept s s1 ∧ ∀ topic : String, "simon/scores" ≠ topic → publishedOn topic out = [] := by
  rcases pollButton_cases i e s s1 out h with ⟨hf, ho⟩ | ⟨_, s3, hf, hh⟩
  · refine ⟨PairingKept_of_ChannelsOnly _ _ hf, fun topic _ => ?_⟩
    rw [ho]; rfl
  · exact ⟨PairingKept_trans _ _ _ (PairingKept_of_ChannelsOnly _ _ hf)
      (PairingKept_handleUserInput s3 s1 _ _ out hh), (handleUserInput_trace s3 s1 _ _ out hh).2⟩

theorem pollButtons_pairing (e : LoopEnv) (chans : List (Fin 4)) :
    ∀ (s s1 : State) (out : List Effect), pollButtons e chans s = some (s1, out) →
      PairingKept s s1 ∧
      ∀ topic : String, "simon/scores" ≠ topic → publishedOn topic out = [] := by
  induction chans with
  | nil =>
    intro s s1 out h
    simp only [pollButtons, Option.some.injEq, Prod.mk.injEq] at h
    rw [← h.1, ← h.2]
    exact ⟨PairingKept_refl s, fun _ _ => rfl⟩
  | cons i rest ih =>
    intro s s1 out h
    unfold pollButtons at h
    cases hp : pollButton i (e.button i) (raiseInterrupts (e.irq i) s) with
    | none => rw [hp] at h; cases h
    | some r =>
      rw [hp] at h
      simp only at h
      cases hq : pollButtons e rest r.1 with
      | none => rw [hq] at h; cases h
      | some q =>
        rw [hq] at h
        simp only [Option.some.injEq, Prod.mk.injEq] at h
        rw [← h.1, ← h.2]
        obtain ⟨k1, t1⟩ := pollButton_pairing i (e.button i) _ r.1 r.2 hp
        obtain ⟨k2, t2⟩ := ih r.1 q.1 q.2 hq
        refine ⟨PairingKept_trans _ _ _ (PairingKept_trans _ _ _
          (PairingKept_of_ChannelsOnly _ _ (raiseInterrupts_frame (e.irq i) s)) k1) k2,
          fun topic ht => ?_⟩
        rw [publishedOn_append, t1 topic ht, t2 topic ht]
        rfl

theorem publishedOn_showFrom (topic : String) (seq : Fin 32 → Int) (n : Nat) :
    ∀ (i : Nat) (l : List Effect), showFrom seq i n = some l → publishedOn topic l = [] := by
  induction n with
  | zero =>
    intro i l h
    rw [showFrom_zero] at h
    simp only [Option.some.injEq] at h
    rw [← h]; rfl
  | succ n ih =>
    intro i l h
    rw [showFrom_succ] at h
    cases hr : readSequence seq i with
    | none => rw [hr] at h; cases h
    | some sym =>
      rw [hr] at h
      simp only at h
      cases hl : lightLed sym 400 100 with
      | none => rw [hl] at h; cases h
      | some light =>
        rw [hl] at h
        simp only at h
        cases hs : showFrom seq (i + 1) n with
        | none => rw [hs] at h; cases h
        | some rest =>
          rw [hs] at h
          simp only [Option.some.injEq] at h
          rw [← h, publishedOn_append, publishedOn_lightLed _ _ _ _ _ hl, ih _ _ hs]
          rfl

theorem publishedOn_showSequence (topic : String) (s s1 : State) (out : List Effect)
    (h : showSequence s = some (s1, out)) : publishedOn topic out = [] := by
  unfold showSequence at h
  cases hs : showFrom s.sequence 0 s.currentRound.toNat with
  | none => rw [hs] at h; cases h
  | some lights =>
    rw [hs] at h
    simp only [Option.some.injEq, Prod.mk.injEq] at h
    rw [← h.2, publishedOn_append, publishedOn_showFrom _ _ _ _ _ hs]
    rfl

theorem gameStateStep_pairing (s s1 : State) (out : List Effect)
    (h : gameStateStep s = some (s1, out)) :
    PairingKept s s1 ∧ ∀ topic : String, publishedOn topic out = [] := by
  rcases gameStateStep_cases s s1 out h with ⟨_, hs, ho⟩ | ⟨_, hs⟩
  · rw [hs, ho]; exact ⟨PairingKept_refl s, fun _ => rfl⟩
  · refine ⟨?_, fun topic => publishedOn_showSequence topic s s1 out hs⟩
    rw [showSequence_state s s1 out hs]
    exact ⟨rfl, rfl, rfl, rfl, rfl⟩

theorem startDelayStep_pairing (e : LoopEnv) (s : State) :
    PairingKept s (startDelayStep e s).1 ∧
    ∀ topic : String, publishedOn topic (startDelayStep e s).2 = [] := by
  unfold startDelayStep
  split
  · exact ⟨⟨rfl, rfl, rfl, rfl, rfl⟩,
      fun topic => publishedOn_startNewGame topic e.startNewGame s⟩
  · exact ⟨PairingKept_refl s, fun _ => rfl⟩

/-- After the pairing part, an execution of `loop` keeps the pairing variables
and publishes no acknowledgement. -/
theorem loop_pairing (e : LoopEnv) (s s1 : State) (out : List Effect)
    (h : loop e s = some (s1, out)) :
    PairingKept (pairingStep e (mqttLoop e.inbox s).1).1 s1 ∧
    pairingAcks out = pairingAcks (pairingStep e (mqttLoop e.inbox s).1).2 := by
  have hne : "simon/scores" ≠ "simon/pair/ack" := by decide
  rcases loop_cases e s s1 out h with ⟨_, hs, ho⟩ | ⟨_, b, g, hb, hg, hs, ho⟩
  · rw [hs, ho]
    refine ⟨PairingKept_refl _, ?_⟩
    simp only [pairingAcks, publishedOn_append, publishedOn_mqttLoop, List.nil_append]
  · obtain ⟨kd, td⟩ := startDelayStep_pairing e (pairingStep e (mqttLoop e.inbox s).1).1
    obtain ⟨kb, tb⟩ := pollButtons_pairing e _ _ b.1 b.2 hb
    obtain ⟨kg, tg⟩ := gameStateStep_pairing b.1 g.1 g.2 hg
    rw [hs, ho]
    refine ⟨PairingKept_trans _ _ _ (PairingKept_trans _ _ _ kd kb) kg, ?_⟩
    simp only [pairingAcks, publishedOn_append, publishedOn_mqttLoop, List.nil_append, td,
      tb _ hne, tg, List.append_nil]

/-! ## Absence of out-of-bounds accesses under the invariant -/

theorem handleUserInput_total (s : State) (idx : Int) (e : InputEnv) (hi : Inv s)
    (hw : s.gameState = GameState.WAIT_INPUT) (h0 : 0 ≤ idx) (h4 : idx < 4) :
    ∃ r, handleUserInput idx e s = some r := by
  obtain ⟨h1, h2, h3, h4i, _, _, _, _⟩ := hi
  have hlt := h4i hw
  have hb : 0 ≤ s.inputIndex ∧ s.inputIndex < 32 := by omega
  have hread : ∃ expected, readSequence s.sequence s.inputIndex = some expected := by
    unfold readSequence
    rw [dif_pos hb]
    exact ⟨_, rfl⟩
  obtain ⟨expected, hread⟩ := hread
  by_cases hne : idx = expected
  · subst hne
    obtain ⟨l, hl⟩ := lightLed_button idx 200 50 h0 h4
    by_cases hge : s.inputIndex + 1 ≥ s.currentRound
    · by_cases hmax : s.currentRound < (MAX_SEQUENCE : Int)
      · have hwb : 0 ≤ s.currentRound ∧ s.currentRound < 32 := by
          simp only [MAX_SEQUENCE] at hmax
          constructor
          · omega
          · exact_mod_cast hmax
        have hwr : ∃ seq, writeSequence s.sequence s.currentRound (random 0 4 e.rawRandom)
            = some seq := by
          unfold writeSequence
          rw [dif_pos hwb]
          exact ⟨_, rfl⟩
        obtain ⟨seq, hwr⟩ := hwr
        simp only [handleUserInput, hread, hl, ne_eq, not_true_eq_false, if_false, hge, if_true,
          hmax, hwr]
        exact ⟨_, rfl⟩
      · simp only [handleUserInput, hread, hl, ne_eq, not_true_eq_false, if_false, hge, if_true,
          hmax]
        exact ⟨_, rfl⟩
    · simp only [handleUserInput, hread, hl, ne_eq, not_true_eq_false, if_false, hge]
      exact ⟨_, rfl⟩
  · exact ⟨_, handleUserInput_mismatch s idx expected e hread hne⟩

theorem pollButton_total (i : Fin 4) (e : ButtonEnv) (s : State) (hi : Inv s) :
    ∃ r, pollButton i e s = some r := by
  have hf := unlockIfReleased_frame i e.read1 s
  have hiu := Inv_of_ChannelsOnly _ _ hf hi
  unfold pollButton
  simp only
  generalize unlockIfReleased i e.read1 s = u at hf hiu
  by_cases hflag : u.buttonFlags i = true
  · rw [if_pos hflag]
    by_cases hlock : u.buttonLocked i = true
    · rw [if_pos hlock]
      exact ⟨_, rfl⟩
    · rw [if_neg hlock]
      by_cases hacc : e.read2 = Level.LOW ∧
          usub (millis e.clock) (u.lastPressTime i) > debounceDelay
      · rw [if_pos hacc]
        by_cases hw : u.gameState = GameState.WAIT_INPUT
        · rw [if_pos hw]
          exact handleUserInput_total _ _ _ (Inv_of_ChannelsOnly u _ rfl hiu) hw
            (by omega) (by omega)
        · rw [if_neg hw]
          exact ⟨_, rfl⟩
      · rw [if_neg hacc]
        exact ⟨_, rfl⟩
  · rw [if_neg hflag]
    exact ⟨_, rfl⟩

theorem pollButtons_total (e : LoopEnv) (chans : List (Fin 4)) :
    ∀ s : State, Inv s → ∃ r, pollButtons e chans s = some r := by
  induction chans with
  | nil => intro s _; exact ⟨_, rfl⟩
  | cons i rest ih =>
    intro s hi
    have hir := Inv_of_ChannelsOnly _ _ (raiseInterrupts_frame (e.irq i) s) hi
    obtain ⟨r, hr⟩ := pollButton_total i (e.button i) _ hir
    obtain ⟨q, hq⟩ := ih r.1 (Inv_pollButton i (e.button i) _ r.1 r.2 hir hr)
    simp only [pollButtons, hr, hq]
    exact ⟨_, rfl⟩

theorem showFrom_total (seq : Fin 32 → Int) (n : Nat) :
    ∀ i : Nat, i + n ≤ 32 →
      (∀ j : Fin 32, i ≤ j.val → j.val < i + n → 0 ≤ seq j ∧ seq j < 4) →
      ∃ l, showFrom seq i n = some l := by
  induction n with
  | zero => intro i _ _; exact ⟨[], rfl⟩
  | succ n ih =>
    intro i hb hsym
    have hi32 : i < 32 := by omega
    have hs := hsym ⟨i, hi32⟩ (le_refl _) (by simp only; omega)
    obtain ⟨l, hl⟩ := lightLed_button _ 400 100 hs.1 hs.2
    obtain ⟨rest, hrest⟩ := ih (i + 1) (by omega)
      (fun j h1 h2 => hsym j (by omega) (by omega))
    refine ⟨l ++ rest, ?_⟩
    rw [showFrom_succ, readSequence_nat seq i hi32]
    simp only [hl, hrest]

theorem showSequence_total (s : State) (hi : Inv s) : ∃ r, showSequence s = some r := by
  obtain ⟨_, h2, h3, _, _, _, _, h8⟩ := hi
  obtain ⟨l, hl⟩ := showFrom_total s.sequence s.currentRound.toNat 0 (by omega)
    (fun j _ hj => h8 j (by omega))
  simp only [showSequence, hl]
  exact ⟨_, rfl⟩

theorem gameStateStep_total (s : State) (hi : Inv s) : ∃ r, gameStateStep s = some r := by
  unfold gameStateStep
  cases hg : s.gameState
  · exact ⟨_, rfl⟩
  · exact showSequence_total s hi
  · exact ⟨_, rfl⟩
  · exact ⟨_, rfl⟩
  · exact ⟨_, rfl⟩

/-- From a state satisfying the invariant, an execution of `loop` performs no
out-of-bounds access. -/
theorem loop_total (e : LoopEnv) (s : State) (hi : Inv s) : ∃ r, loop e s = some r := by
  have hp : Inv (pairingStep e (mqttLoop e.inbox s).1).1 :=
    Inv_pairingStep e _ (Inv_of_PairingOnly _ _ (mqttLoop_frame e.inbox s) hi)
  have hd := Inv_startDelayStep e _ hp
  obtain ⟨b, hb⟩ := pollButtons_total e [0, 1, 2, 3] _ hd
  obtain ⟨g, hg⟩ := gameStateStep_total b.1 (Inv_pollButtons e _ _ b.1 b.2 hd hb)
  unfold loop
  simp only
  by_cases hw : (pairingStep e (mqttLoop e.inbox s).1).1.gameState = GameState.WAIT_PAIRING
  · rw [if_pos hw]; exact ⟨_, rfl⟩
  · rw [if_neg hw]
    simp only [hb, hg]
    exact ⟨_, rfl⟩

theorem Inv_pairingAttempt : Inv pairingAttempt := by
  unfold Inv
  decide

/-! ## Claims -/

/-- C1: from a state waiting for input with cursor 0 and round `r` (any `r`, in
particular between 1 and 32), feeding `handleUserInput` the `k < r` presses
`sequence[0]`, ..., `sequence[k-1]` (button indices 0..3) in order succeeds and
yields the same state with cursor `k`: still waiting for input, round and
sequence unchanged, no score published. A press different from
`sequence[cursor]` never changes the cursor. -/
theorem C1_matching_presses_advance_cursor (s : State) (r k : Nat)
    (presses : List (Int × InputEnv))
    (hstate : s.gameState = GameState.WAIT_INPUT) (hcur : s.inputIndex = 0)
    (hround : s.currentRound = (r : Int)) (hk : k < r)
    (hlen : presses.length = k)
    (hmatch : ∀ j (hj : j < presses.length),
      readSequence s.sequence (j : Int) = some (presses.get ⟨j, hj⟩).1)
    (hbtn : ∀ p ∈ presses, 0 ≤ p.1 ∧ p.1 < 4) :
    (∃ s1 out, handlePresses presses s = some (s1, out) ∧
        s1 = { s with inputIndex := (k : Int) } ∧
        s1.gameState = GameState.WAIT_INPUT ∧ s1.inputIndex = (k : Int) ∧
        s1.currentRound = (r : Int) ∧ s1.sequence = s.sequence ∧ scoreReports out = []) ∧
    (∀ (t : State) (idx expected : Int) (e : InputEnv),
        readSequence t.sequence t.inputIndex = some expected → idx ≠ expected →
        ∃ t1 out, handleUserInput idx e t = some (t1, out) ∧ t1.inputIndex = t.inputIndex) := by
  constructor
  · obtain ⟨out, hout, hs⟩ := handlePresses_matching presses s 0 (by simp [hcur])
      (by rw [hround]; simp only [Nat.zero_add, hlen]; exact_mod_cast hk)
      (by intro j hj; simpa using hmatch j hj) hbtn
    simp only [Nat.zero_add, hlen] at hout
    exact ⟨_, out, hout, rfl, hstate, rfl, hround, rfl, hs⟩
  · intro t idx expected e hread hne
    exact ⟨_, _, handleUserInput_mismatch t idx expected e hread hne, rfl⟩

/-- C1 at a concrete input: sequence `2, 0`, round 2, the single press 2. -/
theorem C1_matching_presses_advance_cursor_witness :
    ∃ s1 out, handlePresses [(2, sampleInput)] (awaiting sequence20 2 0 "ana") = some (s1, out) ∧
        s1 = { awaiting sequence20 2 0 "ana" with inputIndex := ((1 : Nat) : Int) } ∧
        s1.gameState = GameState.WAIT_INPUT ∧ s1.inputIndex = ((1 : Nat) : Int) ∧
        s1.currentRound = ((2 : Nat) : Int) ∧
        s1.sequence = (awaiting sequence20 2 0 "ana").sequence ∧ scoreReports out = [] :=
  (C1_matching_presses_advance_cursor (awaiting sequence20 2 0 "ana") 2 1 [(2, sampleInput)]
    rfl rfl rfl (by decide) rfl
    (by
      intro j hj
      have hj0 : j = 0 := by simpa using hj
      subst hj0
      rfl)
    (by
      intro p hp
      have hp2 : p = (2, sampleInput) := by simpa using hp
      subst hp2
      decide)).1

/-- C2 as stated fails: right after `setup` the round is 0 and no input is
awaited, yet `startNewGame`, and with it the first execution of `loop` after
the start delay, raises the round to 1 without any press. -/
theorem C2_counterexample_start_raises_round :
    (setup sampleSetup initial).currentRound = 0 ∧
    (setup sampleSetup initial).gameState = GameState.WAIT_START ∧
    (startNewGame sampleNewGame (setup sampleSetup initial)).1.currentRound = 1 ∧
    (loop (quietTick 6000) (setup sampleSetup initial)).map (fun r => r.1.currentRound)
      = some 1 := by
  refine ⟨rfl, rfl, rfl, ?_⟩
  decide

/-- C2 (amended): with round `r < 32` and cursor `r-1` (whatever the game state,
in particular while input is awaited), a
press equal to `sequence[r-1]` (a button index) makes the round `r+1`, stores a
new symbol of `{0,1,2,3}` at `sequence[r]`, leaves every other entry of
`sequence` unchanged, moves to `SHOW_SEQUENCE` and publishes no score. Every
operation either keeps the round, or sets it to 1 (`startNewGame`: an increase,
by 1, only from round 0), or is such a completed replay raising it by exactly
1: the interrupt handlers, `callback`, `publishScore` and `showSequence` keep
it, `handleUserInput` and `loop` do one of the three. -/
theorem C2_round_grows_by_one_on_full_replay (s : State) (r : Nat) (idx : Int) (e : InputEnv)
    (hround : s.currentRound = (r : Int))
    (hr : r < 32) (hcur : s.inputIndex = (r : Int) - 1)
    (hread : readSequence s.sequence s.inputIndex = some idx) (h0 : 0 ≤ idx) (h4 : idx < 4) :
    (∃ s1 out, handleUserInput idx e s = some (s1, out) ∧
        s1.currentRound = (r : Int) + 1 ∧
        s1.sequence ⟨r, hr⟩ = random 0 4 e.rawRandom ∧
        0 ≤ s1.sequence ⟨r, hr⟩ ∧ s1.sequence ⟨r, hr⟩ < 4 ∧
        (∀ j : Fin 32, j ≠ ⟨r, hr⟩ → s1.sequence j = s.sequence j) ∧
        s1.gameState = GameState.SHOW_SEQUENCE ∧ scoreReports out = []) ∧
    (∀ (i : Fin 4) (t : State), (isrButton i t).currentRound = t.currentRound) ∧
    (∀ (d : Delivery) (t : State), (callback d t).1.currentRound = t.currentRound) ∧
    (∀ (score : Int) (pe : PublishEnv) (t : State),
        (publishScore score pe t).1.currentRound = t.currentRound) ∧
    (∀ (t t1 : State) (out : List Effect), showSequence t = some (t1, out) →
        t1.currentRound = t.currentRound) ∧
    (∀ (ne : NewGameEnv) (t : State), (startNewGame ne t).1.currentRound = 1) ∧
    (∀ (t t1 : State) (press : Int) (ie : InputEnv) (out : List Effect),
        handleUserInput press ie t = some (t1, out) →
        t1.currentRound = t.currentRound ∨ t1.currentRound = 1 ∨
        (t1.currentRound = t.currentRound + 1 ∧
          readSequence t.sequence t.inputIndex = some press ∧
          t.inputIndex + 1 ≥ t.currentRound ∧ t.currentRound < 32)) ∧
    (∀ (le : LoopEnv) (t t1 : State) (out : List Effect), loop le t = some (t1, out) →
        t1.currentRound = t.currentRound ∨ t1.currentRound = 1 ∨
        (t.gameState = GameState.WAIT_INPUT ∧ t1.currentRound = t.currentRound + 1 ∧
          t.currentRound < 32)) := by
  refine ⟨?_, ?_, ?_, ?_, ?_, ?_, ?_, ?_⟩
  · obtain ⟨light, hl, hh⟩ := handleUserInput_growth s idx e r hround hr hread h0 h4
      (by rw [hcur, hround]; omega)
    refine ⟨_, _, hh, rfl, ?_, ?_, ?_, ?_, rfl, ?_⟩
    · simp only [Function.update_same]
    · simp only [Function.update_same]; exact (random_range _).1
    · simp only [Function.update_same]; exact (random_range _).2
    · intro j hj
      simp only [Function.update_noteq hj]
    · simp [scoreReports, publishedOn_append, beepGoodInput, beepRoundWin, publishedOn_beep,
        publishedOn_lightLed _ _ _ _ _ hl, publishedOn]
  · intro i t; rfl
  · intro d t
    have := congrArg State.currentRound (callback_frame d t)
    simpa using this
  · intro score pe t
    rw [publishScore_state]
  · intro t t1 out h
    rw [showSequence_state t t1 out h]
  · intro ne t; rfl
  · intro t t1 press ie out h
    rcases handleUserInput_cases t t1 press ie out h with
      ⟨expected, _, _, hs⟩ | ⟨_, _, hs⟩ | ⟨hrd, hge, hmax, seq, _, hs⟩ | ⟨_, _, _, hs⟩
    · left; rw [hs]
    · left; rw [hs]
    · right; right; rw [hs]; exact ⟨rfl, hrd, hge, hmax⟩
    · right; left; rw [hs]; rfl
  · intro le t t1 out h
    exact loop_round le t t1 out h

/-- C2 at the input of the spec's scenario: sequence `[2]`, press 2 gives
round 2. -/
theorem C2_round_grows_by_one_on_full_replay_witness :
    ∃ s1 out, handleUserInput 2 sampleInput (awaiting sequence20 1 0 "ana") = some (s1, out) ∧
        s1.currentRound = ((1 : Nat) : Int) + 1 ∧
        s1.sequence ⟨1, by decide⟩ = random 0 4 sampleInput.rawRandom ∧
        0 ≤ s1.sequence ⟨1, by decide⟩ ∧ s1.sequence ⟨1, by decide⟩ < 4 ∧
        (∀ j : Fin 32, j ≠ ⟨1, by decide⟩ →
          s1.sequence j = (awaiting sequence20 1 0 "ana").sequence j) ∧
        s1.gameState = GameState.SHOW_SEQUENCE ∧ scoreReports out = [] :=
  (C2_round_grows_by_one_on_full_replay (awaiting sequence20 1 0 "ana") 1 2 sampleInput
    rfl (by decide) rfl rfl (by decide) (by decide)).1

/-- C3: for every state whose cursor is inside the array (in particular while
input is awaited with round `r ≥ 1`) and every press different from
`sequence[cursor]`, `handleUserInput` returns the same state with the game
state set to `WAIT_PAIRING` (round, cursor, sequence and all else unchanged),
after calling `publishScore` with score `round - 1`; the score reports of the
call are exactly those of that `publishScore`: none without a paired user,
otherwise one document carrying score `round - 1`. -/
theorem C3_wrong_press_reports_round_minus_one (s : State) (idx expected : Int) (e : InputEnv)
    (hread : readSequence s.sequence s.inputIndex = some expected) (hne : idx ≠ expected) :
    ∃ s1 out, handleUserInput idx e s = some (s1, out) ∧
      s1 = { s with gameState := GameState.WAIT_PAIRING } ∧
      s1.gameState = GameState.WAIT_PAIRING ∧ s1.currentRound = s.currentRound ∧
      s1.inputIndex = s.inputIndex ∧ s1.sequence = s.sequence ∧
      out = beepGameOver ++
          (publishScore (s.currentRound - 1) e.publish
            { s with gameState := GameState.WAIT_PAIRING }).2 ++ ledsOff ++
          [Effect.ledcWriteTone buzzerChannel 0,
           Effect.serialPrint "Game over, en attente d'un nouvel appairage..."] ∧
      scoreReports out =
        if s.pairedUsername = "" then []
        else [scoreDoc e.publish.wifiSSID s.pairedUsername (s.currentRound - 1)] := by
  refine ⟨_, _, handleUserInput_mismatch s idx expected e hread hne, rfl, rfl, rfl, rfl, rfl,
    rfl, ?_⟩
  simp only [scoreReports, publishedOn_append, publishedOn_publishScore]
  simp [beepGameOver, publishedOn_append, publishedOn_beep, publishedOn, ledsOff]

/-- C3 at the input of the spec's scenario: sequence `[2,0]`, presses 2 then 1:
the first press leads to cursor 1, the second gives one report of score 1 and
`WAIT_PAIRING`. -/
theorem C3_wrong_press_reports_round_minus_one_witness :
    handleUserInput 2 sampleInput (awaiting sequence20 2 0 "ana")
      = some (awaiting sequence20 2 1 "ana",
          beepGoodInput ++ [Effect.digitalWrite 5 Level.HIGH, Effect.delay 200,
            Effect.digitalWrite 5 Level.LOW, Effect.delay 50]) ∧
    ∃ s1 out, handleUserInput 1 sampleInput (awaiting sequence20 2 1 "ana") = some (s1, out) ∧
      s1.gameState = GameState.WAIT_PAIRING ∧ s1.currentRound = 2 ∧ s1.inputIndex = 1 ∧
      s1.sequence = sequence20 ∧
      scoreReports out = [scoreDoc "Teddy" "ana" 1] := by
  obtain ⟨s1, out, h, _, hg, hr, hi, hq, _, hrep⟩ :=
    C3_wrong_press_reports_round_minus_one (awaiting sequence20 2 1 "ana") 1 0 sampleInput
      rfl (by decide)
  exact ⟨rfl, s1, out, h, hg, hr, hi, hq, hrep⟩

/-- C4: with round 32 and cursor 31 (in particular while input is awaited), a
press equal to `sequence[31]` (a button index) calls `publishScore` with score
32 and then `startNewGame`: the trace is the feedback of the press, then the
effects of `publishScore 32` (one report of score 32 when a user is paired),
then those of `startNewGame`; afterwards the round is 1, the cursor 0,
`sequence[0]` a new symbol of `{0,1,2,3}`, every other entry of the 32-element
array as before, and the game state `SHOW_SEQUENCE`. -/
theorem C4_last_round_reports_and_resets (s : State) (idx : Int) (e : InputEnv)
    (hround : s.currentRound = 32) (hcur : s.inputIndex = 31)
    (hread : readSequence s.sequence s.inputIndex = some idx) (h0 : 0 ≤ idx) (h4 : idx < 4) :
    ∃ light s1 out, lightLed idx 200 50 = some light ∧
      handleUserInput idx e s = some (s1, out) ∧
      out = beepGoodInput ++ light ++
        (publishScore 32 e.publish { s with inputIndex := 32 }).2 ++
        (startNewGame e.newGame { s with inputIndex := 32 }).2 ∧
      scoreReports out =
        (if s.pairedUsername = "" then [] else [scoreDoc e.publish.wifiSSID s.pairedUsername 32]) ∧
      s1 = (startNewGame e.newGame { s with inputIndex := 32 }).1 ∧
      s1.currentRound = 1 ∧ s1.inputIndex = 0 ∧
      s1.sequence 0 = random 0 4 e.newGame.rawRandom ∧
      0 ≤ s1.sequence 0 ∧ s1.sequence 0 < 4 ∧
      (∀ j : Fin 32, j ≠ 0 → s1.sequence j = s.sequence j) ∧
      s1.gameState = GameState.SHOW_SEQUENCE := by
  obtain ⟨l, hl⟩ := lightLed_button idx 200 50 h0 h4
  have hge : s.inputIndex + 1 ≥ s.currentRound := by rw [hround, hcur]; decide
  have hmax : ¬ (s.currentRound < (MAX_SEQUENCE : Int)) := by rw [hround]; decide
  have hi : s.inputIndex + 1 = 32 := by rw [hcur]; rfl
  refine ⟨l, _, _, hl, ?_, rfl, ?_, rfl, rfl, rfl, ?_, ?_, ?_, ?_, rfl⟩
  · simp only [handleUserInput, hread, hl, ne_eq, not_true_eq_false, if_false, hge, if_true,
      hmax, publishScore_state]
    rw [hi, hround]
  · simp only [scoreReports, publishedOn_append, publishedOn_publishScore,
      publishedOn_startNewGame, beepGoodInput, publishedOn_beep,
      publishedOn_lightLed _ _ _ _ _ hl]
    simp
  · simp only [startNewGame, Function.update_same]
  · simp only [startNewGame, Function.update_same]; exact (random_range _).1
  · simp only [startNewGame, Function.update_same]; exact (random_range _).2
  · intro j hj
    simp only [startNewGame, Function.update_noteq hj]

/-- C4 at a concrete input: 32 symbols 1, cursor 31, press 1, user "ana". -/
theorem C4_last_round_reports_and_resets_witness :
    ∃ s1 out, handleUserInput 1 sampleInput (awaiting sequenceOnes 32 31 "ana") = some (s1, out) ∧
      scoreReports out = [scoreDoc "Teddy" "ana" 32] ∧
      s1.currentRound = 1 ∧ s1.inputIndex = 0 ∧ s1.sequence 0 = 3 ∧
      s1.gameState = GameState.SHOW_SEQUENCE := by
  obtain ⟨_, s1, out, _, h, _, hrep, _, hr, hi, hs, _, _, _, hg⟩ :=
    C4_last_round_reports_and_resets (awaiting sequenceOnes 32 31 "ana") 1 sampleInput
      rfl rfl rfl (by decide) (by decide)
  exact ⟨s1, out, h, hrep, hr, hi, hs, hg⟩

/-- C5: for every state, score and readings, `publishScore` changes no global;
on every topic it publishes nothing when `pairedUsername` is empty and
otherwise exactly one message, on `simon/scores`, whose document carries that
user name and that score; so a score report is published if and only if
`pairedUsername` is not empty. -/
theorem C5_score_published_iff_paired (score : Int) (e : PublishEnv) (s : State) :
    (publishScore score e s).1 = s ∧
    (∀ topic : String, publishedOn topic (publishScore score e s).2 =
      if s.pairedUsername = "" then []
      else if "simon/scores" = topic then [scoreDoc e.wifiSSID s.pairedUsername score]
      else []) ∧
    (scoreReports (publishScore score e s).2 ≠ [] ↔ s.pairedUsername ≠ "") ∧
    (scoreDoc e.wifiSSID s.pairedUsername score).lookup "username"
      = some (JsonValue.str s.pairedUsername) ∧
    (scoreDoc e.wifiSSID s.pairedUsername score).lookup "score"
      = some (JsonValue.int score) := by
  refine ⟨publishScore_state score e s, fun topic => publishedOn_publishScore topic score e s,
    ?_, ?_, ?_⟩
  · rw [scoreReports_publishScore]
    by_cases hu : s.pairedUsername = "" <;> simp [hu]
  · simp [scoreDoc, List.lookup]
  · simp [scoreDoc, List.lookup]

/-- C6: with one line reading per poll (the two `digitalRead` calls of the loop
body return the same level), for every channel, every value of the pending
flag, every line level and every clock: if the channel is locked when the poll
begins, the poll completes with an empty trace and a state that differs from
the initial one only in the channel arrays (so `handleUserInput`, whose trace
is never empty, is not called), `lastPressTime` is unchanged and the pending
flag of the channel is cleared. -/
theorem C6_locked_channel_emits_no_press (i : Fin 4) (e : ButtonEnv) (s : State)
    (hlocked : s.buttonLocked i = true) (hone : e.read2 = e.read1) :
    (∃ s1, pollButton i e s = some (s1, []) ∧ ChannelsOnly s s1 ∧
      s1.lastPressTime = s.lastPressTime ∧ s1.buttonFlags i = false ∧
      s1.buttonLocked i = (if e.read1 = Level.HIGH then false else true)) ∧
    (∀ (t t1 : State) (press : Int) (ie : InputEnv) (out : List Effect),
      handleUserInput press ie t = some (t1, out) → out ≠ []) := by
  constructor
  · unfold pollButton unlockIfReleased
    simp only [hlocked, true_and, hone]
    cases hr : e.read1 with
    | HIGH =>
      simp only [if_true]
      by_cases hflag : s.buttonFlags i = true
      · rw [if_pos hflag]
        simp only [Function.update_same, Bool.false_eq_true, if_false, reduceCtorEq, false_and]
        exact ⟨_, rfl, rfl, rfl, by simp, by simp⟩
      · rw [if_neg hflag]
        refine ⟨_, rfl, rfl, rfl, ?_, by simp⟩
        simpa using hflag
    | LOW =>
      simp only [reduceCtorEq, if_false]
      by_cases hflag : s.buttonFlags i = true
      · rw [if_pos hflag]
        simp only [hlocked, if_true]
        exact ⟨_, rfl, rfl, rfl, by simp, hlocked⟩
      · rw [if_neg hflag]
        refine ⟨_, rfl, rfl, rfl, ?_, hlocked⟩
        simpa using hflag
  · intro t t1 press ie out h
    exact (handleUserInput_trace t t1 press ie out h).1

/-- C6 at a concrete input: channel 0 locked and pending while input is awaited,
line held down, debounce interval elapsed. -/
theorem C6_locked_channel_emits_no_press_witness :
    ∃ s1, pollButton 0 pressedLine lockedPending = some (s1, []) ∧
      ChannelsOnly lockedPending s1 ∧
      s1.lastPressTime = lockedPending.lastPressTime ∧ s1.buttonFlags 0 = false ∧
      s1.buttonLocked 0 = (if pressedLine.read1 = Level.HIGH then false else true) :=
  (C6_locked_channel_emits_no_press 0 pressedLine lockedPending rfl rfl).1

/-- Outside the assumption of C6: when the two `digitalRead` calls of one poll
differ (released, then pressed), a channel that was locked at the beginning of
the poll is unlocked and its press accepted in the same poll. -/
theorem pollButton_two_readings_accepts :
    lockedPending.buttonLocked 2 = true ∧
    (pollButton 2 bouncingLine lockedPending).map
        (fun r => (r.1.lastPressTime 2, r.1.inputIndex, decide (r.2 = []))) =
      some (7000, 1, false) := by
  decide

/-- C7: for every execution of `loop` that begins with a pairing attempt in
progress and finds the network joined, whatever the game state, the inbox, the
buttons and the clocks: the execution completes; exactly one acknowledgement is
published, whose members `status`, `ssid` and `username` are "paired", the
requested SSID and the user name (as they stand after the deliveries of this
execution); the attempt is no longer in progress; and the game is reset: round 1, one new symbol of `{0,1,2,3}` at
`sequence[0]`, which the same execution replays, ending with cursor 0 and input
awaited. -/
theorem C7_pairing_success_acknowledged_and_game_reset (e : LoopEnv) (s : State)
    (hin : s.pairingInProgress = true) (hj : e.wifiConnected2 = true) :
    ∃ s1 out, loop e s = some (s1, out) ∧
      pairingAcks out =
        [ackDoc (mqttLoop e.inbox s).1.pairingSSID (mqttLoop e.inbox s).1.pairedUsername
          "paired"] ∧
      s1.pairingInProgress = false ∧
      s1.pairedUsername = (mqttLoop e.inbox s).1.pairedUsername ∧
      s1.currentRound = 1 ∧ s1.inputIndex = 0 ∧
      s1.sequence 0 = random 0 4 e.pairNewGame.rawRandom ∧
      0 ≤ s1.sequence 0 ∧ s1.sequence 0 < 4 ∧
      s1.gameState = GameState.WAIT_INPUT ∧ s1.gameReady = true ∧
      (ackDoc (mqttLoop e.inbox s).1.pairingSSID (mqttLoop e.inbox s).1.pairedUsername
          "paired").lookup "status" = some (JsonValue.str "paired") ∧
      (ackDoc (mqttLoop e.inbox s).1.pairingSSID (mqttLoop e.inbox s).1.pairedUsername
          "paired").lookup "ssid" = some (JsonValue.str (mqttLoop e.inbox s).1.pairingSSID) ∧
      (ackDoc (mqttLoop e.inbox s).1.pairingSSID (mqttLoop e.inbox s).1.pairedUsername
          "paired").lookup "username"
        = some (JsonValue.str (mqttLoop e.inbox s).1.pairedUsername) := by
  have hm := mqttLoop_keeps_inProgress e.inbox s hin
  have hmo := publishedOn_mqttLoop "simon/pair/ack" e.inbox s
  generalize hmr : mqttLoop e.inbox s = mr at hm hmo
  have hp := pairingStep_success e mr.1 hm hj
  obtain ⟨b, hb, hfb⟩ := pollButtons_idle e [0, 1, 2, 3]
    { (startNewGame e.pairNewGame { mr.1 with pairingInProgress := false }).1 with
        gameReady := true } (by simp [startNewGame])
  have hbr : b.currentRound = 1 := by
    have := congrArg State.currentRound hfb
    simpa [startNewGame] using this
  have hbs : b.sequence 0 = random 0 4 e.pairNewGame.rawRandom := by
    have := congrArg (fun t => State.sequence t 0) hfb
    simpa [startNewGame] using this
  have hbg : b.gameState = GameState.SHOW_SEQUENCE := by
    have := congrArg State.gameState hfb
    simpa [startNewGame] using this
  have hbp : b.pairingInProgress = false := by
    have := congrArg State.pairingInProgress hfb
    simpa [startNewGame] using this
  have hbu : b.pairedUsername = mr.1.pairedUsername := by
    have := congrArg State.pairedUsername hfb
    simpa [startNewGame] using this
  have hby : b.gameReady = true := by
    have := congrArg State.gameReady hfb
    simpa [startNewGame] using this
  have hrange := random_range e.pairNewGame.rawRandom
  obtain ⟨l, hl, hshow⟩ := showSequence_round_one b hbr (by rw [hbs]; exact hrange.1)
    (by rw [hbs]; exact hrange.2)
  have hd : startDelayStep e
      { (startNewGame e.pairNewGame { mr.1 with pairingInProgress := false }).1 with
        gameReady := true } =
      ({ (startNewGame e.pairNewGame { mr.1 with pairingInProgress := false }).1 with
        gameReady := true }, []) := by
    simp [startDelayStep]
  have hg : gameStateStep b = showSequence b := by
    unfold gameStateStep
    rw [hbg]
  have hloop : loop e s = some ({ b with inputIndex := 0, gameState := GameState.WAIT_INPUT },
      mr.2 ++ (pairingStep e mr.1).2 ++ [] ++ [] ++ ([Effect.delay 400] ++ (l ++ []))) := by
    unfold loop
    simp only [hmr, hp]
    rw [if_neg (by simp [startNewGame])]
    simp only [hd, hb, hg, hshow]
  refine ⟨_, _, hloop, ?_, hbp, hbu, hbr,
    rfl, hbs, by rw [hbs]; exact hrange.1, by rw [hbs]; exact hrange.2, rfl, hby,
    by simp [ackDoc, List.lookup], by simp [ackDoc, List.lookup],
    by simp [ackDoc, List.lookup]⟩
  · rw [hp]
    simp only [pairingAcks, publishedOn_append, hmo, publishedOn_join, publishedOn_startNewGame,
      publishedOn_lightLed _ _ _ _ _ hl, beepWiFiConnected, publishedOn_beep]
    simp [publishedOn]

/-- C7 at a concrete input: a halted game with a pairing attempt in progress for
SSID "Home" and user "ana", the network joined. -/
theorem C7_pairing_success_acknowledged_and_game_reset_witness :
    ∃ s1 out, loop (joinedTick 3000) pairingAttempt = some (s1, out) ∧
      pairingAcks out = [ackDoc "Home" "ana" "paired"] ∧
      s1.pairingInProgress = false ∧ s1.pairedUsername = "ana" ∧
      s1.currentRound = 1 ∧ s1.inputIndex = 0 ∧
      s1.sequence 0 = random 0 4 (joinedTick 3000).pairNewGame.rawRandom ∧
      0 ≤ s1.sequence 0 ∧ s1.sequence 0 < 4 ∧
      s1.gameState = GameState.WAIT_INPUT ∧ s1.gameReady = true ∧
      (ackDoc "Home" "ana" "paired").lookup "status" = some (JsonValue.str "paired") ∧
      (ackDoc "Home" "ana" "paired").lookup "ssid" = some (JsonValue.str "Home") ∧
      (ackDoc "Home" "ana" "paired").lookup "username" = some (JsonValue.str "ana") :=
  C7_pairing_success_acknowledged_and_game_reset (joinedTick 3000) pairingAttempt rfl rfl

/-- C8: for every execution of `loop` from a state satisfying the invariant
(every reachable state does) that begins with a pairing attempt in progress and
finds the network not joined: the execution completes; exactly one
acknowledgement, whose members `status`, `ssid` and `username` are "failed", the
requested SSID and the user name, is published and the attempt ends if and
only if `millis() - pairingStartTime > 10000` (unsigned subtraction, the start
time as it stands after the deliveries of this execution); otherwise, in
particular at exactly 10000, no acknowledgement is published and the attempt
stays in progress; and on failure the pairing part only clears
`pairingInProgress`: game state, sequence, round and cursor are those of the
beginning. -/
theorem C8_pairing_fails_after_timeout_only (e : LoopEnv) (s : State) (hi : Inv s)
    (hin : s.pairingInProgress = true) (hj : e.wifiConnected2 = false) :
    ∃ s1 out, loop e s = some (s1, out) ∧
      ((pairingAcks out =
            [ackDoc (mqttLoop e.inbox s).1.pairingSSID (mqttLoop e.inbox s).1.pairedUsername
              "failed"] ∧
          s1.pairingInProgress = false) ↔
        usub (millis e.pairClock) (mqttLoop e.inbox s).1.pairingStartTime > PAIRING_TIMEOUT) ∧
      (¬ usub (millis e.pairClock) (mqttLoop e.inbox s).1.pairingStartTime > PAIRING_TIMEOUT →
        pairingAcks out = [] ∧ s1.pairingInProgress = true) ∧
      (usub (millis e.pairClock) (mqttLoop e.inbox s).1.pairingStartTime > PAIRING_TIMEOUT →
        (pairingStep e (mqttLoop e.inbox s).1).1 =
            { (mqttLoop e.inbox s).1 with pairingInProgress := false } ∧
          (pairingStep e (mqttLoop e.inbox s).1).1.gameState = s.gameState ∧
          (pairingStep e (mqttLoop e.inbox s).1).1.sequence = s.sequence ∧
          (pairingStep e (mqttLoop e.inbox s).1).1.currentRound = s.currentRound ∧
          (pairingStep e (mqttLoop e.inbox s).1).1.inputIndex = s.inputIndex) ∧
      (ackDoc (mqttLoop e.inbox s).1.pairingSSID (mqttLoop e.inbox s).1.pairedUsername
          "failed").lookup "status" = some (JsonValue.str "failed") ∧
      (ackDoc (mqttLoop e.inbox s).1.pairingSSID (mqttLoop e.inbox s).1.pairedUsername
          "failed").lookup "ssid" = some (JsonValue.str (mqttLoop e.inbox s).1.pairingSSID) ∧
      (ackDoc (mqttLoop e.inbox s).1.pairingSSID (mqttLoop e.inbox s).1.pairedUsername
          "failed").lookup "username"
        = some (JsonValue.str (mqttLoop e.inbox s).1.pairedUsername) := by
  obtain ⟨r, hr⟩ := loop_total e s hi
  obtain ⟨hk, hacks⟩ := loop_pairing e s r.1 r.2 hr
  have hm := mqttLoop_keeps_inProgress e.inbox s hin
  have hfr := mqttLoop_frame e.inbox s
  have hg := congrArg State.gameState hfr
  have hq := congrArg State.sequence hfr
  have hc := congrArg State.currentRound hfr
  have hx := congrArg State.inputIndex hfr
  simp only at hg hq hc hx
  generalize (mqttLoop e.inbox s).1 = m at hk hacks hm hg hq hc hx
  refine ⟨r.1, r.2, hr, ?_, ?_, ?_, by simp [ackDoc, List.lookup],
    by simp [ackDoc, List.lookup], by simp [ackDoc, List.lookup]⟩
  · by_cases ht : usub (millis e.pairClock) m.pairingStartTime > PAIRING_TIMEOUT
    · have hp := pairingStep_failed e m hm hj ht
      rw [hp] at hk hacks
      have hacks2 : pairingAcks r.2 = [ackDoc m.pairingSSID m.pairedUsername "failed"] := by
        rw [hacks]
        simp only [pairingAcks, publishedOn_append, publishedOn_join, List.nil_append]
        simp [publishedOn]
      exact ⟨fun _ => ht, fun _ => ⟨hacks2, hk.1⟩⟩
    · have hp := pairingStep_waiting e m hm hj ht
      rw [hp] at hk hacks
      refine ⟨fun h => ?_, fun h => absurd h ht⟩
      rw [hk.1, hm] at h
      exact absurd h.2 (by decide)
  · intro ht
    have hp := pairingStep_waiting e m hm hj ht
    rw [hp] at hk hacks
    refine ⟨?_, by rw [hk.1, hm]⟩
    rw [hacks]
    simp only [pairingAcks, publishedOn_join]
  · intro ht
    rw [pairingStep_failed e m hm hj ht]
    exact ⟨rfl, hg, hq, hc, hx⟩

/-- C8 at concrete inputs: an attempt started at 1000 with the network never
joined fails at clock 11001 and is still in progress at clock 11000. -/
theorem C8_pairing_fails_after_timeout_only_witness :
    (∃ s1 out, loop (quietTick 11001) pairingAttempt = some (s1, out) ∧
      pairingAcks out = [ackDoc "Home" "ana" "failed"] ∧ s1.pairingInProgress = false) ∧
    (∃ s1 out, loop (quietTick 11000) pairingAttempt = some (s1, out) ∧
      pairingAcks out = [] ∧ s1.pairingInProgress = true) ∧
    (ackDoc "Home" "ana" "failed").lookup "status" = some (JsonValue.str "failed") := by
  obtain ⟨s1, out, h1, hiff, _, _, hstatus, _⟩ :=
    C8_pairing_fails_after_timeout_only (quietTick 11001) pairingAttempt Inv_pairingAttempt
      rfl rfl
  obtain ⟨s2, out2, h2, _, hstay, _⟩ :=
    C8_pairing_fails_after_timeout_only (quietTick 11000) pairingAttempt Inv_pairingAttempt
      rfl rfl
  exact ⟨⟨s1, out, h1, hiff.2 (by decide)⟩, ⟨s2, out2, h2, hstay (by decide)⟩, hstatus⟩

/-- C9: in every state reachable from `setup` by interrupts and executions of
`loop` (which include the inbound pairing requests, the interrupts inside an
execution and the session resets), `0 ≤ inputIndex ≤ currentRound ≤ 32`, and the
round is 0 exactly as long as no game was started (`gameReady` false, game state
`WAIT_START`). -/
theorem C9_cursor_round_bounds (s : State) (h : Reachable s) :
    0 ≤ s.inputIndex ∧ s.inputIndex ≤ s.currentRound ∧ s.currentRound ≤ (MAX_SEQUENCE : Int) ∧
    (s.currentRound = 0 ↔ s.gameReady = false) ∧
    (s.currentRound = 0 ↔ s.gameState = GameState.WAIT_START) := by
  obtain ⟨h1, h2, h3, _, h5, h6, _, _⟩ := Inv_of_Reachable s h
  exact ⟨h1, h2, h3, h5.symm.trans h6, h5.symm⟩

/-- C9 at a concrete reachable state: `setup`, an interrupt of channel 2, and
the execution of `loop` that starts the first game. -/
theorem C9_cursor_round_bounds_witness :
    0 ≤ firstGame.1.inputIndex ∧ firstGame.1.inputIndex ≤ firstGame.1.currentRound ∧
    firstGame.1.currentRound ≤ (MAX_SEQUENCE : Int) ∧
    (firstGame.1.currentRound = 0 ↔ firstGame.1.gameReady = false) ∧
    (firstGame.1.currentRound = 0 ↔ firstGame.1.gameState = GameState.WAIT_START) :=
  C9_cursor_round_bounds firstGame.1
    (Reachable.tick (quietTick 6000) (isrButton 2 (setup sampleSetup initial)) firstGame.1
      firstGame.2 (Reachable.interrupt 2 _ (Reachable.boot sampleSetup)) rfl)

/-- C10 as stated fails: a game halted in `WAIT_PAIRING` with no pairing attempt
in progress, channel 0 pending and locked and its line released; after an
execution of `loop` the channel is still pending and still locked, whereas a
poll of the channel would have cleared both. -/
theorem C10_counterexample_halted_game_not_polled :
    haltedPending.gameState = GameState.WAIT_PAIRING ∧
    haltedPending.pairingInProgress = false ∧
    haltedPending.buttonFlags 0 = true ∧ haltedPending.buttonLocked 0 = true ∧
    ((quietTick 7000).button 0).read1 = Level.HIGH ∧
    (loop (quietTick 7000) haltedPending).map
        (fun r => (r.1.buttonFlags 0, r.1.buttonLocked 0, decide (r.2 = []))) =
      some (true, true, true) ∧
    (pollButton 0 ((quietTick 7000).button 0) haltedPending).map
        (fun r => (r.1.buttonFlags 0, r.1.buttonLocked 0)) =
      some (false, false) := by
  decide

/-- C10 (amended): for every execution of `loop` that begins in `WAIT_PAIRING`
and does not resolve a pairing success (no attempt in progress after the
deliveries, or the network not joined), the execution returns right after the
pairing part: the channels are not polled, so the pending flags, the locked
flags and the last accepted times all keep their values, and game state,
sequence, round, cursor and `gameReady` are unchanged. -/
theorem C10_halted_tick_leaves_channels_and_game (e : LoopEnv) (s : State)
    (hw : s.gameState = GameState.WAIT_PAIRING)
    (hns : ¬ ((mqttLoop e.inbox s).1.pairingInProgress = true ∧ e.wifiConnected2 = true)) :
    ∃ s1 out, loop e s = some (s1, out) ∧
      s1 = (pairingStep e (mqttLoop e.inbox s).1).1 ∧
      out = (mqttLoop e.inbox s).2 ++ (pairingStep e (mqttLoop e.inbox s).1).2 ∧
      s1.buttonFlags = s.buttonFlags ∧ s1.buttonLocked = s.buttonLocked ∧
      s1.lastPressTime = s.lastPressTime ∧
      s1.gameState = GameState.WAIT_PAIRING ∧ s1.sequence = s.sequence ∧
      s1.currentRound = s.currentRound ∧ s1.inputIndex = s.inputIndex ∧
      s1.gameReady = s.gameReady := by
  have hfr := mqttLoop_frame e.inbox s
  have hg := congrArg State.gameState hfr
  have hq := congrArg State.sequence hfr
  have hc := congrArg State.currentRound hfr
  have hx := congrArg State.inputIndex hfr
  have hy := congrArg State.gameReady hfr
  have hf := congrArg State.buttonFlags hfr
  have hl := congrArg State.buttonLocked hfr
  have ht := congrArg State.lastPressTime hfr
  simp only at hg hq hc hx hy hf hl ht
  have hloop : ∀ p : State × List Effect, pairingStep e (mqttLoop e.inbox s).1 = p →
      p.1.gameState = GameState.WAIT_PAIRING →
      loop e s = some (p.1, (mqttLoop e.inbox s).2 ++ p.2) := by
    intro p hp hpg
    unfold loop
    simp only [hp]
    rw [if_pos hpg]
  rcases pairingStep_state e (mqttLoop e.inbox s).1 with h | h | ⟨h1, h2, _⟩
  · have hpg : (pairingStep e (mqttLoop e.inbox s).1).1.gameState = GameState.WAIT_PAIRING := by
      rw [h, hg]; exact hw
    refine ⟨_, _, hloop _ rfl hpg, rfl, rfl, ?_, ?_, ?_, hpg, ?_, ?_, ?_, ?_⟩ <;> rw [h]
    · exact hf
    · exact hl
    · exact ht
    · exact hq
    · exact hc
    · exact hx
    · exact hy
  · have hpg : (pairingStep e (mqttLoop e.inbox s).1).1.gameState = GameState.WAIT_PAIRING := by
      rw [h]; simp only; rw [hg]; exact hw
    refine ⟨_, _, hloop _ rfl hpg, rfl, rfl, ?_, ?_, ?_, hpg, ?_, ?_, ?_, ?_⟩ <;> rw [h]
    · exact hf
    · exact hl
    · exact ht
    · exact hq
    · exact hc
    · exact hx
    · exact hy
  · exact absurd ⟨h1, h2⟩ hns

/-- C10 (amended) at a concrete input: the halted game with every channel
pending and locked, all lines released. -/
theorem C10_halted_tick_leaves_channels_and_game_witness :
    ∃ s1 out, loop (quietTick 7000) haltedPending = some (s1, out) ∧
      s1 = (pairingStep (quietTick 7000) (mqttLoop (quietTick 7000).inbox haltedPending).1).1 ∧
      out = (mqttLoop (quietTick 7000).inbox haltedPending).2 ++
        (pairingStep (quietTick 7000) (mqttLoop (quietTick 7000).inbox haltedPending).1).2 ∧
      s1.buttonFlags = haltedPending.buttonFlags ∧ s1.buttonLocked = haltedPending.buttonLocked ∧
      s1.lastPressTime = haltedPending.lastPressTime ∧
      s1.gameState = GameState.WAIT_PAIRING ∧ s1.sequence = haltedPending.sequence ∧
      s1.currentRound = haltedPending.currentRound ∧ s1.inputIndex = haltedPending.inputIndex ∧
      s1.gameReady = haltedPending.gameReady :=
  C10_halted_tick_leaves_channels_and_game (quietTick 7000) haltedPending rfl (by decide)


/-! ## The halted game -/

/-- An execution of `loop` that begins in `WAIT_PAIRING` and does not resolve a
pairing success returns right after the pairing part, which changes at most
`pairingInProgress`. -/
theorem loop_halted (e : LoopEnv) (s : State) (hw : s.gameState = GameState.WAIT_PAIRING)
    (hns : ¬ ((mqttLoop e.inbox s).1.pairingInProgress = true ∧ e.wifiConnected2 = true)) :
    loop e s = some ((pairingStep e (mqttLoop e.inbox s).1).1,
      (mqttLoop e.inbox s).2 ++ (pairingStep e (mqttLoop e.inbox s).1).2) ∧
    ((pairingStep e (mqttLoop e.inbox s).1).1 = (mqttLoop e.inbox s).1 ∨
      (pairingStep e (mqttLoop e.inbox s).1).1 =
        { (mqttLoop e.inbox s).1 with pairingInProgress := false }) := by
  have hg := congrArg State.gameState (mqttLoop_frame e.inbox s)
  simp only at hg
  have hstate : (pairingStep e (mqttLoop e.inbox s).1).1 = (mqttLoop e.inbox s).1 ∨
      (pairingStep e (mqttLoop e.inbox s).1).1 =
        { (mqttLoop e.inbox s).1 with pairingInProgress := false } := by
    rcases pairingStep_state e (mqttLoop e.inbox s).1 with h | h | ⟨h1, h2, _⟩
    · exact Or.inl h
    · exact Or.inr h
    · exact absurd ⟨h1, h2⟩ hns
  refine ⟨?_, hstate⟩
  have hpg : (pairingStep e (mqttLoop e.inbox s).1).1.gameState = GameState.WAIT_PAIRING := by
    rcases hstate with h | h
    · rw [h, hg]; exact hw
    · rw [h]; simp only; rw [hg]; exact hw
  unfold loop
  simp only
  rw [if_pos hpg]

/-- C11: for every execution of `loop` that begins in `WAIT_PAIRING`, whatever
the inbox, the buttons, the interrupts and the clocks: unless a pairing attempt
resolves to success in it (an attempt in progress after the deliveries and the
network joined), the execution completes in `WAIT_PAIRING` with round, cursor
and sequence unchanged, also when the attempt fails by timeout; so an execution
that ends outside `WAIT_PAIRING` resolved a pairing success; and an interrupt
handler leaves the state `WAIT_PAIRING`. -/
theorem C11_halted_game_left_only_by_pairing_success (e : LoopEnv) (s : State)
    (hw : s.gameState = GameState.WAIT_PAIRING) :
    (¬ ((mqttLoop e.inbox s).1.pairingInProgress = true ∧ e.wifiConnected2 = true) →
      ∃ s1 out, loop e s = some (s1, out) ∧ s1.gameState = GameState.WAIT_PAIRING ∧
        s1.currentRound = s.currentRound ∧ s1.inputIndex = s.inputIndex ∧
        s1.sequence = s.sequence) ∧
    (∀ (s1 : State) (out : List Effect), loop e s = some (s1, out) →
      s1.gameState ≠ GameState.WAIT_PAIRING →
      (mqttLoop e.inbox s).1.pairingInProgress = true ∧ e.wifiConnected2 = true) ∧
    (∀ i : Fin 4, (isrButton i s).gameState = GameState.WAIT_PAIRING) := by
  have hfr := mqttLoop_frame e.inbox s
  have hg := congrArg State.gameState hfr
  have hq := congrArg State.sequence hfr
  have hc := congrArg State.currentRound hfr
  have hx := congrArg State.inputIndex hfr
  simp only at hg hq hc hx
  have key : ¬ ((mqttLoop e.inbox s).1.pairingInProgress = true ∧ e.wifiConnected2 = true) →
      ∃ s1 out, loop e s = some (s1, out) ∧ s1.gameState = GameState.WAIT_PAIRING ∧
        s1.currentRound = s.currentRound ∧ s1.inputIndex = s.inputIndex ∧
        s1.sequence = s.sequence := by
    intro hns
    obtain ⟨hl, hstate⟩ := loop_halted e s hw hns
    refine ⟨_, _, hl, ?_, ?_, ?_, ?_⟩ <;> rcases hstate with h | h <;> rw [h]
    · rw [hg]; exact hw
    · simp only; rw [hg]; exact hw
    · exact hc
    · exact hc
    · exact hx
    · exact hx
    · exact hq
    · exact hq
  refine ⟨key, ?_, fun _ => hw⟩
  intro s1 out hl hne
  by_contra hns
  obtain ⟨t1, out1, hl1, hg1, _⟩ := key hns
  rw [hl] at hl1
  simp only [Option.some.injEq, Prod.mk.injEq] at hl1
  rw [hl1.1] at hne
  exact hne hg1

/-- C11 at a concrete input: the halted game whose pairing attempt fails by
timeout at clock 11001 stays halted. -/
theorem C11_halted_game_left_only_by_pairing_success_witness :
    ∃ s1 out, loop (quietTick 11001) pairingAttempt = some (s1, out) ∧
      s1.gameState = GameState.WAIT_PAIRING ∧
      s1.currentRound = pairingAttempt.currentRound ∧
      s1.inputIndex = pairingAttempt.inputIndex ∧ s1.sequence = pairingAttempt.sequence :=
  (C11_halted_game_left_only_by_pairing_success (quietTick 11001) pairingAttempt rfl).1
    (by decide)


/-! ## The paired user name -/

theorem pairingStep_keeps_username (e : LoopEnv) (s : State) :
    (pairingStep e s).1.pairedUsername = s.pairedUsername := by
  rcases pairingStep_state e s with h | h | ⟨_, _, h⟩
  · rw [h]
  · rw [h]
  · rw [h]; rfl

/-- C12 as stated fails: with user "ana" paired, the delivery of a pairing
request for user "bob" sets `pairedUsername` to "bob" at once, and the timeout
failure of that attempt (acknowledged as "failed") leaves it "bob". -/
theorem C12_counterexample_request_overwrites_username :
    (awaiting sequence20 2 0 "ana").pairedUsername = "ana" ∧
    (callback pairRequest (awaiting sequence20 2 0 "ana")).1.pairedUsername = "bob" ∧
    (callback pairRequest (awaiting sequence20 2 0 "ana")).1.pairingInProgress = true ∧
    (loop (quietTick 12001) (callback pairRequest (awaiting sequence20 2 0 "ana")).1).map
        (fun r => (r.1.pairedUsername, r.1.pairingInProgress, pairingAcks r.2)) =
      some ("bob", false, [ackDoc "Cafe" "bob" "failed"]) := by
  decide

/-- C12 (amended): `pairedUsername` is assigned the requested user name when the
pairing request is delivered (`callback` on topic `simon/pair` with a parsed
document), before the attempt is resolved; a delivery that is no such request
leaves it; the pairing part of `loop` never changes it, whether the attempt
succeeds, fails or stays in progress; so after an execution of `loop` it is the
value left by the deliveries of that execution. -/
theorem C12_username_assigned_when_request_received (d : Delivery) (doc : JsonDoc) (s : State)
    (hdoc : d.doc = some doc) (htopic : d.topic = "simon/pair") :
    (callback d s).1.pairedUsername = jsonStringOr doc "username" "" ∧
    (∀ (d2 : Delivery) (t : State), d2.doc = none ∨ d2.topic ≠ "simon/pair" →
      (callback d2 t).1.pairedUsername = t.pairedUsername) ∧
    (∀ (e : LoopEnv) (t : State), (pairingStep e t).1.pairedUsername = t.pairedUsername) ∧
    (∀ (e : LoopEnv) (t t1 : State) (out : List Effect), loop e t = some (t1, out) →
      t1.pairedUsername = (mqttLoop e.inbox t).1.pairedUsername) := by
  refine ⟨?_, ?_, pairingStep_keeps_username, ?_⟩
  · simp only [callback, hdoc, htopic, if_true]
  · intro d2 t h
    unfold callback
    rcases h with h | h
    · rw [h]
    · cases d2.doc with
      | none => rfl
      | some doc2 => simp only [h, if_false]
  · intro e t t1 out h
    obtain ⟨hk, _⟩ := loop_pairing e t t1 out h
    rw [hk.2.2.2.2, pairingStep_keeps_username]

/-- C12 (amended) at a concrete input: the request for "bob" delivered while
"ana" is paired. -/
theorem C12_username_assigned_when_request_received_witness :
    (callback pairRequest (awaiting sequence20 2 0 "ana")).1.pairedUsername = "bob" :=
  (C12_username_assigned_when_request_received pairRequest
    [("ssid", JsonValue.str "Cafe"), ("password", JsonValue.str "pw"),
      ("username", JsonValue.str "bob")] (awaiting sequence20 2 0 "ana") rfl rfl).1


/-! ## The outcome of a poll -/

/-- A poll either accepts a press, and then calls `handleUserInput` if input is
awaited, or leaves `rejectedState` with an empty trace. -/
theorem pollButton_eq (i : Fin 4) (e : ButtonEnv) (s : State) :
    pollButton i e s =
      if accepts i e s = true then
        if (acceptedState i e s).gameState = GameState.WAIT_INPUT then
          handleUserInput (i.val : Int) e.input (acceptedState i e s)
        else some (acceptedState i e s, [])
      else some (rejectedState i e s, []) := by
  unfold pollButton accepts acceptedState rejectedState
  simp only [decide_eq_true_eq]
  generalize unlockIfReleased i e.read1 s = u
  by_cases hflag : u.buttonFlags i = true
  · by_cases hlock : u.buttonLocked i = true
    · simp [hflag, hlock]
    · by_cases hread : e.read2 = Level.LOW
      · by_cases hdeb : usub (millis e.clock) (u.lastPressTime i) > debounceDelay
        · simp [hflag, hlock, hread, hdeb]
        · simp [hflag, hlock, hread, hdeb]
      · simp [hflag, hlock, hread]
  · simp [hflag]


theorem unlockIfReleased_locked (i j : Fin 4) (level : Level) (s : State) :
    (unlockIfReleased i level s).buttonLocked j =
      if j = i ∧ s.buttonLocked i = true ∧ level = Level.HIGH then false
      else s.buttonLocked j := by
  unfold unlockIfReleased
  by_cases hc : s.buttonLocked i = true ∧ level = Level.HIGH
  · rw [if_pos hc]
    by_cases hj : j = i
    · subst hj
      simp [hc.1, hc.2]
    · simp [hj, Function.update_noteq hj]
  · rw [if_neg hc]
    by_cases hj : j = i
    · subst hj
      rw [if_neg (fun h => hc h.2)]
    · rw [if_neg (fun h => hj h.1)]

theorem unlockIfReleased_other (i : Fin 4) (level : Level) (s : State) :
    (unlockIfReleased i level s).buttonFlags = s.buttonFlags ∧
    (unlockIfReleased i level s).lastPressTime = s.lastPressTime ∧
    (unlockIfReleased i level s).gameState = s.gameState ∧
    (unlockIfReleased i level s).currentRound = s.currentRound ∧
    (unlockIfReleased i level s).inputIndex = s.inputIndex ∧
    (unlockIfReleased i level s).sequence = s.sequence := by
  unfold unlockIfReleased
  split <;> exact ⟨rfl, rfl, rfl, rfl, rfl, rfl⟩

/-- The locked flags after `handleUserInput`: those before, unless the call
ended in `startNewGame`. -/
theorem handleUserInput_locked (s s1 : State) (idx : Int) (e : InputEnv) (out : List Effect)
    (h : handleUserInput idx e s = some (s1, out)) :
    (s1.buttonLocked = s.buttonLocked ∧ s1.buttonFlags = s.buttonFlags ∧
      s1.lastPressTime = s.lastPressTime) ∨
    (32 ≤ s.currentRound ∧
      s1 = (startNewGame e.newGame { s with inputIndex := s.inputIndex + 1 }).1) := by
  rcases handleUserInput_cases s s1 idx e out h with
    ⟨expected, _, _, hs⟩ | ⟨_, _, hs⟩ | ⟨_, _, _, seq, _, hs⟩ | ⟨_, _, hmax, hs⟩
  · left; rw [hs]; exact ⟨rfl, rfl, rfl⟩
  · left; rw [hs]; exact ⟨rfl, rfl, rfl⟩
  · left; rw [hs]; exact ⟨rfl, rfl, rfl⟩
  · right; exact ⟨hmax, hs⟩

/-- How a poll of channel `i` can unlock channel `j`. -/
theorem pollButton_unlocks (i j : Fin 4) (e : ButtonEnv) (s s1 : State) (out : List Effect)
    (h : pollButton i e s = some (s1, out))
    (hl : s.buttonLocked j = true) (hu : s1.buttonLocked j = false) :
    (j = i ∧ e.read1 = Level.HIGH) ∨
    (accepts i e s = true ∧ s.gameState = GameState.WAIT_INPUT ∧ 32 ≤ s.currentRound ∧
      s1 = (startNewGame e.input.newGame
        { acceptedState i e s with inputIndex := s.inputIndex + 1 }).1) := by
  have hlk := unlockIfReleased_locked i j e.read1 s
  obtain ⟨_, _, hg, hr, hx, _⟩ := unlockIfReleased_other i e.read1 s
  have hrel : (unlockIfReleased i e.read1 s).buttonLocked j = false →
      j = i ∧ e.read1 = Level.HIGH := by
    intro hf
    rw [hlk] at hf
    by_cases hc : j = i ∧ s.buttonLocked i = true ∧ e.read1 = Level.HIGH
    · exact ⟨hc.1, hc.2.2⟩
    · rw [if_neg hc, hl] at hf
      cases hf
  have hacc : (acceptedState i e s).buttonLocked j = false → j = i ∧ e.read1 = Level.HIGH := by
    intro hf
    unfold acceptedState at hf
    simp only at hf
    by_cases hj : j = i
    · subst hj
      rw [Function.update_same] at hf
      cases hf
    · rw [Function.update_noteq hj] at hf
      exact hrel hf
  rw [pollButton_eq] at h
  by_cases ha : accepts i e s = true
  · rw [if_pos ha] at h
    by_cases hw : (acceptedState i e s).gameState = GameState.WAIT_INPUT
    · rw [if_pos hw] at h
      rcases handleUserInput_locked _ s1 _ _ out h with ⟨hk, _, _⟩ | ⟨hmax, hs⟩
      · left
        rw [hk] at hu
        exact hacc hu
      · right
        refine ⟨ha, ?_, ?_, ?_⟩
        · rw [← hg]; exact hw
        · rw [← hr]; exact hmax
        · rw [hs, ← hx]; rfl
    · rw [if_neg hw] at h
      simp only [Option.some.injEq, Prod.mk.injEq] at h
      left
      rw [← h.1] at hu
      exact hacc hu
  · rw [if_neg ha] at h
    simp only [Option.some.injEq, Prod.mk.injEq] at h
    left
    rw [← h.1] at hu
    apply hrel
    unfold rejectedState at hu
    split at hu
    · exact hu
    · exact hu


/-- C13 as stated fails: `startNewGame` reads no line and unlocks a locked
channel; in an execution of `loop` that resolves a pairing success while every
line is held down at both readings, the locked channel 0 ends unlocked. -/
theorem C13_counterexample_new_game_unlocks_held_channel :
    lockedPending.buttonLocked 0 = true ∧
    (startNewGame sampleNewGame lockedPending).1.buttonLocked 0 = false ∧
    pairingLocked.buttonLocked 0 = true ∧
    ((heldJoinedTick 9000).button 0).read1 = Level.LOW ∧
    ((heldJoinedTick 9000).button 0).read2 = Level.LOW ∧
    (loop (heldJoinedTick 9000) pairingLocked).map (fun r => r.1.buttonLocked 0) =
      some false := by
  decide

/-- C13 (amended): a poll of channel `i` turns the locked flag of a channel `j`
from true to false only if `j = i` and the line reads released at the first
statement of the poll, or if the poll ends in `startNewGame` (a press accepted
while input is awaited that completes round 32). `startNewGame` unlocks every
channel without reading a line, and with it the pairing part of `loop` on
success, the delayed start and `handleUserInput` on a perfect clear; the
interrupt handlers, `callback`, `publishScore` and `showSequence` change no
locked flag, and neither do `handleUserInput`, the pairing part and the delayed
start when they do not call `startNewGame`. -/
theorem C13_unlocked_on_release_or_by_new_game (i j : Fin 4) (e : ButtonEnv) (s s1 : State)
    (out : List Effect) (h : pollButton i e s = some (s1, out))
    (hl : s.buttonLocked j = true) (hu : s1.buttonLocked j = false) :
    ((j = i ∧ e.read1 = Level.HIGH) ∨
      (accepts i e s = true ∧ s.gameState = GameState.WAIT_INPUT ∧ 32 ≤ s.currentRound ∧
        s1 = (startNewGame e.input.newGame
          { acceptedState i e s with inputIndex := s.inputIndex + 1 }).1)) ∧
    (∀ (ne : NewGameEnv) (t : State) (k : Fin 4), (startNewGame ne t).1.buttonLocked k = false) ∧
    (∀ (k : Fin 4) (t : State), (isrButton k t).buttonLocked = t.buttonLocked) ∧
    (∀ (d : Delivery) (t : State), (callback d t).1.buttonLocked = t.buttonLocked) ∧
    (∀ (score : Int) (pe : PublishEnv) (t : State),
      (publishScore score pe t).1.buttonLocked = t.buttonLocked) ∧
    (∀ (t t1 : State) (o : List Effect), showSequence t = some (t1, o) →
      t1.buttonLocked = t.buttonLocked) ∧
    (∀ (t t1 : State) (press : Int) (ie : InputEnv) (o : List Effect),
      handleUserInput press ie t = some (t1, o) →
      t1.buttonLocked = t.buttonLocked ∨
      (32 ≤ t.currentRound ∧
        t1 = (startNewGame ie.newGame { t with inputIndex := t.inputIndex + 1 }).1)) ∧
    (∀ (le : LoopEnv) (t : State),
      (pairingStep le t).1.buttonLocked = t.buttonLocked ∨
      (t.pairingInProgress = true ∧ le.wifiConnected2 = true ∧
        (pairingStep le t).1 =
          { (startNewGame le.pairNewGame { t with pairingInProgress := false }).1 with
              gameReady := true })) ∧
    (∀ (le : LoopEnv) (t : State),
      (startDelayStep le t).1.buttonLocked = t.buttonLocked ∨
      (t.gameReady = false ∧
        (startDelayStep le t).1 =
          { (startNewGame le.startNewGame t).1 with gameReady := true })) := by
  refine ⟨pollButton_unlocks i j e s s1 out h hl hu, fun _ _ _ => rfl, fun _ _ => rfl,
    ?_, ?_, ?_, ?_, ?_, ?_⟩
  · intro d t
    have := congrArg State.buttonLocked (callback_frame d t)
    simpa using this
  · intro score pe t
    rw [publishScore_state]
  · intro t t1 o ht
    rw [showSequence_state t t1 o ht]
  · intro t t1 press ie o ht
    rcases handleUserInput_locked t t1 press ie o ht with ⟨hk, _, _⟩ | hr
    · exact Or.inl hk
    · exact Or.inr hr
  · intro le t
    rcases pairingStep_state le t with hp | hp | hp
    · left; rw [hp]
    · left; rw [hp]
    · exact Or.inr hp
  · intro le t
    rcases startDelayStep_state le t with hp | hp
    · left; rw [hp]
    · exact Or.inr hp

/-- C13 (amended) at a concrete input: channel 0 locked and not pending, its
line released: the poll unlocks it, and it does so on the released line. -/
theorem C13_unlocked_on_release_or_by_new_game_witness :
    pollButton 0 ((quietTick 7000).button 0) lockedIdle
      = some (rejectedState 0 ((quietTick 7000).button 0) lockedIdle, []) ∧
    lockedIdle.buttonLocked 0 = true ∧
    (rejectedState 0 ((quietTick 7000).button 0) lockedIdle).buttonLocked 0 = false ∧
    ((0 : Fin 4) = 0 ∧ ((quietTick 7000).button 0).read1 = Level.HIGH) :=
  ⟨by rw [pollButton_eq]; rfl, rfl, rfl,
    (C13_unlocked_on_release_or_by_new_game 0 0 ((quietTick 7000).button 0) lockedIdle
      (rejectedState 0 ((quietTick 7000).button 0) lockedIdle) []
      (by rw [pollButton_eq]; rfl) rfl rfl).1.resolve_right
        (fun hc => absurd hc.1 (by decide))⟩


/-! ## Spacing of accepted presses -/

theorem Seg_nil (g : Fin 4 → Nat) : Seg g g [] :=
  ⟨fun _ h => (by cases h), List.Pairwise.nil, fun _ => le_refl _, fun _ h => (by cases h)⟩

theorem Seg_append (g g1 g2 : Fin 4 → Nat) (a b : List (Fin 4 × Nat))
    (h1 : Seg g g1 a) (h2 : Seg g1 g2 b) : Seg g g2 (a ++ b) := by
  obtain ⟨a1, a2, a3, a4⟩ := h1
  obtain ⟨b1, b2, b3, b4⟩ := h2
  refine ⟨?_, ?_, fun i => le_trans (a3 i) (b3 i), ?_⟩
  · intro x hx
    rcases List.mem_append.mp hx with hx | hx
    · exact a1 x hx
    · exact lt_of_le_of_lt (Nat.add_le_add_right (a3 x.1) _) (b1 x hx)
  · unfold Spaced at *
    rw [List.pairwise_append]
    refine ⟨a2, b2, ?_⟩
    intro x hx y hy hxy
    have hx4 := a4 x hx
    have hy1 := b1 y hy
    rw [hxy] at hx4
    omega
  · intro x hx
    rcases List.mem_append.mp hx with hx | hx
    · exact le_trans (a4 x hx) (b3 x.1)
    · exact b4 x hx

theorem NonWrapping_append (a b : List Nat) (h : NonWrapping (a ++ b)) :
    NonWrapping a ∧ NonWrapping b ∧ ∀ x ∈ a, ∀ y ∈ b, x ≤ y := by
  obtain ⟨hp, hb⟩ := h
  rw [List.pairwise_append] at hp
  exact ⟨⟨hp.1, fun c hc => hb c (List.mem_append_left _ hc)⟩,
    ⟨hp.2.1, fun c hc => hb c (List.mem_append_right _ hc)⟩, hp.2.2⟩

theorem Ghost_drop (g : Fin 4 → Nat) (s : State) (a b : List Nat) (h : Ghost g s (a ++ b)) :
    Ghost g s b :=
  ⟨h.1, fun i c hc => h.2 i c (List.mem_append_right _ hc)⟩

theorem Ghost_of_same_stamps (g : Fin 4 → Nat) (s s1 : State) (future : List Nat)
    (hs : s1.lastPressTime = s.lastPressTime) (h : Ghost g s future) : Ghost g s1 future := by
  unfold Ghost at *
  rw [hs]
  exact h


theorem newGameClocks_mem (ne : NewGameEnv) (i : Fin 4) : ne.clock i ∈ newGameClocks ne := by
  unfold newGameClocks
  fin_cases i <;> simp

theorem millis_of_lt (c : Nat) (h : c < ULONG) : millis c = c := Nat.mod_eq_of_lt h

theorem usub_of_le (a b : Nat) (ha : a < ULONG) (hb : b ≤ a) : usub a b = a - b := by
  unfold usub
  unfold ULONG at *
  omega

/-- After `startNewGame` the bookkeeping still holds, for the clocks that follow
those it read. -/
theorem Ghost_startNewGame (g : Fin 4 → Nat) (ne : NewGameEnv) (s : State) (rest : List Nat)
    (hg : Ghost g s (newGameClocks ne ++ rest))
    (hnw : NonWrapping (newGameClocks ne ++ rest)) :
    Ghost g (startNewGame ne s).1 rest := by
  obtain ⟨h1, _, h3⟩ := NonWrapping_append _ _ hnw
  have hst : ∀ i, (startNewGame ne s).1.lastPressTime i = ne.clock i := by
    intro i
    exact millis_of_lt _ (h1.2 _ (newGameClocks_mem ne i))
  refine ⟨fun i => ?_, fun i c hc => ?_⟩
  · rw [hst]
    exact le_trans (hg.1 i) (hg.2 i _ (List.mem_append_left _ (newGameClocks_mem ne i)))
  · rw [hst]
    exact h3 _ (newGameClocks_mem ne i) c hc

/-- The bookkeeping is kept by the pairing part of `loop`. -/
theorem Ghost_pairingStep (g : Fin 4 → Nat) (e : LoopEnv) (s : State) (rest : List Nat)
    (hg : Ghost g s (newGameClocks e.pairNewGame ++ rest))
    (hnw : NonWrapping (newGameClocks e.pairNewGame ++ rest)) :
    Ghost g (pairingStep e s).1 rest := by
  rcases pairingStep_state e s with h | h | ⟨_, _, h⟩
  · rw [h]; exact Ghost_drop _ _ _ _ hg
  · rw [h]; exact Ghost_of_same_stamps _ s _ _ rfl (Ghost_drop _ _ _ _ hg)
  · rw [h]
    exact Ghost_of_same_stamps _ (startNewGame e.pairNewGame s).1 _ _ rfl
      (Ghost_startNewGame g e.pairNewGame s rest hg hnw)

/-- The bookkeeping is kept by the delayed start of `loop`. -/
theorem Ghost_startDelayStep (g : Fin 4 → Nat) (e : LoopEnv) (s : State) (rest : List Nat)
    (hg : Ghost g s (newGameClocks e.startNewGame ++ rest))
    (hnw : NonWrapping (newGameClocks e.startNewGame ++ rest)) :
    Ghost g (startDelayStep e s).1 rest := by
  rcases startDelayStep_state e s with h | ⟨_, h⟩
  · rw [h]; exact Ghost_drop _ _ _ _ hg
  · rw [h]
    exact Ghost_of_same_stamps _ (startNewGame e.startNewGame s).1 _ _ rfl
      (Ghost_startNewGame g e.startNewGame s rest hg hnw)


theorem NonWrapping_cons (c : Nat) (l : List Nat) (h : NonWrapping (c :: l)) :
    c < ULONG ∧ (∀ b ∈ l, c ≤ b) ∧ NonWrapping l := by
  obtain ⟨hp, hb⟩ := h
  rw [List.pairwise_cons] at hp
  exact ⟨hb c (List.mem_cons_self _ _), hp.1, hp.2, fun x hx => hb x (List.mem_cons_of_mem _ hx)⟩

theorem rejectedState_stamps (i : Fin 4) (e : ButtonEnv) (s : State) :
    (rejectedState i e s).lastPressTime = s.lastPressTime := by
  obtain ⟨_, hlp, _⟩ := unlockIfReleased_other i e.read1 s
  unfold rejectedState
  split
  · exact hlp
  · exact hlp

theorem acceptedState_stamps (i : Fin 4) (e : ButtonEnv) (s : State) :
    (acceptedState i e s).lastPressTime = Function.update s.lastPressTime i (millis e.clock) := by
  obtain ⟨_, hlp, _⟩ := unlockIfReleased_other i e.read1 s
  unfold acceptedState
  simp only [hlp]

/-- An accepting poll finds more than `debounceDelay` between `lastPressTime`
and the clock, when the clock does not wrap and `lastPressTime` is in the
past. -/
theorem accepts_elapsed (i : Fin 4) (e : ButtonEnv) (s : State) (ha : accepts i e s = true)
    (hc : e.clock < ULONG) (hp : s.lastPressTime i ≤ e.clock) :
    s.lastPressTime i + debounceDelay < e.clock := by
  obtain ⟨_, hlp, _⟩ := unlockIfReleased_other i e.read1 s
  unfold accepts at ha
  simp only [decide_eq_true_eq] at ha
  have h4 := ha.2.2.2
  rw [hlp, millis_of_lt _ hc, usub_of_le _ _ hc hp] at h4
  omega

/-- One poll as a stretch of accepted presses. -/
theorem poll_segment (i : Fin 4) (be : ButtonEnv) (s : State) (g : Fin 4 → Nat)
    (rest : List Nat) (hg : Ghost g s (buttonClocks be ++ rest))
    (hnw : NonWrapping (buttonClocks be ++ rest)) :
    ∃ g1, Seg g g1 (if accepts i be s = true then [(i, millis be.clock)] else []) ∧
      ∀ r, pollButton i be s = some r → Ghost g1 r.1 rest := by
  have hnw0 : NonWrapping (be.clock :: (newGameClocks be.input.newGame ++ rest)) := hnw
  obtain ⟨hclt, hcle, hnwt⟩ := NonWrapping_cons _ _ hnw0
  have hnow : millis be.clock = be.clock := millis_of_lt _ hclt
  have hcmem : be.clock ∈ buttonClocks be ++ rest :=
    List.mem_append_left _ (List.mem_cons_self _ _)
  have htail : ∀ c ∈ newGameClocks be.input.newGame ++ rest, c ∈ buttonClocks be ++ rest := by
    intro c hc
    show c ∈ be.clock :: (newGameClocks be.input.newGame ++ rest)
    exact List.mem_cons_of_mem _ hc
  by_cases ha : accepts i be s = true
  · rw [if_pos ha]
    have hdeb := accepts_elapsed i be s ha hclt (hg.2 i _ hcmem)
    have hgi := hg.1 i
    refine ⟨Function.update g i be.clock, ⟨?_, ?_, ?_, ?_⟩, ?_⟩
    · intro a hm
      rw [List.mem_singleton] at hm
      rw [hm, hnow]
      simp only
      omega
    · exact List.pairwise_singleton _ _
    · intro k
      by_cases hk : k = i
      · subst hk
        rw [Function.update_same]
        omega
      · rw [Function.update_noteq hk]
    · intro a hm
      rw [List.mem_singleton] at hm
      rw [hm, hnow]
      simp only [Function.update_same, le_refl]
    · have hGacc : Ghost (Function.update g i be.clock) (acceptedState i be s)
          (newGameClocks be.input.newGame ++ rest) := by
        refine ⟨fun k => ?_, fun k c hc => ?_⟩
        · rw [acceptedState_stamps, hnow]
          by_cases hk : k = i
          · subst hk
            simp only [Function.update_same, le_refl]
          · simp only [Function.update_noteq hk]
            exact hg.1 k
        · rw [acceptedState_stamps, hnow]
          by_cases hk : k = i
          · subst hk
            simp only [Function.update_same]
            exact hcle c hc
          · simp only [Function.update_noteq hk]
            exact hg.2 k c (htail c hc)
      intro r hr
      rw [pollButton_eq, if_pos ha] at hr
      by_cases hw : (acceptedState i be s).gameState = GameState.WAIT_INPUT
      · rw [if_pos hw] at hr
        rcases handleUserInput_locked _ r.1 _ _ r.2 hr with ⟨_, _, hst⟩ | ⟨_, hs⟩
        · exact Ghost_of_same_stamps _ _ _ _ hst (Ghost_drop _ _ _ _ hGacc)
        · rw [hs]
          exact Ghost_startNewGame _ _ _ _
            (Ghost_of_same_stamps _ (acceptedState i be s) _ _ rfl hGacc) hnwt
      · rw [if_neg hw] at hr
        simp only [Option.some.injEq] at hr
        rw [← hr]
        exact Ghost_drop _ _ _ _ hGacc
  · rw [if_neg ha]
    refine ⟨g, Seg_nil g, ?_⟩
    intro r hr
    rw [pollButton_eq, if_neg ha] at hr
    simp only [Option.some.injEq] at hr
    rw [← hr]
    exact Ghost_of_same_stamps _ s _ _ (rejectedState_stamps i be s) (Ghost_drop _ _ _ _ hg)


/-- The button loop as a stretch of accepted presses. -/
theorem polls_segment (e : LoopEnv) (chans : List (Fin 4)) :
    ∀ (s : State) (g : Fin 4 → Nat) (rest : List Nat),
      Ghost g s (pollClocks e chans ++ rest) → NonWrapping (pollClocks e chans ++ rest) →
      ∃ g1, Seg g g1 (pollAccepts e chans s) ∧
        ∀ r, pollButtons e chans s = some r → Ghost g1 r.1 rest := by
  induction chans with
  | nil =>
    intro s g rest hg _
    refine ⟨g, Seg_nil g, ?_⟩
    intro r hr
    simp only [pollButtons, Option.some.injEq] at hr
    rw [← hr]
    exact hg
  | cons i tl ih =>
    intro s g rest hg hnw
    have hassoc : pollClocks e (i :: tl) ++ rest =
        buttonClocks (e.button i) ++ (pollClocks e tl ++ rest) := by
      simp only [pollClocks, List.append_assoc]
    rw [hassoc] at hg hnw
    have hg0 : Ghost g (raiseInterrupts (e.irq i) s)
        (buttonClocks (e.button i) ++ (pollClocks e tl ++ rest)) :=
      Ghost_of_same_stamps _ s _ _ rfl hg
    obtain ⟨g1, hseg1, hnext⟩ := poll_segment i (e.button i) _ g _ hg0 hnw
    obtain ⟨_, hnw2, _⟩ := NonWrapping_append _ _ hnw
    cases hp : pollButton i (e.button i) (raiseInterrupts (e.irq i) s) with
    | none =>
      refine ⟨g1, ?_, ?_⟩
      · simp only [pollAccepts, hp, List.append_nil]
        exact hseg1
      · intro r hr
        simp only [pollButtons, hp] at hr
        cases hr
    | some r1 =>
      obtain ⟨g2, hseg2, hfin⟩ := ih r1.1 g1 rest (hnext r1 hp) hnw2
      refine ⟨g2, ?_, ?_⟩
      · simp only [pollAccepts, hp]
        exact Seg_append _ _ _ _ _ hseg1 hseg2
      · intro r hr
        simp only [pollButtons, hp] at hr
        cases hq : pollButtons e tl r1.1 with
        | none => rw [hq] at hr; cases hr
        | some q =>
          rw [hq] at hr
          simp only [Option.some.injEq] at hr
          rw [← hr]
          exact hfin q hq

theorem gameStateStep_stamps (s s1 : State) (out : List Effect)
    (h : gameStateStep s = some (s1, out)) : s1.lastPressTime = s.lastPressTime := by
  rcases gameStateStep_cases s s1 out h with ⟨_, hs, _⟩ | ⟨_, hs⟩
  · rw [hs]
  · rw [showSequence_state s s1 out hs]

/-- One execution of `loop` as a stretch of accepted presses. -/
theorem loop_segment (e : LoopEnv) (s : State) (g : Fin 4 → Nat) (rest : List Nat)
    (hg : Ghost g s (loopClocks e ++ rest)) (hnw : NonWrapping (loopClocks e ++ rest)) :
    ∃ g1, Seg g g1 (loopAccepts e s) ∧ ∀ r, loop e s = some r → Ghost g1 r.1 rest := by
  have hassoc : loopClocks e ++ rest = newGameClocks e.pairNewGame ++
      (newGameClocks e.startNewGame ++ (pollClocks e [0, 1, 2, 3] ++ rest)) := by
    simp only [loopClocks, List.append_assoc]
  rw [hassoc] at hg hnw
  have hm := congrArg State.lastPressTime (mqttLoop_frame e.inbox s)
  simp only at hm
  have hgm := Ghost_of_same_stamps g s (mqttLoop e.inbox s).1 _ hm hg
  have hgp := Ghost_pairingStep g e (mqttLoop e.inbox s).1 _ hgm hnw
  obtain ⟨_, hnw2, _⟩ := NonWrapping_append _ _ hnw
  have hgd := Ghost_startDelayStep g e (pairingStep e (mqttLoop e.inbox s).1).1 _ hgp hnw2
  obtain ⟨_, hnw3, _⟩ := NonWrapping_append _ _ hnw2
  by_cases hw : (pairingStep e (mqttLoop e.inbox s).1).1.gameState = GameState.WAIT_PAIRING
  · refine ⟨g, ?_, ?_⟩
    · simp only [loopAccepts, hw, if_true]
      exact Seg_nil g
    · intro r hr
      rcases loop_cases e s r.1 r.2 hr with ⟨_, hs, _⟩ | ⟨hne, _⟩
      · rw [hs]
        exact Ghost_drop _ _ _ _ (Ghost_drop _ _ _ _ hgp)
      · exact absurd hw hne
  · obtain ⟨g1, hseg, hfin⟩ := polls_segment e [0, 1, 2, 3] _ g rest hgd hnw3
    refine ⟨g1, ?_, ?_⟩
    · simp only [loopAccepts, hw, if_false]
      exact hseg
    · intro r hr
      rcases loop_cases e s r.1 r.2 hr with ⟨hw2, _, _⟩ | ⟨_, b, gs, hb, hgs, hs, _⟩
      · exact absurd hw2 hw
      · rw [hs]
        exact Ghost_of_same_stamps _ b.1 _ _ (gameStateStep_stamps b.1 gs.1 gs.2 hgs)
          (hfin b hb)

/-- An execution as a stretch of accepted presses. -/
theorem run_segment (steps : List Step) :
    ∀ (s : State) (g : Fin 4 → Nat), Ghost g s (runClocks steps) →
      NonWrapping (runClocks steps) → ∃ g1, Seg g g1 (runAccepts steps s) := by
  induction steps with
  | nil => intro s g _ _; exact ⟨g, Seg_nil g⟩
  | cons st tl ih =>
    intro s g hg hnw
    cases st with
    | interrupt i =>
      exact ih (isrButton i s) g (Ghost_of_same_stamps _ s _ _ rfl hg) hnw
    | tick e =>
      have hg2 : Ghost g s (loopClocks e ++ runClocks tl) := hg
      have hnw2 : NonWrapping (loopClocks e ++ runClocks tl) := hnw
      obtain ⟨g1, hseg, hfin⟩ := loop_segment e s g _ hg2 hnw2
      obtain ⟨_, hnw3, _⟩ := NonWrapping_append _ _ hnw2
      cases hl : loop e s with
      | none =>
        refine ⟨g1, ?_⟩
        simp only [runAccepts, hl, List.append_nil]
        exact hseg
      | some r =>
        obtain ⟨g2, hseg2⟩ := ih r.1 g1 (hfin r hl) hnw3
        refine ⟨g2, ?_⟩
        simp only [runAccepts, hl]
        exact Seg_append _ _ _ _ _ hseg hseg2


/-- How a poll of channel `i` can lock channel `j`. -/
theorem pollButton_locks (i j : Fin 4) (e : ButtonEnv) (s s1 : State) (out : List Effect)
    (h : pollButton i e s = some (s1, out))
    (hl : s.buttonLocked j = false) (hu : s1.buttonLocked j = true) :
    j = i ∧ accepts i e s = true ∧ s1.lastPressTime i = millis e.clock := by
  have hlk := unlockIfReleased_locked i j e.read1 s
  have hrel : (unlockIfReleased i e.read1 s).buttonLocked j = false := by
    rw [hlk]
    split
    · rfl
    · exact hl
  rw [pollButton_eq] at h
  by_cases ha : accepts i e s = true
  · rw [if_pos ha] at h
    have hacc : (acceptedState i e s).buttonLocked j = true → j = i := by
      intro hf
      unfold acceptedState at hf
      simp only at hf
      by_cases hj : j = i
      · exact hj
      · rw [Function.update_noteq hj, hrel] at hf
        cases hf
    have hst : (acceptedState i e s).lastPressTime i = millis e.clock := by
      rw [acceptedState_stamps, Function.update_same]
    by_cases hw : (acceptedState i e s).gameState = GameState.WAIT_INPUT
    · rw [if_pos hw] at h
      rcases handleUserInput_locked _ s1 _ _ out h with ⟨hk, _, hs⟩ | ⟨_, hs⟩
      · rw [hk] at hu
        exact ⟨hacc hu, ha, by rw [hs]; exact hst⟩
      · rw [hs] at hu
        cases hu
    · rw [if_neg hw] at h
      simp only [Option.some.injEq, Prod.mk.injEq] at h
      rw [← h.1] at hu ⊢
      exact ⟨hacc hu, ha, hst⟩
  · rw [if_neg ha] at h
    simp only [Option.some.injEq, Prod.mk.injEq] at h
    rw [← h.1] at hu
    unfold rejectedState at hu
    split at hu
    · simp only at hu
      rw [hrel] at hu
      cases hu
    · rw [hrel] at hu
      cases hu

/-- What an accepting poll of channel `i` leaves. -/
theorem pollButton_accepting (i : Fin 4) (e : ButtonEnv) (s s1 : State) (out : List Effect)
    (h : pollButton i e s = some (s1, out)) (ha : accepts i e s = true) :
    (s1.buttonLocked i = true ∧ s1.lastPressTime i = millis e.clock) ∨
    (s.gameState = GameState.WAIT_INPUT ∧ 32 ≤ s.currentRound ∧
      s1 = (startNewGame e.input.newGame
        { acceptedState i e s with inputIndex := s.inputIndex + 1 }).1) := by
  obtain ⟨_, _, hg, hr, hx, _⟩ := unlockIfReleased_other i e.read1 s
  have hst : (acceptedState i e s).lastPressTime i = millis e.clock := by
    rw [acceptedState_stamps, Function.update_same]
  have hlk : (acceptedState i e s).buttonLocked i = true := by
    unfold acceptedState
    simp only [Function.update_same]
  rw [pollButton_eq, if_pos ha] at h
  by_cases hw : (acceptedState i e s).gameState = GameState.WAIT_INPUT
  · rw [if_pos hw] at h
    rcases handleUserInput_locked _ s1 _ _ out h with ⟨hk, _, hs⟩ | ⟨hmax, hs⟩
    · left
      rw [hk, hs]
      exact ⟨hlk, hst⟩
    · right
      refine ⟨?_, ?_, ?_⟩
      · rw [← hg]; exact hw
      · rw [← hr]; exact hmax
      · rw [hs, ← hx]; rfl
  · rw [if_neg hw] at h
    simp only [Option.some.injEq, Prod.mk.injEq] at h
    left
    rw [← h.1]
    exact ⟨hlk, hst⟩

theorem accepts_iff (i : Fin 4) (e : ButtonEnv) (s : State) :
    accepts i e s = true ↔
      (s.buttonFlags i = true ∧ (s.buttonLocked i = false ∨ e.read1 = Level.HIGH) ∧
        e.read2 = Level.LOW ∧ usub (millis e.clock) (s.lastPressTime i) > debounceDelay) := by
  obtain ⟨hf, hlp, _⟩ := unlockIfReleased_other i e.read1 s
  have hlk := unlockIfReleased_locked i i e.read1 s
  unfold accepts
  simp only [decide_eq_true_eq, hf, hlp, hlk, true_and]
  constructor
  · rintro ⟨h1, h2, h3, h4⟩
    refine ⟨h1, ?_, h3, h4⟩
    by_cases hc : s.buttonLocked i = true ∧ e.read1 = Level.HIGH
    · exact Or.inr hc.2
    · rw [if_neg hc] at h2
      left
      simpa using h2
  · rintro ⟨h1, h2, h3, h4⟩
    refine ⟨h1, ?_, h3, h4⟩
    by_cases hc : s.buttonLocked i = true ∧ e.read1 = Level.HIGH
    · rw [if_pos hc]; simp
    · rw [if_neg hc]
      rcases h2 with h2 | h2
      · simp [h2]
      · intro hl
        exact hc ⟨hl, h2⟩


/-- How a poll of channel `i` can write `lastPressTime[j]`. -/
theorem pollButton_stamps (i j : Fin 4) (e : ButtonEnv) (s s1 : State) (out : List Effect)
    (h : pollButton i e s = some (s1, out)) :
    s1.lastPressTime j = s.lastPressTime j ∨
    (j = i ∧ accepts i e s = true ∧ s1.lastPressTime i = millis e.clock) ∨
    (accepts i e s = true ∧ s.gameState = GameState.WAIT_INPUT ∧ 32 ≤ s.currentRound ∧
      s1 = (startNewGame e.input.newGame
        { acceptedState i e s with inputIndex := s.inputIndex + 1 }).1) := by
  obtain ⟨_, _, hg, hr, hx, _⟩ := unlockIfReleased_other i e.read1 s
  have hacc : (acceptedState i e s).lastPressTime j = s.lastPressTime j ∨
      (j = i ∧ (acceptedState i e s).lastPressTime i = millis e.clock) := by
    rw [acceptedState_stamps]
    by_cases hj : j = i
    · right
      exact ⟨hj, by rw [Function.update_same]⟩
    · left
      rw [Function.update_noteq hj]
  rw [pollButton_eq] at h
  by_cases ha : accepts i e s = true
  · rw [if_pos ha] at h
    by_cases hw : (acceptedState i e s).gameState = GameState.WAIT_INPUT
    · rw [if_pos hw] at h
      rcases handleUserInput_locked _ s1 _ _ out h with ⟨_, _, hs⟩ | ⟨hmax, hs⟩
      · rw [hs]
        rcases hacc with hk | ⟨hj, hk⟩
        · exact Or.inl hk
        · exact Or.inr (Or.inl ⟨hj, ha, hk⟩)
      · right; right
        refine ⟨ha, ?_, ?_, ?_⟩
        · rw [← hg]; exact hw
        · rw [← hr]; exact hmax
        · rw [hs, ← hx]; rfl
    · rw [if_neg hw] at h
      simp only [Option.some.injEq, Prod.mk.injEq] at h
      rw [← h.1]
      rcases hacc with hk | ⟨hj, hk⟩
      · exact Or.inl hk
      · exact Or.inr (Or.inl ⟨hj, ha, hk⟩)
  · rw [if_neg ha] at h
    simp only [Option.some.injEq, Prod.mk.injEq] at h
    left
    rw [← h.1, rejectedState_stamps]

/-- C14 as stated fails, in both directions of "in exactly that case
`lastAcceptedAt` becomes now". The first execution of `loop` after the start
delay accepts no press and locks no channel, yet `startNewGame` rewrites
`lastPressTime[0]` from 0 to the clock 6000. And a poll that accepts the last
press of round 32 at clock 7000 (pending, line held down, more than 200 ms
elapsed) ends with the channel unlocked and `lastPressTime[1]` equal to the clock
7650 read by `startNewGame`, not to `now`. -/
theorem C14_counterexample_new_game_rewrites_stamps :
    (setup sampleSetup initial).lastPressTime 0 = 0 ∧
    loopAccepts (quietTick 6000) (setup sampleSetup initial) = [] ∧
    (loop (quietTick 6000) (setup sampleSetup initial)).map
        (fun r => (r.1.lastPressTime 0, r.1.buttonLocked 0)) = some (6000, false) ∧
    lastRoundPending.buttonLocked 1 = false ∧
    accepts 1 lastPressLine lastRoundPending = true ∧
    millis lastPressLine.clock = 7000 ∧
    (pollButton 1 lastPressLine lastRoundPending).map
        (fun r => (r.1.buttonLocked 1, r.1.lastPressTime 1)) = some (false, 7650) := by
  decide

/-- C14 (amended): a poll of channel `i` turns the locked flag of a channel `j`
from false to true only if `j = i` and the poll accepts a press: the pending
flag is set, the line reads pressed and `now - lastPressTime[i] > 200`;
`lastPressTime[i]` is then `now`. An accepting poll leaves the channel locked
with `lastPressTime[i] = now`, unless the press completes round 32 and
`startNewGame` follows. No other operation turns a locked flag from false to
true. `lastPressTime` is written only by an accepting poll (with `now`, for its
own channel) and by `startNewGame` (with the current clock, for every channel,
no press being accepted): the interrupt handlers, `callback`, `publishScore` and
`showSequence` never write it, `handleUserInput`, the pairing part and the
delayed start only through `startNewGame`. Along every execution (interrupts
and executions of `loop`) whose clock does not wrap (the readings that can
reach `lastPressTime` never decrease and stay below `2^32`) and that starts with
every `lastPressTime` in the past, any two presses accepted on the same channel
have timestamps more than `debounceDelay` = 200 ms apart. -/
theorem C14_lock_only_on_debounced_press (steps : List Step) (s : State)
    (hpast : ∀ i, ∀ c ∈ runClocks steps, s.lastPressTime i ≤ c)
    (hnw : NonWrapping (runClocks steps)) :
    Spaced (runAccepts steps s) ∧
    (∀ (i j : Fin 4) (be : ButtonEnv) (t t1 : State) (out : List Effect),
      pollButton i be t = some (t1, out) → t.buttonLocked j = false →
      t1.buttonLocked j = true →
      j = i ∧ accepts i be t = true ∧ t.buttonFlags i = true ∧ be.read2 = Level.LOW ∧
        usub (millis be.clock) (t.lastPressTime i) > debounceDelay ∧
        t1.lastPressTime i = millis be.clock) ∧
    (∀ (i : Fin 4) (be : ButtonEnv) (t t1 : State) (out : List Effect),
      pollButton i be t = some (t1, out) → accepts i be t = true →
      (t1.buttonLocked i = true ∧ t1.lastPressTime i = millis be.clock) ∨
      (t.gameState = GameState.WAIT_INPUT ∧ 32 ≤ t.currentRound ∧
        t1 = (startNewGame be.input.newGame
          { acceptedState i be t with inputIndex := t.inputIndex + 1 }).1)) ∧
    (∀ (k : Fin 4) (t : State), (isrButton k t).buttonLocked = t.buttonLocked) ∧
    (∀ (d : Delivery) (t : State), (callback d t).1.buttonLocked = t.buttonLocked) ∧
    (∀ (score : Int) (pe : PublishEnv) (t : State),
      (publishScore score pe t).1.buttonLocked = t.buttonLocked) ∧
    (∀ (t t1 : State) (o : List Effect), showSequence t = some (t1, o) →
      t1.buttonLocked = t.buttonLocked) ∧
    (∀ (ne : NewGameEnv) (t : State) (k : Fin 4), (startNewGame ne t).1.buttonLocked k = false) ∧
    (∀ (t t1 : State) (press : Int) (ie : InputEnv) (o : List Effect) (k : Fin 4),
      handleUserInput press ie t = some (t1, o) → t.buttonLocked k = false →
      t1.buttonLocked k = false) ∧
    (∀ (le : LoopEnv) (t : State) (k : Fin 4), t.buttonLocked k = false →
      (pairingStep le t).1.buttonLocked k = false) ∧
    (∀ (le : LoopEnv) (t : State) (k : Fin 4), t.buttonLocked k = false →
      (startDelayStep le t).1.buttonLocked k = false) ∧
    (∀ (i j : Fin 4) (be : ButtonEnv) (t t1 : State) (out : List Effect),
      pollButton i be t = some (t1, out) →
      t1.lastPressTime j = t.lastPressTime j ∨
      (j = i ∧ accepts i be t = true ∧ t1.lastPressTime i = millis be.clock) ∨
      (accepts i be t = true ∧ t.gameState = GameState.WAIT_INPUT ∧ 32 ≤ t.currentRound ∧
        t1 = (startNewGame be.input.newGame
          { acceptedState i be t with inputIndex := t.inputIndex + 1 }).1)) ∧
    (∀ (ne : NewGameEnv) (t : State) (k : Fin 4),
      (startNewGame ne t).1.lastPressTime k = millis (ne.clock k)) ∧
    (∀ (k : Fin 4) (t : State), (isrButton k t).lastPressTime = t.lastPressTime) ∧
    (∀ (d : Delivery) (t : State), (callback d t).1.lastPressTime = t.lastPressTime) ∧
    (∀ (score : Int) (pe : PublishEnv) (t : State),
      (publishScore score pe t).1.lastPressTime = t.lastPressTime) ∧
    (∀ (t t1 : State) (o : List Effect), showSequence t = some (t1, o) →
      t1.lastPressTime = t.lastPressTime) ∧
    (∀ (t t1 : State) (press : Int) (ie : InputEnv) (o : List Effect),
      handleUserInput press ie t = some (t1, o) →
      t1.lastPressTime = t.lastPressTime ∨
      (32 ≤ t.currentRound ∧
        t1 = (startNewGame ie.newGame { t with inputIndex := t.inputIndex + 1 }).1)) ∧
    (∀ (le : LoopEnv) (t : State),
      (pairingStep le t).1.lastPressTime = t.lastPressTime ∨
      (t.pairingInProgress = true ∧ le.wifiConnected2 = true ∧
        (pairingStep le t).1 =
          { (startNewGame le.pairNewGame { t with pairingInProgress := false }).1 with
              gameReady := true })) ∧
    (∀ (le : LoopEnv) (t : State),
      (startDelayStep le t).1.lastPressTime = t.lastPressTime ∨
      (t.gameReady = false ∧
        (startDelayStep le t).1 =
          { (startNewGame le.startNewGame t).1 with gameReady := true })) := by
  refine ⟨?_, ?_, ?_, fun _ _ => rfl, ?_, ?_, ?_, fun _ _ _ => rfl, ?_, ?_, ?_,
    fun i j be t t1 out h => pollButton_stamps i j be t t1 out h, fun _ _ _ => rfl,
    fun _ _ => rfl, ?_, ?_, ?_, ?_, ?_, ?_⟩
  · obtain ⟨g1, hseg⟩ := run_segment steps s s.lastPressTime
      ⟨fun _ => le_refl _, hpast⟩ hnw
    exact hseg.2.1
  · intro i j be t t1 out h hl hu
    obtain ⟨hj, ha, hst⟩ := pollButton_locks i j be t t1 out h hl hu
    have hc := (accepts_iff i be t).mp ha
    exact ⟨hj, ha, hc.1, hc.2.2.1, hc.2.2.2, hst⟩
  · intro i be t t1 out h ha
    exact pollButton_accepting i be t t1 out h ha
  · intro d t
    have := congrArg State.buttonLocked (callback_frame d t)
    simpa using this
  · intro score pe t
    rw [publishScore_state]
  · intro t t1 o ht
    rw [showSequence_state t t1 o ht]
  · intro t t1 press ie o k ht hk
    rcases handleUserInput_locked t t1 press ie o ht with ⟨hs, _, _⟩ | ⟨_, hs⟩
    · rw [hs]; exact hk
    · rw [hs]; rfl
  · intro le t k hk
    rcases pairingStep_state le t with hp | hp | ⟨_, _, hp⟩
    · rw [hp]; exact hk
    · rw [hp]; exact hk
    · rw [hp]; rfl
  · intro le t k hk
    rcases startDelayStep_state le t with hp | ⟨_, hp⟩
    · rw [hp]; exact hk
    · rw [hp]; rfl
  · intro d t
    have := congrArg State.lastPressTime (callback_frame d t)
    simpa using this
  · intro score pe t
    rw [publishScore_state]
  · intro t t1 o ht
    rw [showSequence_state t t1 o ht]
  · intro t t1 press ie o ht
    rcases handleUserInput_locked t t1 press ie o ht with ⟨_, _, hs⟩ | hr
    · exact Or.inl hs
    · exact Or.inr hr
  · intro le t
    rcases pairingStep_state le t with hp | hp | hp
    · left; rw [hp]
    · left; rw [hp]
    · exact Or.inr hp
  · intro le t
    rcases startDelayStep_state le t with hp | hp
    · left; rw [hp]
    · exact Or.inr hp

theorem sampleRun_clocks : NonWrapping (runClocks sampleRun) := by
  unfold NonWrapping
  decide

theorem sampleRun_accepts :
    runAccepts sampleRun (setup sampleSetup initial) = [(2, 7000), (2, 7300)] := by
  decide

/-- C14 (amended) at a concrete execution: after `setup` the first game starts at 6000,
channel 2 is pressed at 7000 (accepted), bounces at 7100 (rejected, 100 ms) and
is pressed again at 7300 (accepted, 300 ms). -/
theorem C14_lock_only_on_debounced_press_witness :
    runAccepts sampleRun (setup sampleSetup initial) = [(2, 7000), (2, 7300)] ∧
    Spaced (runAccepts sampleRun (setup sampleSetup initial)) :=
  ⟨sampleRun_accepts,
    (C14_lock_only_on_debounced_press sampleRun (setup sampleSetup initial)
      (fun _ _ _ => Nat.zero_le _) sampleRun_clocks).1⟩


/-! ## The delayed start -/

theorem startDelayStep_ready (e : LoopEnv) (s : State) (h : s.gameReady = true) :
    startDelayStep e s = (s, []) := by
  unfold startDelayStep
  simp [h]

theorem startDelayStep_early (e : LoopEnv) (s : State)
    (h : usub (millis e.startClock) s.gameStartTime < START_DELAY) :
    startDelayStep e s = (s, []) := by
  unfold startDelayStep
  have : ¬ (usub (millis e.startClock) s.gameStartTime ≥ START_DELAY) := by omega
  simp [this]

theorem startDelayStep_fires (e : LoopEnv) (s : State) (hr : s.gameReady = false)
    (h : usub (millis e.startClock) s.gameStartTime ≥ START_DELAY) :
    startDelayStep e s =
      ({ (startNewGame e.startNewGame s).1 with gameReady := true },
        (startNewGame e.startNewGame s).2) := by
  unfold startDelayStep
  simp [hr, h]

theorem handleUserInput_keeps_ready (s s1 : State) (idx : Int) (e : InputEnv)
    (out : List Effect) (h : handleUserInput idx e s = some (s1, out)) :
    s1.gameReady = s.gameReady := by
  rcases handleUserInput_cases s s1 idx e out h with
    ⟨expected, _, _, hs⟩ | ⟨_, _, hs⟩ | ⟨_, _, _, seq, _, hs⟩ | ⟨_, _, _, hs⟩
  · rw [hs]
  · rw [hs]
  · rw [hs]
  · rw [hs]; rfl

theorem pollButtons_keeps_ready (e : LoopEnv) (chans : List (Fin 4)) :
    ∀ (s s1 : State) (out : List Effect), pollButtons e chans s = some (s1, out) →
      s1.gameReady = s.gameReady := by
  induction chans with
  | nil =>
    intro s s1 out h
    simp only [pollButtons, Option.some.injEq, Prod.mk.injEq] at h
    rw [← h.1]
  | cons i rest ih =>
    intro s s1 out h
    unfold pollButtons at h
    cases hp : pollButton i (e.button i) (raiseInterrupts (e.irq i) s) with
    | none => rw [hp] at h; cases h
    | some r =>
      rw [hp] at h
      simp only at h
      cases hq : pollButtons e rest r.1 with
      | none => rw [hq] at h; cases h
      | some q =>
        rw [hq] at h
        simp only [Option.some.injEq, Prod.mk.injEq] at h
        rw [← h.1, ih r.1 q.1 q.2 hq]
        rcases pollButton_cases i (e.button i) _ r.1 r.2 hp with ⟨hf, _⟩ | ⟨_, s3, hf, hh⟩
        · have := congrArg State.gameReady hf
          simpa using this
        · have := congrArg State.gameReady hf
          simp only at this
          rw [handleUserInput_keeps_ready s3 r.1 _ _ r.2 hh, this]
          rfl

/-- Once `gameReady` is set, an execution of `loop` leaves it set. -/
theorem loop_keeps_ready (e : LoopEnv) (s s1 : State) (out : List Effect)
    (hr : s.gameReady = true) (h : loop e s = some (s1, out)) : s1.gameReady = true := by
  have hm := congrArg State.gameReady (mqttLoop_frame e.inbox s)
  simp only at hm
  have hp : (pairingStep e (mqttLoop e.inbox s).1).1.gameReady = true := by
    rcases pairingStep_state e (mqttLoop e.inbox s).1 with hx | hx | ⟨_, _, hx⟩
    · rw [hx, hm]; exact hr
    · rw [hx]; simp only; rw [hm]; exact hr
    · rw [hx]
  rcases loop_cases e s s1 out h with ⟨_, hs, _⟩ | ⟨_, b, g, hb, hg, hs, _⟩
  · rw [hs]; exact hp
  · have hd : (startDelayStep e (pairingStep e (mqttLoop e.inbox s).1).1).1.gameReady = true := by
      rw [startDelayStep_ready e _ hp]; exact hp
    have hbr := pollButtons_keeps_ready e _ _ b.1 b.2 hb
    rw [hs]
    rcases gameStateStep_cases b.1 g.1 g.2 hg with ⟨_, hx, _⟩ | ⟨_, hx⟩
    · rw [hx, hbr]; exact hd
    · rw [showSequence_state _ _ _ hx]
      simp only
      rw [hbr]; exact hd

/-- C15: for an execution of `loop` from a state in which no game has been
started (`gameReady` false, `WAIT_START`, round 0) and with no pairing attempt in
progress after the deliveries: if `millis() - gameStartTime < 5000` the execution
completes in `WAIT_START` with round 0 and `gameReady` still false, whatever the
buttons and interrupts do; if `millis() - gameStartTime >= 5000` it starts a
game (round 1, cursor 0, `sequence[0]` in `{0,1,2,3}`, replayed in the same
execution, `gameReady` set). Pairing success sets `gameReady` as well, and once
`gameReady` is set the delayed start does nothing and every execution of `loop`
leaves `gameReady` set. -/
theorem C15_game_starts_once_after_delay (e : LoopEnv) (s : State)
    (hready : s.gameReady = false) (hstate : s.gameState = GameState.WAIT_START)
    (hround : s.currentRound = 0)
    (hnoreq : (mqttLoop e.inbox s).1.pairingInProgress = false) :
    (usub (millis e.startClock) s.gameStartTime < START_DELAY →
      ∃ s1 out, loop e s = some (s1, out) ∧ s1.gameState = GameState.WAIT_START ∧
        s1.currentRound = 0 ∧ s1.gameReady = false) ∧
    (usub (millis e.startClock) s.gameStartTime ≥ START_DELAY →
      ∃ s1 out, loop e s = some (s1, out) ∧ s1.currentRound = 1 ∧ s1.inputIndex = 0 ∧
        s1.sequence 0 = random 0 4 e.startNewGame.rawRandom ∧
        0 ≤ s1.sequence 0 ∧ s1.sequence 0 < 4 ∧
        s1.gameState = GameState.WAIT_INPUT ∧ s1.gameReady = true) ∧
    (∀ (le : LoopEnv) (t : State), t.pairingInProgress = true → le.wifiConnected2 = true →
      (pairingStep le t).1.gameReady = true) ∧
    (∀ (le : LoopEnv) (t : State), t.gameReady = true → startDelayStep le t = (t, [])) ∧
    (∀ (le : LoopEnv) (t t1 : State) (out : List Effect), t.gameReady = true →
      loop le t = some (t1, out) → t1.gameReady = true) := by
  have hfr := mqttLoop_frame e.inbox s
  have hg := congrArg State.gameState hfr
  have hc := congrArg State.currentRound hfr
  have hy := congrArg State.gameReady hfr
  have ht := congrArg State.gameStartTime hfr
  simp only at hg hc hy ht
  have hp := pairingStep_idle e (mqttLoop e.inbox s).1 hnoreq
  generalize hmr : mqttLoop e.inbox s = mr at hg hc hy ht hp
  rw [hstate] at hg
  rw [hround] at hc
  rw [hready] at hy
  refine ⟨?_, ?_, ?_, startDelayStep_ready, loop_keeps_ready⟩
  · intro hlt
    rw [← ht] at hlt
    have hd := startDelayStep_early e mr.1 hlt
    obtain ⟨b, hb, hfb⟩ := pollButtons_idle e [0, 1, 2, 3] mr.1 (by rw [hg]; decide)
    have hbg : b.gameState = GameState.WAIT_START := by
      have := congrArg State.gameState hfb
      simp only at this
      rw [this, hg]
    have hbc : b.currentRound = 0 := by
      have := congrArg State.currentRound hfb
      simp only at this
      rw [this, hc]
    have hby : b.gameReady = false := by
      have := congrArg State.gameReady hfb
      simp only at this
      rw [this, hy]
    have hgs : gameStateStep b = some (b, []) := by
      unfold gameStateStep
      rw [hbg]
    have hloop : loop e s = some (b, mr.2 ++ [] ++ [] ++ [] ++ []) := by
      unfold loop
      simp only [hmr, hp]
      rw [if_neg (by rw [hg]; decide)]
      simp only [hd, hb, hgs]
    exact ⟨b, _, hloop, hbg, hbc, hby⟩
  · intro hge
    rw [← ht] at hge
    have hd := startDelayStep_fires e mr.1 hy hge
    obtain ⟨b, hb, hfb⟩ := pollButtons_idle e [0, 1, 2, 3]
      { (startNewGame e.startNewGame mr.1).1 with gameReady := true } (by simp [startNewGame])
    have hbr : b.currentRound = 1 := by
      have := congrArg State.currentRound hfb
      simpa [startNewGame] using this
    have hbs : b.sequence 0 = random 0 4 e.startNewGame.rawRandom := by
      have := congrArg (fun t => State.sequence t 0) hfb
      simpa [startNewGame] using this
    have hbg : b.gameState = GameState.SHOW_SEQUENCE := by
      have := congrArg State.gameState hfb
      simpa [startNewGame] using this
    have hby : b.gameReady = true := by
      have := congrArg State.gameReady hfb
      simpa [startNewGame] using this
    have hrange := random_range e.startNewGame.rawRandom
    obtain ⟨l, _, hshow⟩ := showSequence_round_one b hbr (by rw [hbs]; exact hrange.1)
      (by rw [hbs]; exact hrange.2)
    have hgs : gameStateStep b = showSequence b := by
      unfold gameStateStep
      rw [hbg]
    have hloop : loop e s = some ({ b with inputIndex := 0, gameState := GameState.WAIT_INPUT },
        mr.2 ++ [] ++ (startNewGame e.startNewGame mr.1).2 ++ [] ++
          ([Effect.delay 400] ++ (l ++ []))) := by
      unfold loop
      simp only [hmr, hp]
      rw [if_neg (by rw [hg]; decide)]
      simp only [hd, hb, hgs, hshow]
    exact ⟨_, _, hloop, hbr, rfl, hbs,
      by rw [hbs]; exact hrange.1, by rw [hbs]; exact hrange.2, rfl, hby⟩
  · intro le t h1 h2
    rw [pairingStep_success le t h1 h2]

/-- C15 at concrete inputs: after `setup` at clock 1000, the execution at clock
5999 leaves the game not started and the one at clock 6000 starts it. -/
theorem C15_game_starts_once_after_delay_witness :
    (∃ s1 out, loop (quietTick 5999) (setup sampleSetup initial) = some (s1, out) ∧
      s1.gameState = GameState.WAIT_START ∧ s1.currentRound = 0 ∧ s1.gameReady = false) ∧
    (∃ s1 out, loop (quietTick 6000) (setup sampleSetup initial) = some (s1, out) ∧
      s1.currentRound = 1 ∧ s1.inputIndex = 0 ∧
      s1.sequence 0 = random 0 4 (quietTick 6000).startNewGame.rawRandom ∧
      0 ≤ s1.sequence 0 ∧ s1.sequence 0 < 4 ∧
      s1.gameState = GameState.WAIT_INPUT ∧ s1.gameReady = true) :=
  ⟨(C15_game_starts_once_after_delay (quietTick 5999) (setup sampleSetup initial)
      rfl rfl rfl rfl).1 (by decide),
    (C15_game_starts_once_after_delay (quietTick 6000) (setup sampleSetup initial)
      rfl rfl rfl rfl).2.1 (by decide)⟩


/-! ## The replay -/

theorem litPins_append (a b : List Effect) : litPins (a ++ b) = litPins a ++ litPins b := by
  induction a with
  | nil => rfl
  | cons x rest ih =>
    cases x with
    | digitalWrite pin level =>
      cases level <;> simp [litPins, ih]
    | _ => simp [litPins, ih]

theorem lightTrace_button (sym : Int) (h0 : 0 ≤ sym) (h4 : sym < 4) :
    lightLed sym 400 100 = some (lightTrace sym) ∧ litPins (lightTrace sym) = [ledPinOf sym] := by
  have hcases : sym = 0 ∨ sym = 1 ∨ sym = 2 ∨ sym = 3 := by omega
  rcases hcases with h | h | h | h <;> subst h <;> exact ⟨rfl, rfl⟩

/-- The loop of `showSequence` over symbols that are button indices. -/
theorem showFrom_eq (seq : Fin 32 → Int) (n : Nat) :
    ∀ i : Nat, i + n ≤ 32 →
      (∀ j : Fin 32, i ≤ j.val → j.val < i + n → 0 ≤ seq j ∧ seq j < 4) →
      showFrom seq i n = some (((symbolsFrom seq i n).map lightTrace).flatten) ∧
      litPins (((symbolsFrom seq i n).map lightTrace).flatten)
        = (symbolsFrom seq i n).map ledPinOf := by
  induction n with
  | zero => intro i _ _; exact ⟨rfl, rfl⟩
  | succ n ih =>
    intro i hb hsym
    have hi32 : i < 32 := by omega
    have hs := hsym ⟨i, hi32⟩ (le_refl _) (by simp only; omega)
    obtain ⟨hl, hp⟩ := lightTrace_button _ hs.1 hs.2
    obtain ⟨hrest, hprest⟩ := ih (i + 1) (by omega) (fun j h1 h2 => hsym j (by omega) (by omega))
    have hrd := readSequence_nat seq i hi32
    have hsymb : symbolsFrom seq i (n + 1) = seq ⟨i, hi32⟩ :: symbolsFrom seq (i + 1) n := by
      simp only [symbolsFrom, List.range'_succ, List.map_cons, hrd, Option.getD_some]
    constructor
    · rw [showFrom_succ, hrd]
      simp only [hl, hrest, hsymb, List.map_cons, List.flatten_cons]
    · rw [hsymb]
      simp only [List.map_cons, List.flatten_cons, litPins_append, hp, hprest,
        List.singleton_append]

/-- The loop of `showSequence` reads only the entries it replays. -/
theorem showFrom_congr (seq1 seq2 : Fin 32 → Int) (n : Nat) :
    ∀ i : Nat, (∀ j : Fin 32, i ≤ j.val → j.val < i + n → seq1 j = seq2 j) →
      showFrom seq1 i n = showFrom seq2 i n := by
  induction n with
  | zero => intro i _; rfl
  | succ n ih =>
    intro i h
    have hrest := ih (i + 1) (fun j h1 h2 => h j (by omega) (by omega))
    have hrd : readSequence seq1 (i : Int) = readSequence seq2 (i : Int) := by
      by_cases hi : i < 32
      · rw [readSequence_nat seq1 i hi, readSequence_nat seq2 i hi,
          h ⟨i, hi⟩ (le_refl _) (by simp only; omega)]
      · unfold readSequence
        have hneg : ¬ ((0 : Int) ≤ (i : Int) ∧ (i : Int) < 32) := by omega
        rw [dif_neg hneg, dif_neg hneg]
    rw [showFrom_succ, showFrom_succ, hrd, hrest]

/-- C16: for every state with round `r ≤ 32` whose symbols `sequence[0..r)` are
button indices (in particular in `SHOW_SEQUENCE`), `showSequence` returns the
same state with cursor 0 and game state `WAIT_INPUT` (sequence and round
unchanged); its trace is `delay(400)` followed by the `r` actuations
`lightLed(sequence[0])`, ..., `lightLed(sequence[r-1])` in order, so the pins
switched on are the `r` LED pins of these symbols; and every state with the same
round and the same `sequence[0..r)` yields the same trace. -/
theorem C16_replay_lights_the_sequence_in_order (s : State) (r : Nat)
    (hround : s.currentRound = (r : Int)) (hr : r ≤ 32)
    (hsym : ∀ j : Fin 32, j.val < r → 0 ≤ s.sequence j ∧ s.sequence j < 4) :
    showSequence s =
      some ({ s with inputIndex := 0, gameState := GameState.WAIT_INPUT },
        [Effect.delay 400] ++ ((symbolsFrom s.sequence 0 r).map lightTrace).flatten) ∧
    litPins ([Effect.delay 400] ++ ((symbolsFrom s.sequence 0 r).map lightTrace).flatten)
      = (symbolsFrom s.sequence 0 r).map ledPinOf ∧
    (symbolsFrom s.sequence 0 r).length = r ∧
    (∀ t : State, t.currentRound = (r : Int) →
      (∀ j : Fin 32, j.val < r → t.sequence j = s.sequence j) →
      (showSequence t).map (fun x => x.2) =
        some ([Effect.delay 400] ++ ((symbolsFrom s.sequence 0 r).map lightTrace).flatten)) := by
  obtain ⟨hshow, hlit⟩ := showFrom_eq s.sequence r 0 (by omega)
    (fun j _ hj => hsym j (by omega))
  have hnat : s.currentRound.toNat = r := by rw [hround]; simp
  refine ⟨?_, ?_, ?_, ?_⟩
  · simp only [showSequence, hnat, hshow]
  · rw [litPins_append, hlit]
    rfl
  · simp [symbolsFrom]
  · intro t ht hagree
    have htnat : t.currentRound.toNat = r := by rw [ht]; simp
    have hc := showFrom_congr t.sequence s.sequence r 0 (fun j _ hj => hagree j (by omega))
    simp only [showSequence, htnat, hc, hshow, Option.map_some']

/-- C16 at a concrete input: sequence `2, 0` with round 2 lights pin 5 (LED 2)
then pin 2 (LED 0) and ends waiting for input with cursor 0. -/
theorem C16_replay_lights_the_sequence_in_order_witness :
    showSequence replaying =
      some ({ replaying with inputIndex := 0, gameState := GameState.WAIT_INPUT },
        [Effect.delay 400] ++ ((symbolsFrom replaying.sequence 0 2).map lightTrace).flatten) ∧
    litPins ([Effect.delay 400] ++ ((symbolsFrom replaying.sequence 0 2).map lightTrace).flatten)
      = (symbolsFrom replaying.sequence 0 2).map ledPinOf ∧
    (symbolsFrom replaying.sequence 0 2).map ledPinOf = [5, 2] :=
  ⟨(C16_replay_lights_the_sequence_in_order replaying 2 rfl (by decide) (by decide)).1,
    (C16_replay_lights_the_sequence_in_order replaying 2 rfl (by decide) (by decide)).2.1,
    by decide⟩


/-! ## Pairing success and a pending press in one execution -/

/-- C18: for every state whose cursor is inside the array and every press
different from `sequence[cursor]`, `handleUserInput` completes and leaves the
locked flag, the pending flag and the last accepted time of each of the four
channels as they were before the call. -/
theorem C18_wrong_press_keeps_channel_state (s : State) (idx expected : Int) (e : InputEnv)
    (hread : readSequence s.sequence s.inputIndex = some expected) (hne : idx ≠ expected) :
    ∃ s1 out, handleUserInput idx e s = some (s1, out) ∧
      (∀ i : Fin 4, s1.buttonLocked i = s.buttonLocked i ∧ s1.buttonFlags i = s.buttonFlags i ∧
        s1.lastPressTime i = s.lastPressTime i) :=
  ⟨_, _, handleUserInput_mismatch s idx expected e hread hne, fun _ => ⟨rfl, rfl, rfl⟩⟩

/-- C18 at a concrete input: every channel locked and pending, sequence `2, 0`,
cursor 0, press 1. -/
theorem C18_wrong_press_keeps_channel_state_witness :
    ∃ s1 out, handleUserInput 1 sampleInput lockedPending = some (s1, out) ∧
      (∀ i : Fin 4, s1.buttonLocked i = lockedPending.buttonLocked i ∧
        s1.buttonFlags i = lockedPending.buttonFlags i ∧
        s1.lastPressTime i = lockedPending.lastPressTime i) :=
  C18_wrong_press_keeps_channel_state lockedPending 1 2 sampleInput rfl (by decide)

theorem firstGame_reachable : Reachable firstGame.1 :=
  Reachable.tick (quietTick 6000) (isrButton 2 (setup sampleSetup initial)) firstGame.1
    firstGame.2 (Reachable.interrupt 2 _ (Reachable.boot sampleSetup)) rfl

/-- C19: in every reachable state in which input is awaited, `1 ≤ round ≤ 32` and
`0 ≤ cursor < round`; the read `sequence[cursor]` is inside the array, the write
`sequence[round]` is inside the array whenever `round < 32`, the score
`round - 1` is not negative, and `handleUserInput` completes for each of the four
buttons. From every reachable state an execution of `loop` completes, that is,
none of the array accesses it performs (in `handleUserInput`, `showSequence`
and `lightLed`) is out of bounds. -/
theorem C19_accesses_in_bounds_while_input_awaited (s : State) (h : Reachable s) :
    (s.gameState = GameState.WAIT_INPUT →
      1 ≤ s.currentRound ∧ s.currentRound ≤ 32 ∧ 0 ≤ s.inputIndex ∧
      s.inputIndex < s.currentRound ∧
      (∃ v, readSequence s.sequence s.inputIndex = some v) ∧
      (s.currentRound < 32 →
        ∀ v, ∃ seq, writeSequence s.sequence s.currentRound v = some seq) ∧
      0 ≤ s.currentRound - 1 ∧
      (∀ (idx : Int) (e : InputEnv), 0 ≤ idx → idx < 4 →
        ∃ r, handleUserInput idx e s = some r)) ∧
    (∀ e : LoopEnv, ∃ r, loop e s = some r) := by
  have hi := Inv_of_Reachable s h
  refine ⟨?_, fun e => loop_total e s hi⟩
  intro hw
  obtain ⟨h1, h2, h3, h4, _, _, _, _⟩ := hi
  have hlt := h4 hw
  refine ⟨by omega, h3, h1, hlt, ?_, ?_, by omega, ?_⟩
  · unfold readSequence
    rw [dif_pos ⟨h1, by omega⟩]
    exact ⟨_, rfl⟩
  · intro hmax v
    unfold writeSequence
    rw [dif_pos ⟨by omega, hmax⟩]
    exact ⟨_, rfl⟩
  · intro idx e h0 h4'
    exact handleUserInput_total s idx e (Inv_of_Reachable s h) hw h0 h4'

/-- C19 at a concrete reachable state: the first game waiting for input. -/
theorem C19_accesses_in_bounds_while_input_awaited_witness :
    1 ≤ firstGame.1.currentRound ∧ firstGame.1.currentRound ≤ 32 ∧
    0 ≤ firstGame.1.inputIndex ∧ firstGame.1.inputIndex < firstGame.1.currentRound ∧
    (∃ v, readSequence firstGame.1.sequence firstGame.1.inputIndex = some v) ∧
    (firstGame.1.currentRound < 32 →
      ∀ v, ∃ seq, writeSequence firstGame.1.sequence firstGame.1.currentRound v = some seq) ∧
    0 ≤ firstGame.1.currentRound - 1 ∧
    (∀ (idx : Int) (e : InputEnv), 0 ≤ idx → idx < 4 →
      ∃ r, handleUserInput idx e firstGame.1 = some r) :=
  (C19_accesses_in_bounds_while_input_awaited firstGame.1 firstGame_reachable).1 (by decide)

/-- C20: in every reachable state the game state is one of `WAIT_START`,
`SHOW_SEQUENCE`, `WAIT_INPUT`, `WAIT_PAIRING`, never `GAME_OVER`; a wrong press
takes `handleUserInput` directly to `WAIT_PAIRING`, and no call of
`handleUserInput` or `startNewGame` and no completed `showSequence` ends in
`GAME_OVER`. -/
theorem C20_game_over_never_entered (s : State) (h : Reachable s) :
    s.gameState ≠ GameState.GAME_OVER ∧
    (s.gameState = GameState.WAIT_START ∨ s.gameState = GameState.SHOW_SEQUENCE ∨
      s.gameState = GameState.WAIT_INPUT ∨ s.gameState = GameState.WAIT_PAIRING) ∧
    (∀ (t : State) (idx expected : Int) (e : InputEnv),
      readSequence t.sequence t.inputIndex = some expected → idx ≠ expected →
      ∃ t1 out, handleUserInput idx e t = some (t1, out) ∧
        t1.gameState = GameState.WAIT_PAIRING) ∧
    (∀ (t t1 : State) (idx : Int) (e : InputEnv) (out : List Effect),
      handleUserInput idx e t = some (t1, out) → t.gameState ≠ GameState.GAME_OVER →
      t1.gameState ≠ GameState.GAME_OVER) ∧
    (∀ (ne : NewGameEnv) (t : State), (startNewGame ne t).1.gameState ≠ GameState.GAME_OVER) ∧
    (∀ (t t1 : State) (out : List Effect), showSequence t = some (t1, out) →
      t1.gameState ≠ GameState.GAME_OVER) := by
  obtain ⟨_, _, _, _, _, _, h7, _⟩ := Inv_of_Reachable s h
  refine ⟨h7, ?_, ?_, ?_, ?_, ?_⟩
  · cases hg : s.gameState
    · exact Or.inl rfl
    · exact Or.inr (Or.inl rfl)
    · exact Or.inr (Or.inr (Or.inl rfl))
    · exact absurd hg h7
    · exact Or.inr (Or.inr (Or.inr rfl))
  · intro t idx expected e hread hne
    exact ⟨_, _, handleUserInput_mismatch t idx expected e hread hne, rfl⟩
  · intro t t1 idx e out ht hne
    rcases handleUserInput_cases t t1 idx e out ht with
      ⟨expected, _, _, hs⟩ | ⟨_, _, hs⟩ | ⟨_, _, _, seq, _, hs⟩ | ⟨_, _, _, hs⟩
    · rw [hs]; simp
    · rw [hs]; exact hne
    · rw [hs]; simp
    · rw [hs]; simp [startNewGame]
  · intro ne t
    simp [startNewGame]
  · intro t t1 out ht
    rw [showSequence_state t t1 out ht]
    simp

/-- C20 at a concrete reachable state: the first game waiting for input. -/
theorem C20_game_over_never_entered_witness :
    firstGame.1.gameState ≠ GameState.GAME_OVER ∧
    (firstGame.1.gameState = GameState.WAIT_START ∨
      firstGame.1.gameState = GameState.SHOW_SEQUENCE ∨
      firstGame.1.gameState = GameState.WAIT_INPUT ∨
      firstGame.1.gameState = GameState.WAIT_PAIRING) :=
  ⟨(C20_game_over_never_entered firstGame.1 firstGame_reachable).1,
    (C20_game_over_never_entered firstGame.1 firstGame_reachable).2.1⟩

end Simon
